import Mathlib

/-!
# wowsim `tbc` simulation engine

A shallow embedding of `src/tbc/sim.go` and `src/tbc/sim2.go` and the
properties of the engine that were checked against it.

Conventions of the embedding:

* `float64` values are rationals (`ℚ`); NaN and the infinities are outside
  the model.  The two expressions whose float64 result is turned into a number
  of ticks, `manaRegen()` and the out-of-mana wait of `ChooseSpell`, round the
  result of every operation to the nearest float64 (`roundF64`, ties to even,
  subnormals included); the other float64 operations are exact.
* the conversion `int(x)` of a float64 outside the range of `int` (an
  infinity included, as after the division by a zero mana regeneration in
  `ChooseSpell`) yields `Env.infToInt`: Go leaves the value of that conversion
  to the implementation and does not panic.
* `int` is 64 bits wide.  The subtraction in the cooldown loop of `Advance`,
  which receives the out-of-mana wait, wraps around (`wrapInt`); elsewhere
  `int`, `int32` and `int64` are unbounded `Int`.
* the order in which `range` visits the keys of the cooldown map is chosen by
  the Go runtime: it is the field `Env.rangeOrder`.
* a Go `panic` is a `Fault`; functions that can panic return `Except Fault`.
* the engine is a value of `Simulation` passed through every function
  (explicit state passing); the cast being resolved is passed next to it.
* Go function values stored in auras, casts and items are identifiers
  (`Effect`) that the environment `Env` interprets.
* everything the three source files use but do not declare (constants, the
  spell table, `NewCast`, the aura constructors, the random source) is a field
  of `Env`.
-/

namespace tbc

/-- Ways in which the Go code stops without returning. -/
inductive Fault where
  /-- The `panic("you should never have negative mana.")` in `Run2`. -/
  | negativeMana
  /-- The call `rand.Intn(n)` panics when `n <= 0`. -/
  | invalidIntn
  /-- Slice index out of range. -/
  | indexOutOfRange
  /-- The loop of `Run2` was cut by the fuel of the model. -/
  | outOfFuel
  deriving DecidableEq, Repr

/-- Indices into a `Stats` vector that the engine reads. -/
inductive Stat where
  | StatMana
  | StatMP5
  | StatSpellDmg
  | StatSpellHit
  | StatSpellCrit
  deriving DecidableEq, Repr

/-- Stat bundle: `Stats` of the Go code, indexed by `Stat`. -/
abbrev Stats := Stat → ℚ

/-- Identifier of a piece of effect code (a Go function value). -/
abbrev Effect := Nat

/-- State of the `*rand.Rand` stream. -/
abbrev RandSource := Nat

/-- Fields of `Spell` that the engine reads. -/
structure Spell where
  ID : Int
  Name : String
  MinDmg : ℚ
  MaxDmg : ℚ
  Coeff : ℚ
  Cooldown : Int
  deriving DecidableEq

/-- Fields of `Cast` that the engine reads and writes. -/
structure Cast where
  Spell : Spell
  ManaCost : ℚ
  TicksUntilCast : Int
  Hit : ℚ
  Crit : ℚ
  DidHit : Bool
  DidCrit : Bool
  DidDmg : ℚ
  Effects : List Effect
  deriving DecidableEq

/-- Fields of `Aura`; a hook is `none` for a nil function value. -/
structure Aura where
  ID : Int
  Expires : Int
  OnCast : Option Effect
  OnCastComplete : Option Effect
  OnSpellHit : Option Effect
  OnStruck : Option Effect
  OnExpire : Option Effect
  deriving DecidableEq

/-- Keys of the cooldown table: spell identifiers and the string keys
`"bl"`, `"elemastery"`, `"darkrune"`, `"potion"`, `"trinket"`. -/
inductive CDKey where
  | id (i : Int)
  | name (s : String)
  deriving DecidableEq

/-- The cooldown table `map[...]int`: a finite map with distinct keys. -/
abbrev CDMap := AList (fun _ : CDKey => Int)

/-- Read `m[k]` of a Go map: the zero value when the key is absent. -/
def CDMap.get (m : CDMap) (k : CDKey) : Int := (m.lookup k).getD 0

/-- Write `m[k] = v` of a Go map, as the cooldown loop of `Advance` makes it:
the entry of a key that is present is overwritten where it stands. -/
def CDMap.set (m : CDMap) (k : CDKey) (v : Int) : CDMap :=
  if (m.lookup k).isSome then m.replace k v else m.insert k v

/-- The value of type `int` (64 bits, two's complement) that the integer `x`
wraps around to. -/
def wrapInt (x : Int) : Int :=
  (x + 9223372036854775808) % 18446744073709551616 - 9223372036854775808

/-- The power `2 ^ e` as a rational. -/
def pow2 (e : Int) : ℚ :=
  if 0 ≤ e then ((2 ^ e.toNat : Nat) : ℚ) else 1 / ((2 ^ (-e).toNat : Nat) : ℚ)

/-- Rounding to the nearest integer, ties to the even one. -/
def roundEven (m : ℚ) : Int :=
  if m - ⌊m⌋ < 1 / 2 then ⌊m⌋
  else if 1 / 2 < m - ⌊m⌋ then ⌊m⌋ + 1
  else if ⌊m⌋ % 2 = 0 then ⌊m⌋ else ⌊m⌋ + 1

/-- Halving `n` until it is below 2, at most `fuel` times: the number of
halvings. -/
def log2Aux : Nat → Nat → Nat
  | 0, _ => 0
  | fuel + 1, n => if 2 ≤ n then log2Aux fuel (n / 2) + 1 else 0

/-- The integer part of the binary logarithm of `n` (0 for `n = 0`). -/
def floorLog2 (n : Nat) : Nat := log2Aux n n

/-- Binary exponent of the unit in the last place of the float64 numbers around
`x ≠ 0`: 52 below the integer part of the binary logarithm of `|x|`, and
-1074 in the subnormal range. -/
def ulpExp (x : ℚ) : Int :=
  let k : Int := (floorLog2 x.num.natAbs : Int) - (floorLog2 x.den : Int)
  let e : Int := if pow2 k ≤ |x| then k else k - 1
  max (e - 52) (-1074)

/-- The float64 nearest to the real `x` (IEEE 754 round to nearest, ties to
even), which is the result of a float64 operation whose exact result is `x`.
Overflow to an infinity is not modelled. -/
def roundF64 (x : ℚ) : ℚ :=
  if x = 0 then 0 else (roundEven (x / pow2 (ulpExp x)) : ℚ) * pow2 (ulpExp x)

/-- Fields of an equipment item that the engine reads. -/
structure Item where
  Activate : Option Effect
  ActivateCD : Int
  CoolID : CDKey
  Slot : Int
  deriving DecidableEq

/-- The equipment list. -/
abbrev Equipment := List Item

/-- Fields of `Talents` that the engine reads. -/
structure Talents where
  LightninOverload : Int
  Concussion : Int
  ElementalMastery : Bool
  deriving DecidableEq

/-- Fields of `Buffs` (the option flags) that the engine reads. -/
structure Buffs where
  JudgementOfWisdom : Bool
  deriving DecidableEq

/-- Fields of `Options` that the engine reads. -/
structure Options where
  SpellOrder : List String
  RSeed : Int
  NumBloodlust : Int
  ExitOnOOM : Bool
  Talents : Talents
  Buffs : Buffs
  deriving DecidableEq

/-- Result of a run: `SimMetrics`. -/
structure SimMetrics where
  TotalDamage : ℚ
  DamageAtOOM : ℚ
  OOMAt : Int
  Casts : List Cast
  ManaAtEnd : Int
  Rotation : List String
  deriving DecidableEq

/-- The zero value `SimMetrics{}`. -/
def SimMetrics.zero : SimMetrics :=
  { TotalDamage := 0, DamageAtOOM := 0, OOMAt := 0, Casts := [], ManaAtEnd := 0, Rotation := [] }

/-- The engine state: `Simulation` (the debug printer, which has no effect on
the state, and the unused `activeEquip` are left out). -/
structure Simulation where
  CurrentMana : ℚ
  Stats : tbc.Stats
  Buffs : tbc.Stats
  Equip : Equipment
  Options : Options
  SpellRotation : List Int
  RotationIdx : Int
  CastingSpell : Option Cast
  CDs : CDMap
  Auras : List Aura
  metrics : SimMetrics
  rando : RandSource
  rseed : Int
  currentTick : Int

/-- What the engine uses and the three source files do not declare. -/
structure Env where
  TicksPerSecond : Int
  MagicIDLB12 : Int
  MagicIDCL6 : Int
  EquipTrinket : Int
  /-- The spell table that `NewSim` searches by name. -/
  spells : List Spell
  /-- The spell table by identifier; a missing key gives the zero value. -/
  spellmap : Int → Spell
  NewCast : Simulation → Spell → ℚ → ℚ → ℚ → Cast
  AuraLightningOverload : Int → Aura
  AuraJudgementOfWisdom : Aura
  AuraElementalFocus : Int → Aura
  AuraEleMastery : Aura
  ActivateBloodlust : Simulation → Simulation × Aura
  /-- Call of `item.Activate(sim)`. -/
  activate : Effect → Simulation → Simulation × Aura
  /-- Call of a hook or cast effect with a cast: `f(sim, cast)`. -/
  effect : Effect → Simulation → Cast → Simulation × Cast
  /-- Call of an on-expire hook: `f(sim, nil)`. -/
  expire : Effect → Simulation → Simulation
  /-- State of the stream after `rand.NewSource(seed)` or `Seed(seed)`. -/
  seed : Int → RandSource
  /-- Draw of `Float64()` and the state after it. -/
  float64 : RandSource → ℚ × RandSource
  /-- Draw of `Intn(n)` for `n > 0` and the state after it. -/
  intn : Int → RandSource → Int × RandSource
  /-- Value of the conversion `int(x)` of a float64 `x` that is outside the
  range of `int` or an infinity: implementation-dependent in Go (on amd64 it
  is `-9223372036854775808` for every such `x`). -/
  infToInt : Int
  /-- The order in which `for k := range m` visits the keys of the map `m`:
  chosen by the Go runtime. -/
  rangeOrder : CDMap → List CDKey

/-- Conversion `int(x)` of a float: truncation toward zero. -/
def goInt (x : ℚ) : Int := if 0 ≤ x then ⌊x⌋ else ⌈x⌉

/-- Go `rando.Intn(n)`: panics when `n <= 0`. -/
def Intn (env : Env) (n : Int) (r : RandSource) : Except Fault (Int × RandSource) :=
  if n ≤ 0 then .error .invalidIntn else .ok (env.intn n r)

/-- Go `manaRegen`: mana regenerated per tick, the float64 value of
`((Stats[StatMP5] + Buffs[StatMP5]) / 5.0) / float64(TicksPerSecond)`. -/
def manaRegen (env : Env) (sim : Simulation) : ℚ :=
  roundF64 (roundF64 (roundF64 (sim.Stats .StatMP5 + sim.Buffs .StatMP5) / 5)
    / roundF64 (env.TicksPerSecond : ℚ))

/-- The call `sim.Auras[i].OnExpire(sim, nil)` of `cleanAura`, made when the
hook is not nil. -/
def fireExpire (env : Env) (sim : Simulation) (a : Aura) : Simulation :=
  match a.OnExpire with
  | some f => env.expire f sim
  | none => sim

/-- Go `cleanAura`: fire the on-expire hook of the aura at index `i`, then remove
index `i` from the aura list (the cleared hooks go with the removed element).
Returns the engine and, for the statements about hooks, the hook it fired. -/
def cleanAura (env : Env) (sim : Simulation) (i : Nat) :
    Except Fault (Simulation × Option Effect) :=
  match sim.Auras.get? i with
  | none => .error .indexOutOfRange
  | some a =>
    if i < (fireExpire env sim a).Auras.length then
      .ok ({ fireExpire env sim a with Auras := (fireExpire env sim a).Auras.eraseIdx i },
        a.OnExpire)
    else .error .indexOutOfRange

/-- The loop of `addAura` over the aura list: replace the first aura with the
same ID, or report that none was found. -/
def replaceAura (a : Aura) : List Aura → Option (List Aura)
  | [] => none
  | b :: rest =>
    if b.ID = a.ID then some (a :: rest)
    else (replaceAura a rest).map (fun l => b :: l)

/-- Go `addAura` on the aura list. -/
def addAuraList (l : List Aura) (a : Aura) : List Aura :=
  match replaceAura a l with
  | some l1 => l1
  | none => l ++ [a]

/-- Go `addAura`. -/
def addAura (sim : Simulation) (a : Aura) : Simulation :=
  { sim with Auras := addAuraList sim.Auras a }

/-- The out-of-mana record of `ChooseSpell`: written while `OOMAt` is 0. -/
def recordOOM (env : Env) (sim : Simulation) : Simulation :=
  if sim.metrics.OOMAt = 0 then
    { sim with metrics := { sim.metrics with
        OOMAt := Int.tdiv sim.currentTick env.TicksPerSecond
        DamageAtOOM := sim.metrics.TotalDamage } }
  else sim

/-- The float64 value of `(cost - sim.CurrentMana) / sim.manaRegen()` in
`ChooseSpell`, for a regeneration other than zero. -/
def waitQuotient (env : Env) (sim : Simulation) (cost : ℚ) : ℚ :=
  roundF64 (roundF64 (cost - sim.CurrentMana) / manaRegen env sim)

/-- The expression `int(math.Ceil((cost - sim.CurrentMana) / sim.manaRegen()))`
of `ChooseSpell`: the ceiling of the float64 quotient when it is within the
range of `int`, and the implementation's value otherwise (also for the
infinity or NaN of a division by a zero regeneration). -/
def manaRegenTicks (env : Env) (sim : Simulation) (cost : ℚ) : Int :=
  if manaRegen env sim = 0 then env.infToInt
  else if -9223372036854775808 ≤ ⌈waitQuotient env sim cost⌉
      ∧ ⌈waitQuotient env sim cost⌉ < 9223372036854775808 then
    ⌈waitQuotient env sim cost⌉
  else env.infToInt

/-- The priority-mode loop of `ChooseSpell` over the rest of the rotation,
with the running `lowestWait` and `wasMana`. -/
def choosePriority (env : Env) (sim : Simulation) :
    List Int → Int → Bool → Except Fault (Simulation × Int)
  | [], lowestWait, wasMana =>
    .ok (if wasMana then recordOOM env sim else sim, lowestWait)
  | so :: rest, lowestWait, wasMana =>
    let sp := env.spellmap so
    let cast := env.NewCast sim sp (sim.Stats .StatSpellDmg) (sim.Stats .StatSpellHit)
      (sim.Stats .StatSpellCrit)
    if sim.CDs.get (.id so) > 0 then
      choosePriority env sim rest
        (if sim.CDs.get (.id so) < lowestWait then sim.CDs.get (.id so) else lowestWait) wasMana
    else if sim.CurrentMana ≥ cast.ManaCost then
      .ok ({ sim with CastingSpell := some cast }, cast.TicksUntilCast)
    else if manaRegenTicks env sim cast.ManaCost < lowestWait then
      choosePriority env sim rest (manaRegenTicks env sim cast.ManaCost) true
    else choosePriority env sim rest lowestWait wasMana

/-- Go `ChooseSpell`: the new state and the returned number of ticks. -/
def ChooseSpell (env : Env) (sim : Simulation) : Except Fault (Simulation × Int) :=
  if sim.RotationIdx = -1 then
    choosePriority env sim sim.SpellRotation 2147483647 false
  else if sim.RotationIdx < 0 then .error .indexOutOfRange
  else
    match sim.SpellRotation.get? sim.RotationIdx.toNat with
    | none => .error .indexOutOfRange
    | some so =>
      let sp := env.spellmap so
      let cast := env.NewCast sim sp (sim.Stats .StatSpellDmg) (sim.Stats .StatSpellHit)
        (sim.Stats .StatSpellCrit)
      if sim.CDs.get (.id so) < 1 then
        if sim.CurrentMana ≥ cast.ManaCost then
          let idx := sim.RotationIdx + 1
          .ok ({ sim with
                  CastingSpell := some cast
                  RotationIdx := if idx = sim.SpellRotation.length then 0 else idx },
               cast.TicksUntilCast)
        else
          .ok (recordOOM env sim, manaRegenTicks env (recordOOM env sim) cast.ManaCost)
      else .ok (sim, sim.CDs.get (.id so))

/-- One hook call of a sweep over the auras: `hook aur` is the hook field. -/
def fireHook (env : Env) (hook : Aura → Option Effect) (p : Simulation × Cast) (aur : Aura) :
    Simulation × Cast :=
  match hook aur with
  | some f => env.effect f p.1 p.2
  | none => p

/-- The talent step of `Cast`: the Concussion multiplier. -/
def concussion (env : Env) (sim : Simulation) (cast : Cast) (dmg : ℚ) : ℚ :=
  if (sim.Options.Talents.Concussion > 0 ∧ cast.Spell.ID = env.MagicIDLB12)
      ∨ cast.Spell.ID = env.MagicIDCL6 then
    dmg * (1 + (1 / 100) * (sim.Options.Talents.Concussion : ℚ))
  else dmg

/-- The hit branch of `Cast`, entered after the hit roll succeeded. -/
def castHit (env : Env) (sim : Simulation) (cast : Cast) : Except Fault (Simulation × Cast) :=
  match Intn env (goInt (cast.Spell.MaxDmg - cast.Spell.MinDmg)) sim.rando with
  | .error e => .error e
  | .ok (k, r1) =>
    let rolled := ((k : ℚ) + cast.Spell.MinDmg) + (sim.Stats .StatSpellDmg * cast.Spell.Coeff)
    let dmg0 := if cast.DidDmg ≠ 0 then cast.DidDmg else rolled
    let critRoll := env.float64 r1
    let isCrit : Bool := decide (critRoll.1 < cast.Crit)
    let cast1 := { cast with DidHit := true, DidCrit := isCrit || cast.DidCrit }
    let dmg1 := if isCrit then dmg0 * 2 else dmg0
    let sim1 := { sim with rando := critRoll.2 }
    let sim2 := if isCrit then addAura sim1 (env.AuraElementalFocus sim1.currentTick) else sim1
    let dmg2 := concussion env sim2 cast1 dmg1
    let resistRoll := env.float64 sim2.rando
    let dmg3 := if resistRoll.1 < 1 / 40 then dmg2 * (3 / 4) else dmg2
    let sim3 := { sim2 with rando := resistRoll.2 }
    let cast2 := { cast1 with DidDmg := dmg3 }
    let p1 := cast2.Effects.foldl (fun p f => env.effect f p.1 p.2) (sim3, cast2)
    let p2 := p1.1.Auras.foldl (fireHook env Aura.OnSpellHit) p1
    .ok ({ p2.1 with metrics := { p2.1.metrics with
              TotalDamage := p2.1.metrics.TotalDamage + p2.2.DidDmg
              Casts := p2.1.metrics.Casts ++ [p2.2] } }, p2.2)

/-- The first loop of `Cast`: every aura's on-cast-complete hook. -/
def onCastComplete (env : Env) (sim : Simulation) (cast : Cast) : Simulation × Cast :=
  sim.Auras.foldl (fireHook env Aura.OnCastComplete) (sim, cast)

/-- Go `Cast`: resolve a due cast; returns the engine and the resolved cast. -/
def Simulation.Cast (env : Env) (sim : Simulation) (cast : tbc.Cast) :
    Except Fault (Simulation × tbc.Cast) :=
  let p0 := onCastComplete env sim cast
  let hitRoll := env.float64 p0.1.rando
  let sim1 := { p0.1 with rando := hitRoll.2 }
  match (if hitRoll.1 < p0.2.Hit then castHit env sim1 p0.2 else .ok (sim1, p0.2)) with
  | .error e => .error e
  | .ok (sim2, cast2) =>
    let sim3 := { sim2 with CurrentMana := sim2.CurrentMana - cast2.ManaCost, CastingSpell := none }
    .ok (if cast2.Spell.Cooldown > 0 then
            { sim3 with CDs :=
                (sim3.CDs.insert (.id cast2.Spell.ID) (cast2.Spell.Cooldown * env.TicksPerSecond)) }
          else sim3, cast2)

/-- Body of the on-use item loop of `Spellcasting` for one item. -/
def useItem (env : Env) (sim : Simulation) (item : Item) : Simulation :=
  match item.Activate with
  | none => sim
  | some f =>
    if item.ActivateCD = -1 then sim
    else if sim.CDs.get item.CoolID > 0 then sim
    else if item.Slot = env.EquipTrinket ∧ sim.CDs.get (.name "trinket") > 0 then sim
    else
      let r := env.activate f sim
      let sim1 := addAura r.1 r.2
      let sim2 := { sim1 with CDs := sim1.CDs.insert item.CoolID (item.ActivateCD * env.TicksPerSecond) }
      if item.Slot = env.EquipTrinket then
        { sim2 with CDs := sim2.CDs.insert (.name "trinket") (30 * env.TicksPerSecond) }
      else sim2

/-- The Bloodlust step of `Spellcasting`. -/
def popBloodlust (env : Env) (sim : Simulation) : Simulation :=
  if sim.Options.NumBloodlust > 0 ∧ sim.CDs.get (.name "bl") < 1 then
    let r := env.ActivateBloodlust sim
    let sim1 := addAura r.1 r.2
    { sim1 with Options := { sim1.Options with NumBloodlust := sim1.Options.NumBloodlust - 1 } }
  else sim

/-- The Elemental Mastery step of `Spellcasting`. -/
def popEleMastery (env : Env) (sim : Simulation) : Simulation :=
  if sim.Options.Talents.ElementalMastery = true ∧ sim.CDs.get (.name "elemastery") < 1 then
    addAura sim env.AuraEleMastery
  else sim

/-- One consumable step of `Spellcasting`: key `key`, threshold `limit`,
restored amount `lo + Intn(hi - lo)`. -/
def popConsumable (env : Env) (key : String) (limit lo hi : Int) (sim : Simulation) : Simulation :=
  if sim.Stats .StatMana - sim.CurrentMana + sim.Stats .StatMP5 ≥ (limit : ℚ)
      ∧ sim.CDs.get (.name key) < 1 then
    let d := env.intn (hi - lo) sim.rando
    { sim with
        CurrentMana := sim.CurrentMana + ((lo + d.1 : Int) : ℚ)
        rando := d.2
        CDs := sim.CDs.insert (.name key) (120 * env.TicksPerSecond) }
  else sim

/-- Go `Spellcasting`: the decision step; returns the ticks to advance. -/
def Spellcasting (env : Env) (sim : Simulation) (_tickID : Int) :
    Except Fault (Simulation × Int) :=
  let resolved : Except Fault Simulation :=
    match sim.CastingSpell with
    | some c => if c.TicksUntilCast = 0 then (sim.Cast env c).map Prod.fst else .ok sim
    | none => .ok sim
  match resolved with
  | .error e => .error e
  | .ok sim1 =>
    match sim1.CastingSpell with
    | none =>
      let sim2 := popBloodlust env sim1
      let sim3 := popEleMastery env sim2
      let sim4 := popConsumable env "darkrune" 1500 900 1500 sim3
      let sim5 := popConsumable env "potion" 3000 1800 3000 sim4
      let sim6 := sim5.Equip.foldl (useItem env) sim5
      ChooseSpell env sim6
    | some _ => .ok (sim1, 1)

/-- The block of `Spellcasting` entered when no cast is in flight: the
activations, the consumables, the on-use items and the choice of the next
spell. -/
def startNext (env : Env) (sim : Simulation) : Except Fault (Simulation × Int) :=
  let sim2 := popBloodlust env sim
  let sim3 := popEleMastery env sim2
  let sim4 := popConsumable env "darkrune" 1500 900 1500 sim3
  let sim5 := popConsumable env "potion" 3000 1800 3000 sim4
  let sim6 := sim5.Equip.foldl (useItem env) sim5
  ChooseSpell env sim6

/-- Body of the cooldown loop of `Advance` for one key: `sim.CDs[k] -= ticks`
in 64-bit arithmetic, then the deletion of an entry below 1. -/
def tickCD (ticks : Int) (m : CDMap) (k : CDKey) : CDMap :=
  let m1 : CDMap := m.set k (wrapInt (m.get k - ticks))
  if m1.get k < 1 then m1.erase k else m1

/-- The cooldown loop of `Advance`, visiting the keys in the order `order`. -/
def advanceCDs (order : List CDKey) (m : CDMap) (ticks : Int) : CDMap :=
  order.foldl (tickCD ticks) m

/-- The indices collected in `todel` by `Advance`, from index `i` on. -/
def todelFrom (limit : Int) : Nat → List Aura → List Nat
  | _, [] => []
  | i, a :: rest =>
    if a.Expires ≤ limit then i :: todelFrom limit (i + 1) rest
    else todelFrom limit (i + 1) rest

/-- The removal loop of `Advance`: `cleanAura` on the given indices in turn.
Returns the engine and the log of the hooks fired, each with the index of its
aura, in firing order. -/
def cleanAll (env : Env) : List Nat → Simulation → Except Fault (Simulation × List (Nat × Effect))
  | [], sim => .ok (sim, [])
  | i :: rest, sim =>
    match cleanAura env sim i with
    | .error e => .error e
    | .ok (sim1, fired) =>
      match cleanAll env rest sim1 with
      | .error e => .error e
      | .ok (sim2, log) => .ok (sim2, (fired.map (fun f => (i, f))).toList ++ log)

/-- Go `Advance` up to the expiry sweep: cast timer, mana regeneration, cooldowns. -/
def advanceTimers (env : Env) (sim : Simulation) (ticks : Int) : Simulation :=
  let casting := sim.CastingSpell.map
    (fun c => { c with TicksUntilCast := c.TicksUntilCast - ticks })
  let mana := sim.CurrentMana + manaRegen env sim * (ticks : ℚ)
  { sim with
      CastingSpell := casting
      CurrentMana := if mana > sim.Stats .StatMana then sim.Stats .StatMana else mana
      CDs := advanceCDs (env.rangeOrder sim.CDs) sim.CDs ticks }

/-- Go `Advance`: move time forward by `ticks`.  Returns the engine and the log
of the on-expire hooks fired by the expiry sweep. -/
def Advance (env : Env) (sim : Simulation) (tickID ticks : Int) :
    Except Fault (Simulation × List (Nat × Effect)) :=
  let sim1 := advanceTimers env sim ticks
  cleanAll env (todelFrom (tickID + ticks) 0 sim1.Auras).reverse sim1

/-- Body of the permanent-item loop of `reset` for one item. -/
def activatePermanent (env : Env) (sim : Simulation) (item : Item) : Simulation :=
  match item.Activate with
  | none => sim
  | some f =>
    if item.ActivateCD = -1 then
      let r := env.activate f sim
      addAura r.1 r.2
    else sim

/-- Go `reset`: start of a run. -/
def reset (env : Env) (sim : Simulation) : Simulation :=
  let sim1 : Simulation :=
    { sim with
        rseed := sim.rseed + 1
        rando := env.seed (sim.rseed + 1)
        currentTick := 0
        CurrentMana := sim.Stats .StatMana
        CastingSpell := none
        Buffs := fun _ => 0
        CDs := ∅
        Auras := []
        metrics := SimMetrics.zero }
  let sim2 := if sim1.Options.Talents.LightninOverload > 0 then
      addAura sim1 (env.AuraLightningOverload sim1.Options.Talents.LightninOverload)
    else sim1
  let sim3 := if sim2.Options.Buffs.JudgementOfWisdom = true then
      addAura sim2 env.AuraJudgementOfWisdom
    else sim2
  sim3.Equip.foldl (activatePermanent env) sim3

/-- How one iteration of the loop of `Run2` ends. -/
inductive LoopStep where
  /-- The early `return sim.metrics` on out-of-mana. -/
  | exit (sim : Simulation)
  /-- After `sim.Advance(i, advance)`: the engine and the new value of `i`. -/
  | next (sim : Simulation) (i : Int)

/-- Body of the loop of `Run2` at tick `i`. -/
def loopBody (env : Env) (sim : Simulation) (i : Int) : Except Fault LoopStep :=
  if sim.CurrentMana < 0 then .error .negativeMana
  else
    match Spellcasting env { sim with currentTick := i } i with
    | .error e => .error e
    | .ok (sim1, advance) =>
      if sim1.Options.ExitOnOOM = true ∧ sim1.metrics.OOMAt > 0 then .ok (.exit sim1)
      else
        match Advance env sim1 i advance with
        | .error e => .error e
        | .ok (sim2, _) => .ok (.next sim2 (i + advance))

/-- The loop of `Run2` from tick `i`; `fuel` bounds the number of iterations. -/
def runLoop (env : Env) (ticks : Int) : Nat → Simulation → Int → Except Fault Simulation
  | 0, _, _ => .error .outOfFuel
  | fuel + 1, sim, i =>
    if i < ticks then
      match loopBody env sim i with
      | .error e => .error e
      | .ok (.exit sim1) => .ok sim1
      | .ok (.next sim2 j) => runLoop env ticks fuel sim2 j
    else
      .ok { sim with metrics := { sim.metrics with ManaAtEnd := goInt sim.CurrentMana } }

/-- Go `Run2`: the engine after the run; the returned metrics are its `metrics`. -/
def Run2 (env : Env) (fuel : Nat) (sim : Simulation) (seconds : Int) : Except Fault Simulation :=
  runLoop env (seconds * env.TicksPerSecond) fuel (reset env sim) 0

/-- Go `Run`: the metrics returned, next to the engine left behind. -/
def Run (env : Env) (fuel : Nat) (sim : Simulation) (seconds : Int) :
    Except Fault (Simulation × SimMetrics) :=
  (Run2 env fuel sim seconds).map (fun s => (s, s.metrics))

/-- The rotation identifiers `NewSim` computes from the spell names. -/
def rotationIDs (env : Env) (names : List String) : List Int :=
  names.map (fun v =>
    match env.spells.find? (fun sp => decide (sp.Name = v)) with
    | some sp => sp.ID
    | none => 0)

/-- Go `NewSim`: `none` is the nil engine. -/
def NewSim (env : Env) (stats : Stats) (equip : Equipment) (options : Options) :
    Option Simulation :=
  if options.SpellOrder.length = 0 then none
  else
    let pri : Bool := decide (options.SpellOrder.head? = some "pri")
    let order := if pri then options.SpellOrder.tail else options.SpellOrder
    some
      { RotationIdx := if pri then -1 else 0
        Stats := stats
        SpellRotation := rotationIDs env order
        Options := { options with SpellOrder := order }
        CDs := ∅
        Buffs := fun _ => 0
        Auras := []
        Equip := equip
        rseed := options.RSeed
        rando := env.seed options.RSeed
        CurrentMana := 0
        CastingSpell := none
        metrics := SimMetrics.zero
        currentTick := 0 }

/-! ## Predicates used in the statements -/

/-- A successful fixed-order decision step from engine `u` to engine `v`: the
spell at the rotation index is off cooldown and affordable, and `ChooseSpell`
returns `v`. -/
def FixedCommit (env : Env) (u v : Simulation) : Prop :=
  ∃ so, 0 ≤ u.RotationIdx ∧ u.SpellRotation.get? u.RotationIdx.toNat = some so ∧
    u.CDs.get (.id so) < 1 ∧
    (env.NewCast u (env.spellmap so) (u.Stats .StatSpellDmg) (u.Stats .StatSpellHit)
      (u.Stats .StatSpellCrit)).ManaCost ≤ u.CurrentMana ∧
    ∃ t, ChooseSpell env u = .ok (v, t)

/-- Chain `CommitChain env k s v`: `k` consecutive successful fixed-order decision
steps lead from engine `s` to engine `v`; between two of them the engine may
change in any way that leaves the rotation and its index alone. -/
inductive CommitChain (env : Env) : Nat → Simulation → Simulation → Prop where
  | nil (s : Simulation) : CommitChain env 0 s s
  | snoc {k : Nat} {s t u v : Simulation} :
      CommitChain env k s t → u.SpellRotation = t.SpellRotation →
      u.RotationIdx = t.RotationIdx → FixedCommit env u v → CommitChain env (k + 1) s v

/-- The runtime visits every key of a map once: `range` yields the keys of
the map in some order, none twice. -/
def RangeOrder (env : Env) : Prop := ∀ m : CDMap, (env.rangeOrder m).Perm m.keys

/-- The cast that `ChooseSpell` builds with `NewCast` for the rotation spell
`so`. -/
def castOf (env : Env) (sim : Simulation) (so : Int) : Cast :=
  env.NewCast sim (env.spellmap so) (sim.Stats .StatSpellDmg) (sim.Stats .StatSpellHit)
    (sim.Stats .StatSpellCrit)

/-- A rotation spell that is off cooldown (cooldown entry below 1) and
affordable (mana at least the mana cost of its cast). -/
def castable (env : Env) (sim : Simulation) (so : Int) : Bool :=
  decide (sim.CDs.get (.id so) < 1 ∧ (castOf env sim so).ManaCost ≤ sim.CurrentMana)

/-- The wait of a rotation spell that is not castable: its remaining cooldown
when it is on cooldown, otherwise the ticks of regeneration to its mana cost,
`int(math.Ceil((ManaCost - CurrentMana) / manaRegen()))`. -/
def spellWait (env : Env) (sim : Simulation) (so : Int) : Int :=
  if sim.CDs.get (.id so) > 0 then sim.CDs.get (.id so)
  else manaRegenTicks env sim (castOf env sim so).ManaCost

/-- The part of the engine on which the mana bounds depend: mana, the stat
bundle, the MP5 buff and the in-flight cast. -/
def manaCore (s : Simulation) : ℚ × Stats × ℚ × Option Cast :=
  (s.CurrentMana, s.Stats, s.Buffs .StatMP5, s.CastingSpell)

/-- Effect code (aura hooks, cast effects, item and Bloodlust activations)
that leaves `manaCore` alone and does not change the mana cost of a cast. -/
structure ManaInert (env : Env) : Prop where
  effect_core : ∀ f s c, manaCore (env.effect f s c).1 = manaCore s
  effect_cost : ∀ f s c, (env.effect f s c).2.ManaCost = c.ManaCost
  expire_core : ∀ f s, manaCore (env.expire f s) = manaCore s
  activate_core : ∀ f s, manaCore (env.activate f s).1 = manaCore s
  bloodlust_core : ∀ s, manaCore (env.ActivateBloodlust s).1 = manaCore s

/-- An environment in which, for engines with the stat bundle `stats`: ticks
per second are positive, a new cast costs at most the maximum mana and has a
cast time of at least 0, `Intn` draws are at least 0, and no out-of-mana wait
leaves the range of `int`: for a mana in `[0, cost)`, a cost of at most the
maximum mana and a regeneration other than zero, the ceiling of the float64
quotient `(cost - CurrentMana) / manaRegen()` is below `2 ^ 63`. -/
structure ManaSane (env : Env) (stats : Stats) : Prop where
  tps_pos : 0 < env.TicksPerSecond
  cost_le_max : ∀ s sp a b c, s.Stats = stats →
    (env.NewCast s sp a b c).ManaCost ≤ stats .StatMana
  time_nonneg : ∀ s sp a b c, 0 ≤ (env.NewCast s sp a b c).TicksUntilCast
  intn_nonneg : ∀ n r, 0 < n → 0 ≤ (env.intn n r).1
  wait_fits : ∀ (s : Simulation) (cost : ℚ), s.Stats = stats → s.Buffs .StatMP5 = 0 →
    0 ≤ s.CurrentMana → s.CurrentMana < cost → cost ≤ stats .StatMana →
    manaRegen env s ≠ 0 → ⌈waitQuotient env s cost⌉ < 9223372036854775808

/-- What the mana bounds need from a spell choice leading from engine `s` to
engine `t` with `adv` ticks to advance: the mana regenerated over `adv` ticks
is at least 0, mana, stats and buffs are unchanged, and a newly committed cast
costs at most the current and the maximum mana. -/
def ChoiceSound (env : Env) (s t : Simulation) (adv : Int) : Prop :=
  0 ≤ manaRegen env s * (adv : ℚ) ∧ t.CurrentMana = s.CurrentMana ∧ t.Stats = s.Stats ∧
    t.Buffs = s.Buffs ∧
    ∀ c, t.CastingSpell = some c →
      s.CastingSpell = some c ∨ (c.ManaCost ≤ s.CurrentMana ∧ c.ManaCost ≤ s.Stats .StatMana)

/-- The invariant behind the mana bounds, for the stat bundle `stats` of the
run: stats unchanged, no MP5 buff, mana within `[0, max mana]`, and the
in-flight cast, if any, affordable. -/
def ManaInv (stats : Stats) (s : Simulation) : Prop :=
  s.Stats = stats ∧ s.Buffs .StatMP5 = 0 ∧ 0 ≤ s.CurrentMana ∧
    s.CurrentMana ≤ stats .StatMana ∧
    ∀ c, s.CastingSpell = some c → c.ManaCost ≤ s.CurrentMana

/-- Effect code run outside `Cast` (on-expire hooks, item and Bloodlust
activations) that leaves the in-flight cast alone. -/
structure CastInert (env : Env) : Prop where
  expire_cast : ∀ f s, (env.expire f s).CastingSpell = s.CastingSpell
  activate_cast : ∀ f s, (env.activate f s).1.CastingSpell = s.CastingSpell
  bloodlust_cast : ∀ s, (env.ActivateBloodlust s).1.CastingSpell = s.CastingSpell

/-- The in-flight cast is absent or due: its remaining ticks are exactly 0. -/
def CastDue (s : Simulation) : Prop :=
  s.CastingSpell = none ∨ ∃ c, s.CastingSpell = some c ∧ c.TicksUntilCast = 0

/-- The engine and tick `(s, i)` at the head of an iteration of the loop of
`Run2` in the run of `seconds` seconds started on engine `sim0`. -/
inductive LoopState (env : Env) (sim0 : Simulation) (seconds : Int) : Simulation → Int → Prop where
  | start : LoopState env sim0 seconds (reset env sim0) 0
  | step {s s2 : Simulation} {i j : Int} :
      LoopState env sim0 seconds s i → i < seconds * env.TicksPerSecond →
      loopBody env s i = .ok (.next s2 j) → LoopState env sim0 seconds s2 j

/-- The engine after `Advance` in the result of a loop body (`s` when there
is none). -/
def nextEngine (s : Simulation) : Except Fault LoopStep → Simulation
  | .ok (.next t _) => t
  | _ => s

/-- The new tick in the result of a loop body (0 when there is none). -/
def nextTick : Except Fault LoopStep → Int
  | .ok (.next _ j) => j
  | _ => 0

/-- Whether a loop body ran to the end of its `Advance` call. -/
def isNext : Except Fault LoopStep → Bool
  | .ok (.next _ _) => true
  | _ => false

/-! ## Worked examples

A small concrete environment on which the functions above are evaluated. -/

/-- Equality of results is decidable. -/
instance instDecidableEqExcept {ε α : Type} [DecidableEq ε] [DecidableEq α] :
    DecidableEq (Except ε α) := fun a b =>
  match a, b with
  | .ok x, .ok y => if h : x = y then isTrue (by rw [h]) else isFalse (fun e => h (by cases e; rfl))
  | .error x, .error y =>
    if h : x = y then isTrue (by rw [h]) else isFalse (fun e => h (by cases e; rfl))
  | .ok _, .error _ => isFalse (fun e => by cases e)
  | .error _, .ok _ => isFalse (fun e => by cases e)

/-- Spell table of the worked examples. -/
def demoSpells : List Spell :=
  [ { ID := 1, Name := "LB12", MinDmg := 10, MaxDmg := 20, Coeff := 1, Cooldown := 0 },
    { ID := 2, Name := "CL6", MinDmg := 30, MaxDmg := 40, Coeff := 1, Cooldown := 0 },
    { ID := 3, Name := "Shock", MinDmg := 50, MaxDmg := 60, Coeff := 1, Cooldown := 1 } ]

/-- Zero value of `Spell`. -/
def Spell.zero : Spell :=
  { ID := 0, Name := "", MinDmg := 0, MaxDmg := 0, Coeff := 0, Cooldown := 0 }

/-- Lookup by identifier in the example table. -/
def demoSpellmap (id : Int) : Spell :=
  (demoSpells.find? (fun sp => decide (sp.ID = id))).getD Spell.zero

/-- Mana cost of the example spells. -/
def demoCost (id : Int) : ℚ :=
  if id = 1 then 60 else if id = 2 then 30 else if id = 3 then 1000 else 0

/-- Cast time in ticks of the example spells. -/
def demoCastTicks (id : Int) : Int :=
  if id = 1 then 5 else if id = 2 then 10 else if id = 3 then 10 else 0

/-- An aura without hooks. -/
def plainAura (id expires : Int) : Aura :=
  { ID := id, Expires := expires, OnCast := none, OnCastComplete := none, OnSpellHit := none,
    OnStruck := none, OnExpire := none }

/-- Next state of the example random stream (a linear congruential step). -/
def demoNext (r : RandSource) : RandSource := (r * 1103515245 + 12345) % 2147483648

/-- Environment of the worked examples: ten ticks per second, three spells,
auras without hooks, effect code that does nothing. -/
def demoEnv : Env :=
  { TicksPerSecond := 10
    MagicIDLB12 := 1
    MagicIDCL6 := 2
    EquipTrinket := 12
    spells := demoSpells
    spellmap := demoSpellmap
    NewCast := fun _ sp _ hit crit =>
      { Spell := sp, ManaCost := demoCost sp.ID, TicksUntilCast := demoCastTicks sp.ID,
        Hit := hit, Crit := crit, DidHit := false, DidCrit := false, DidDmg := 0, Effects := [] }
    AuraLightningOverload := fun _ => plainAura 101 1000000
    AuraJudgementOfWisdom := plainAura 102 1000000
    AuraElementalFocus := fun tick => plainAura 103 (tick + 150)
    AuraEleMastery := plainAura 104 1000000
    ActivateBloodlust := fun sim =>
      ({ sim with CDs := sim.CDs.insert (.name "bl") 6000 }, plainAura 105 (sim.currentTick + 400))
    activate := fun f sim => (sim, plainAura (200 + f) 1000000)
    effect := fun _ sim cast => (sim, cast)
    expire := fun _ sim => sim
    seed := fun s => s.toNat % 2147483648
    float64 := fun r => (((r % 1000 : Nat) : ℚ) / 1000, demoNext r)
    intn := fun n r => (((r % n.toNat : Nat) : Int), demoNext r)
    infToInt := -9223372036854775808
    rangeOrder := fun m => m.keys }

/-- Stat bundle of the worked examples: mana, MP5, hit chance, crit chance. -/
def demoStats (mana mp5 hit crit : ℚ) : Stats := fun s =>
  match s with
  | .StatMana => mana
  | .StatMP5 => mp5
  | .StatSpellDmg => 0
  | .StatSpellHit => hit
  | .StatSpellCrit => crit

/-- Options of the worked examples: a rotation and a seed, nothing else. -/
def demoOptions (order : List String) (seed : Int) : Options :=
  { SpellOrder := order, RSeed := seed, NumBloodlust := 0, ExitOnOOM := false,
    Talents := { LightninOverload := 0, Concussion := 0, ElementalMastery := false },
    Buffs := { JudgementOfWisdom := false } }

/-- Metrics of a run from a freshly built engine (`none` for the nil engine). -/
def demoRun (stats : Stats) (options : Options) (seconds : Int) : Option (Except Fault SimMetrics) :=
  (NewSim demoEnv stats [] options).map
    (fun sim => (Run demoEnv 100 sim seconds).map Prod.snd)

/-- An engine of the worked examples outside a run: fixed rotation `rotation`
at index `idx`, `mana` mana, the auras `auras`, nothing else. -/
def demoSim (stats : Stats) (rotation : List Int) (idx : Int) (mana : ℚ) (auras : List Aura) :
    Simulation :=
  { CurrentMana := mana, Stats := stats, Buffs := fun _ => 0, Equip := [],
    Options := demoOptions [] 0, SpellRotation := rotation, RotationIdx := idx,
    CastingSpell := none, CDs := ∅, Auras := auras, metrics := SimMetrics.zero,
    rando := 7, rseed := 0, currentTick := 0 }

/-- Three auras: the first (with an on-expire hook) and the last expire by
tick 10, the second does not. -/
def demoAuras : List Aura :=
  [ { plainAura 1 5 with OnExpire := some 0 }, plainAura 2 50, plainAura 3 10 ]

/-- Metrics of the second run of a freshly built engine. -/
def demoSecondRun (stats : Stats) (options : Options) (seconds : Int) :
    Option (Except Fault SimMetrics) :=
  (NewSim demoEnv stats [] options).map (fun sim =>
    match Run demoEnv 100 sim seconds with
    | .error e => .error e
    | .ok (sim1, _) => (Run demoEnv 100 sim1 seconds).map Prod.snd)

/-- The engine with which the loop of a run from a freshly built engine stops
when it is given `ticks` ticks instead of whole seconds. -/
def demoRunTicks (stats : Stats) (options : Options) (ticks : Int) :
    Option (Except Fault Simulation) :=
  (NewSim demoEnv stats [] options).map (fun sim =>
    runLoop demoEnv ticks 100 (reset demoEnv sim) 0)

/-- An engine of the worked examples in fixed-order mode: rotation LB12, CL6
at index 1, full mana of 100. -/
def demoFixed : Simulation := demoSim (demoStats 100 50 1 0) [1, 2] 1 100 []

/-- The cast of LB12 that `NewCast` builds for `demoFixed`. -/
def demoCast : Cast := demoEnv.NewCast demoFixed (demoSpellmap 1) 0 1 0

/-- The engine that `NewSim` builds in the example environment from `stats`,
no equipment and a fixed-order rotation `order` with seed 7. -/
def demoNew (stats : Stats) (order : List String) : Simulation :=
  { CurrentMana := 0, Stats := stats, Buffs := fun _ => 0, Equip := [],
    Options := demoOptions order 7, SpellRotation := rotationIDs demoEnv order,
    RotationIdx := 0, CastingSpell := none, CDs := ∅, Auras := [],
    metrics := SimMetrics.zero, rando := 7, rseed := 7, currentTick := 0 }

/-- Options of the worked examples with one Bloodlust and the rotation Shock,
LB12: a run with them holds two keys in the cooldown map. -/
def demoTwoKeyOptions : Options :=
  { demoOptions ["Shock", "LB12"] 7 with NumBloodlust := 1 }

/-- The engine that `NewSim` builds from 3000 mana, 50 MP5 and
`demoTwoKeyOptions`. -/
def demoTwoKeys : Simulation :=
  { demoNew (demoStats 3000 50 1 0) ["Shock", "LB12"] with Options := demoTwoKeyOptions }

/-- The engine with which the first decision step of the run of `sim0` ends
(after its `Advance` call). -/
def demoFirst (sim0 : Simulation) : Simulation :=
  nextEngine (reset demoEnv sim0) (loopBody demoEnv (reset demoEnv sim0) 0)

/-- The tick at which the second decision step of the run of `sim0` starts. -/
def demoFirstTick (sim0 : Simulation) : Int :=
  nextTick (loopBody demoEnv (reset demoEnv sim0) 0)

/-- An engine of the worked examples in priority mode at tick `tick`, with
`mana` mana, the cooldowns `cds` and `dmg` total damage so far. -/
def demoPriority (stats : Stats) (rotation : List Int) (mana : ℚ) (cds : CDMap) (tick : Int)
    (dmg : ℚ) : Simulation :=
  { demoSim stats rotation (-1) mana [] with
      CDs := cds
      currentTick := tick
      metrics := { SimMetrics.zero with TotalDamage := dmg } }

/-- The state and wait that `ChooseSpell` returns, reduced to what the
examples compare: in-flight spell, rotation index, out-of-mana record, wait. -/
def choiceSummary (r : Except Fault (Simulation × Int)) :
    Except Fault (Option Int × Int × Int × ℚ × Int) :=
  r.map (fun p => (p.1.CastingSpell.map (fun c => c.Spell.ID), p.1.RotationIdx,
    p.1.metrics.OOMAt, p.1.metrics.DamageAtOOM, p.2))

/-- The engine `demoFixed` with Concussion talent level `lvl`. -/
def demoTalented (lvl : Int) : Simulation :=
  { demoFixed with
      Options := { demoOptions [] 0 with
        Talents := { LightninOverload := 0, Concussion := lvl, ElementalMastery := false } } }

/-- The cast of spell `id` that `NewCast` builds for `demoFixed`. -/
def demoCastOf (id : Int) : Cast := demoEnv.NewCast demoFixed (demoSpellmap id) 0 1 0

/-! ## Properties -/

/-! ### `addAura` -/

theorem replaceAura_none (a : Aura) (l : List Aura) (h : ∀ b ∈ l, b.ID ≠ a.ID) :
    replaceAura a l = none := by
  induction l with
  | nil => rfl
  | cons b rest ih =>
    have hb : b.ID ≠ a.ID := h b (List.mem_cons_self _ _)
    have hr : ∀ c ∈ rest, c.ID ≠ a.ID := fun c hc => h c (List.mem_cons_of_mem _ hc)
    simp [replaceAura, hb, ih hr]

theorem replaceAura_some (a : Aura) (l : List Aura) (h : ∃ b ∈ l, b.ID = a.ID) :
    ∃ i, i < l.length ∧ (∀ j, j < i → ∀ b, l.get? j = some b → b.ID ≠ a.ID) ∧
      (∃ b, l.get? i = some b ∧ b.ID = a.ID) ∧ replaceAura a l = some (l.set i a) := by
  induction l with
  | nil => simp at h
  | cons b rest ih =>
    by_cases hb : b.ID = a.ID
    · refine ⟨0, by simp, ?_, ⟨b, by simp, hb⟩, by simp [replaceAura, hb]⟩
      intro j hj; omega
    · have hr : ∃ c ∈ rest, c.ID = a.ID := by
        obtain ⟨c, hc, hca⟩ := h
        rcases List.mem_cons.mp hc with rfl | hc
        · exact absurd hca hb
        · exact ⟨c, hc, hca⟩
      obtain ⟨i, hi, hmin, ⟨c, hc, hca⟩, hrep⟩ := ih hr
      refine ⟨i + 1, by simp; omega, ?_, ⟨c, by simpa using hc, hca⟩, by simp [replaceAura, hb, hrep]⟩
      intro j hj d hd
      cases j with
      | zero => simp at hd; subst hd; exact hb
      | succ j => exact hmin j (by omega) d (by simpa using hd)

/-- C6: `addAura` replaces in place the first aura with the same ID and leaves
the length and every other position unchanged; when no aura has that ID it
appends the aura at the end, the length growing by exactly 1. -/
theorem addAura_replaces_or_appends (sim : Simulation) (a : Aura) :
    ((∃ b ∈ sim.Auras, b.ID = a.ID) →
      (addAura sim a).Auras.length = sim.Auras.length ∧
      ∃ i, i < sim.Auras.length ∧
        (∀ j, j < i → ∀ b, sim.Auras.get? j = some b → b.ID ≠ a.ID) ∧
        (∃ b, sim.Auras.get? i = some b ∧ b.ID = a.ID) ∧
        (addAura sim a).Auras.get? i = some a ∧
        (∀ j, j ≠ i → (addAura sim a).Auras.get? j = sim.Auras.get? j)) ∧
    ((¬ ∃ b ∈ sim.Auras, b.ID = a.ID) →
      (addAura sim a).Auras = sim.Auras ++ [a] ∧
      (addAura sim a).Auras.length = sim.Auras.length + 1) := by
  constructor
  · intro h
    obtain ⟨i, hi, hmin, hat, hrep⟩ := replaceAura_some a sim.Auras h
    have hA : (addAura sim a).Auras = sim.Auras.set i a := by
      simp [addAura, addAuraList, hrep]
    rw [hA]
    refine ⟨by simp, i, hi, hmin, hat, ?_, ?_⟩
    · rw [List.get?_eq_getElem?, List.getElem?_set_self hi]
    · intro j hj
      rw [List.get?_eq_getElem?, List.get?_eq_getElem?, List.getElem?_set_ne (Ne.symm hj)]
  · intro h
    have hn : replaceAura a sim.Auras = none :=
      replaceAura_none a sim.Auras (fun b hb hid => h ⟨b, hb, hid⟩)
    have hA : (addAura sim a).Auras = sim.Auras ++ [a] := by
      simp [addAura, addAuraList, hn]
    rw [hA]
    exact ⟨rfl, by simp⟩

/-- Witness of C6 on the worked example: an aura with the ID of the second of
three auras replaces it, an aura with a new ID is appended. -/
theorem addAura_replaces_or_appends_witness :
    ((∃ b ∈ (demoSim (demoStats 100 50 1 0) [1] 0 100 demoAuras).Auras,
        b.ID = (plainAura 2 99).ID) ∧
      (addAura (demoSim (demoStats 100 50 1 0) [1] 0 100 demoAuras) (plainAura 2 99)).Auras.length
        = (demoSim (demoStats 100 50 1 0) [1] 0 100 demoAuras).Auras.length) ∧
    ((¬ ∃ b ∈ (demoSim (demoStats 100 50 1 0) [1] 0 100 demoAuras).Auras,
        b.ID = (plainAura 7 99).ID) ∧
      (addAura (demoSim (demoStats 100 50 1 0) [1] 0 100 demoAuras) (plainAura 7 99)).Auras
        = (demoSim (demoStats 100 50 1 0) [1] 0 100 demoAuras).Auras ++ [plainAura 7 99]) :=
  ⟨⟨by decide,
      ((addAura_replaces_or_appends (demoSim (demoStats 100 50 1 0) [1] 0 100 demoAuras)
        (plainAura 2 99)).1 (by decide)).1⟩,
    ⟨by decide,
      ((addAura_replaces_or_appends (demoSim (demoStats 100 50 1 0) [1] 0 100 demoAuras)
        (plainAura 7 99)).2 (by decide)).1⟩⟩

/-! ### Rounding and the out-of-mana wait -/

theorem pow2_pos (e : Int) : 0 < pow2 e := by
  unfold pow2
  split
  · have : (0 : ℚ) < 2 ^ e.toNat := pow_pos (by norm_num) _
    push_cast
    exact this
  · have : (0 : ℚ) < 2 ^ (-e).toNat := pow_pos (by norm_num) _
    apply one_div_pos.mpr
    push_cast
    exact this

theorem roundEven_nonneg (m : ℚ) (h : 0 ≤ m) : 0 ≤ roundEven m := by
  have hf : 0 ≤ ⌊m⌋ := Int.floor_nonneg.mpr h
  unfold roundEven
  split
  · exact hf
  · split
    · omega
    · split <;> omega

theorem roundEven_le (m : ℚ) : (roundEven m : ℚ) ≤ m + 1 / 2 := by
  have h1 : (⌊m⌋ : ℚ) ≤ m := Int.floor_le m
  unfold roundEven
  split
  · linarith
  · rename_i h
    split
    · rename_i h2
      push_cast
      linarith
    · rename_i h2
      have h3 : m - ⌊m⌋ = 1 / 2 := le_antisymm (not_lt.mp h2) (not_lt.mp h)
      split
      · linarith
      · push_cast
        linarith

theorem roundEven_of_lt_half (m : ℚ) (h0 : 0 ≤ m) (h : m < 1 / 2) : roundEven m = 0 := by
  have hf : ⌊m⌋ = 0 := by
    rw [Int.floor_eq_iff]
    constructor
    · simpa using h0
    · simp only [Int.cast_zero, zero_add]
      linarith
  unfold roundEven
  rw [hf]
  simp only [Int.cast_zero, sub_zero, h, if_true]

theorem roundF64_nonneg (x : ℚ) (h : 0 ≤ x) : 0 ≤ roundF64 x := by
  unfold roundF64
  split
  · exact le_refl _
  · have hp := pow2_pos (ulpExp x)
    have hm : 0 ≤ x / pow2 (ulpExp x) := div_nonneg h (le_of_lt hp)
    have := roundEven_nonneg _ hm
    exact mul_nonneg (by exact_mod_cast this) (le_of_lt hp)

theorem roundF64_le_two_mul (x : ℚ) (h : 0 ≤ x) : roundF64 x ≤ 2 * x := by
  unfold roundF64
  split
  · linarith
  · have hp := pow2_pos (ulpExp x)
    have hm : 0 ≤ x / pow2 (ulpExp x) := div_nonneg h (le_of_lt hp)
    have hx : x = x / pow2 (ulpExp x) * pow2 (ulpExp x) := by
      field_simp
    have key : (roundEven (x / pow2 (ulpExp x)) : ℚ) ≤ 2 * (x / pow2 (ulpExp x)) := by
      by_cases hh : x / pow2 (ulpExp x) < 1 / 2
      · rw [roundEven_of_lt_half _ hm hh]
        simp only [Int.cast_zero]
        linarith
      · have := roundEven_le (x / pow2 (ulpExp x))
        linarith [not_lt.mp hh]
    calc (roundEven (x / pow2 (ulpExp x)) : ℚ) * pow2 (ulpExp x)
        ≤ 2 * (x / pow2 (ulpExp x)) * pow2 (ulpExp x) :=
          mul_le_mul_of_nonneg_right key (le_of_lt hp)
      _ = 2 * x := by rw [mul_assoc, ← hx]

theorem manaRegen_nonneg_of (env : Env) (s : Simulation)
    (htps : 0 < env.TicksPerSecond) (h : 0 ≤ s.Stats .StatMP5 + s.Buffs .StatMP5) :
    0 ≤ manaRegen env s := by
  unfold manaRegen
  have ht : (0 : ℚ) ≤ (env.TicksPerSecond : ℚ) := by exact_mod_cast le_of_lt htps
  exact roundF64_nonneg _ (div_nonneg
    (roundF64_nonneg _ (div_nonneg (roundF64_nonneg _ h) (by norm_num)))
    (roundF64_nonneg _ ht))

theorem waitQuotient_nonneg (env : Env) (s : Simulation) (cost : ℚ)
    (hreg : 0 ≤ manaRegen env s) (hc : s.CurrentMana ≤ cost) : 0 ≤ waitQuotient env s cost := by
  unfold waitQuotient
  exact roundF64_nonneg _ (div_nonneg (roundF64_nonneg _ (by linarith)) hreg)

theorem waitQuotient_le (env : Env) (s : Simulation) (cost : ℚ)
    (hreg : 0 < manaRegen env s) (hc : s.CurrentMana ≤ cost) :
    waitQuotient env s cost ≤ 4 * (cost - s.CurrentMana) / manaRegen env s := by
  unfold waitQuotient
  have h1 : 0 ≤ roundF64 (cost - s.CurrentMana) := roundF64_nonneg _ (by linarith)
  have h2 := roundF64_le_two_mul (cost - s.CurrentMana) (by linarith)
  have h3 := roundF64_le_two_mul (roundF64 (cost - s.CurrentMana) / manaRegen env s)
    (div_nonneg h1 (le_of_lt hreg))
  have h4 : roundF64 (cost - s.CurrentMana) / manaRegen env s
      ≤ 2 * (cost - s.CurrentMana) / manaRegen env s :=
    div_le_div_of_nonneg_right h2 (le_of_lt hreg)
  calc roundF64 (roundF64 (cost - s.CurrentMana) / manaRegen env s)
      ≤ 2 * (roundF64 (cost - s.CurrentMana) / manaRegen env s) := h3
    _ ≤ 2 * (2 * (cost - s.CurrentMana) / manaRegen env s) := by linarith
    _ = 4 * (cost - s.CurrentMana) / manaRegen env s := by ring

theorem manaRegenTicks_of_fit (env : Env) (s : Simulation) (cost : ℚ)
    (hreg : 0 < manaRegen env s) (hc : s.CurrentMana ≤ cost)
    (hfit : ⌈waitQuotient env s cost⌉ < 9223372036854775808) :
    manaRegenTicks env s cost = ⌈waitQuotient env s cost⌉ ∧ 0 ≤ manaRegenTicks env s cost := by
  have h0 : 0 ≤ ⌈waitQuotient env s cost⌉ :=
    Int.ceil_nonneg (waitQuotient_nonneg env s cost (le_of_lt hreg) hc)
  have he : manaRegenTicks env s cost = ⌈waitQuotient env s cost⌉ := by
    unfold manaRegenTicks
    rw [if_neg (ne_of_gt hreg), if_pos ⟨by omega, hfit⟩]
  exact ⟨he, by rw [he]; exact h0⟩

theorem manaRegenTicks_regen (env : Env) (s : Simulation) (cost : ℚ)
    (hreg : 0 ≤ manaRegen env s) (hc : s.CurrentMana < cost)
    (hfit : manaRegen env s ≠ 0 → ⌈waitQuotient env s cost⌉ < 9223372036854775808) :
    0 ≤ manaRegen env s * (manaRegenTicks env s cost : ℚ) := by
  rcases eq_or_lt_of_le hreg with h0 | hpos
  · rw [← h0]; simp
  · have h1 := (manaRegenTicks_of_fit env s cost hpos (le_of_lt hc) (hfit (ne_of_gt hpos))).2
    have : (0 : ℚ) ≤ (manaRegenTicks env s cost : ℚ) := by exact_mod_cast h1
    exact mul_nonneg hreg this

/-! ### Cooldowns in `Advance` -/

theorem wrapInt_range (x : Int) :
    -9223372036854775808 ≤ wrapInt x ∧ wrapInt x < 9223372036854775808 := by
  unfold wrapInt
  omega

theorem dlookup_kreplace_self (k : CDKey) (v : Int) (l : List (Sigma (fun _ : CDKey => Int)))
    (h : k ∈ l.keys) : List.dlookup k (List.kreplace k v l) = some v := by
  induction l with
  | nil => simp at h
  | cons e rest ih =>
    obtain ⟨k0, v0⟩ := e
    by_cases hk : k = k0
    · subst hk
      simp [List.kreplace, List.lookmap_cons_some]
    · have hr : k ∈ rest.keys := by
        simp only [List.keys_cons, List.mem_cons] at h
        rcases h with h | h
        · exact absurd h hk
        · exact h
      have : List.kreplace k v (⟨k0, v0⟩ :: rest) = ⟨k0, v0⟩ :: List.kreplace k v rest := by
        simp [List.kreplace, List.lookmap_cons_none, hk]
      rw [this, List.dlookup_cons_ne _ _ hk]
      exact ih hr

theorem dlookup_kreplace_ne (k k1 : CDKey) (v : Int) (l : List (Sigma (fun _ : CDKey => Int)))
    (h : k1 ≠ k) : List.dlookup k1 (List.kreplace k v l) = List.dlookup k1 l := by
  induction l with
  | nil => rfl
  | cons e rest ih =>
    obtain ⟨k0, v0⟩ := e
    by_cases hk : k = k0
    · subst hk
      have : List.kreplace k v (⟨k, v0⟩ :: rest) = ⟨k, v⟩ :: rest := by
        simp [List.kreplace, List.lookmap_cons_some]
      rw [this, List.dlookup_cons_ne _ _ h, List.dlookup_cons_ne _ _ h]
    · have : List.kreplace k v (⟨k0, v0⟩ :: rest) = ⟨k0, v0⟩ :: List.kreplace k v rest := by
        simp [List.kreplace, List.lookmap_cons_none, hk]
      rw [this]
      by_cases hk1 : k1 = k0
      · subst hk1
        simp
      · rw [List.dlookup_cons_ne _ _ hk1, List.dlookup_cons_ne _ _ hk1]
        exact ih

theorem lookup_set_self (m : CDMap) (k : CDKey) (v : Int) : (m.set k v).lookup k = some v := by
  unfold CDMap.set
  split
  · rename_i h
    have hk : k ∈ m.entries.keys := AList.mem_keys.mpr (AList.lookup_isSome.mp h)
    exact dlookup_kreplace_self k v m.entries hk
  · exact AList.lookup_insert m

theorem lookup_set_ne (m : CDMap) {k k1 : CDKey} (v : Int) (h : k1 ≠ k) :
    (m.set k v).lookup k1 = m.lookup k1 := by
  unfold CDMap.set
  split
  · exact dlookup_kreplace_ne k k1 v m.entries h
  · exact AList.lookup_insert_ne h

theorem keys_set_of_mem (m : CDMap) (k : CDKey) (v : Int) (h : k ∈ m) :
    (m.set k v).keys = m.keys := by
  unfold CDMap.set
  rw [if_pos (AList.lookup_isSome.mpr h)]
  exact AList.keys_replace k v m

theorem lookup_tickCD_self (n : Int) (m : CDMap) (k : CDKey) :
    (tickCD n m k).lookup k =
      if wrapInt (m.get k - n) < 1 then none else some (wrapInt (m.get k - n)) := by
  have hg : CDMap.get (m.set k (wrapInt (m.get k - n))) k = wrapInt (m.get k - n) := by
    simp [CDMap.get, lookup_set_self]
  unfold tickCD
  simp only [hg]
  by_cases h : wrapInt (m.get k - n) < 1
  · rw [if_pos h, if_pos h]; simp
  · rw [if_neg h, if_neg h]; exact lookup_set_self _ _ _

theorem lookup_tickCD_ne (n : Int) (m : CDMap) {k k0 : CDKey} (h : k ≠ k0) :
    (tickCD n m k0).lookup k = m.lookup k := by
  unfold tickCD
  simp only []
  split
  · rw [AList.lookup_erase_ne h, lookup_set_ne m _ h]
  · rw [lookup_set_ne m _ h]

theorem keys_tickCD_sublist (n : Int) (m : CDMap) (k : CDKey) (h : k ∈ m) :
    (tickCD n m k).keys.Sublist m.keys := by
  unfold tickCD
  simp only []
  split
  · rw [AList.keys_erase, keys_set_of_mem m k _ h]
    exact List.erase_sublist _ _
  · rw [keys_set_of_mem m k _ h]

theorem lookup_advanceCDs (n : Int) (k : CDKey) (order : List CDKey) (hnd : order.Nodup)
    (m : CDMap) :
    (advanceCDs order m n).lookup k =
      if k ∈ order then
        (if wrapInt (m.get k - n) < 1 then none else some (wrapInt (m.get k - n)))
      else m.lookup k := by
  induction order generalizing m with
  | nil => simp [advanceCDs]
  | cons k0 rest ih =>
    have hnd2 := List.nodup_cons.mp hnd
    have ih2 := ih hnd2.2 (tickCD n m k0)
    simp only [advanceCDs, List.foldl_cons] at ih2 ⊢
    rw [ih2]
    by_cases hk : k ∈ rest
    · have hne : k ≠ k0 := fun h => hnd2.1 (h ▸ hk)
      simp [hk, CDMap.get, lookup_tickCD_ne n m hne]
    · by_cases hk0 : k = k0
      · subst hk0
        simp [hk, lookup_tickCD_self]
      · simp [hk, hk0, lookup_tickCD_ne n m hk0]

theorem lookup_advanceCDs_perm (n : Int) (k : CDKey) (m : CDMap) (order : List CDKey)
    (hp : order.Perm m.keys) :
    (advanceCDs order m n).lookup k =
      (m.lookup k).bind (fun v => if 1 ≤ wrapInt (v - n) then some (wrapInt (v - n)) else none) := by
  have hnd : order.Nodup := hp.nodup_iff.mpr m.keys_nodup
  rw [lookup_advanceCDs n k order hnd m]
  by_cases hk : k ∈ order
  · have hk2 : k ∈ m := AList.mem_keys.mp (hp.mem_iff.mp hk)
    obtain ⟨v, hv⟩ := Option.isSome_iff_exists.mp (AList.lookup_isSome.mpr hk2)
    simp only [hk, if_true, hv, Option.some_bind, CDMap.get, Option.getD_some]
    by_cases h1 : wrapInt (v - n) < 1
    · rw [if_pos h1, if_neg (by omega)]
    · rw [if_neg h1, if_pos (by omega)]
  · have hk2 : k ∉ m := fun h => hk (hp.mem_iff.mpr (AList.mem_keys.mpr h))
    simp [hk, AList.lookup_eq_none.mpr hk2]

theorem keys_advanceCDs_sublist (n : Int) (order : List CDKey) (hnd : order.Nodup) (m : CDMap)
    (hmem : ∀ k ∈ order, k ∈ m) : (advanceCDs order m n).keys.Sublist m.keys := by
  induction order generalizing m with
  | nil => simp [advanceCDs]
  | cons k0 rest ih =>
    have hnd2 := List.nodup_cons.mp hnd
    have h0 : k0 ∈ m := hmem k0 (List.mem_cons_self _ _)
    have hrest : ∀ k ∈ rest, k ∈ tickCD n m k0 := by
      intro k hk
      have hne : k ≠ k0 := fun h => hnd2.1 (h ▸ hk)
      have := hmem k (List.mem_cons_of_mem _ hk)
      rw [← AList.lookup_isSome] at this ⊢
      rw [lookup_tickCD_ne n m hne]
      exact this
    have ih2 := ih hnd2.2 (tickCD n m k0) hrest
    simp only [advanceCDs, List.foldl_cons] at ih2 ⊢
    exact ih2.trans (keys_tickCD_sublist n m k0 h0)

theorem entries_eq_of_keys_lookup (m1 m2 : CDMap) (hk : m1.keys = m2.keys)
    (hl : ∀ k, m1.lookup k = m2.lookup k) : m1 = m2 := by
  apply AList.ext
  obtain ⟨l1, nd1⟩ := m1
  obtain ⟨l2, nd2⟩ := m2
  simp only [AList.keys, AList.lookup] at hk hl
  simp only
  induction l1 generalizing l2 with
  | nil =>
    cases l2 with
    | nil => rfl
    | cons e rest => simp [List.keys] at hk
  | cons e1 r1 ih =>
    cases l2 with
    | nil => simp [List.keys] at hk
    | cons e2 r2 =>
      obtain ⟨k1, v1⟩ := e1
      obtain ⟨k2, v2⟩ := e2
      simp only [List.keys_cons, List.cons.injEq] at hk
      obtain ⟨hk1, hkr⟩ := hk
      subst hk1
      have hv := hl k1
      simp only [List.dlookup_cons_eq, Option.some.injEq] at hv
      subst hv
      have nd1r := (List.nodupKeys_cons.mp nd1)
      have nd2r := (List.nodupKeys_cons.mp nd2)
      rw [ih nd1r.2 r2 nd2r.2 hkr]
      intro k
      by_cases hkk : k = k1
      · subst hkk
        rw [List.dlookup_eq_none.mpr nd1r.1, List.dlookup_eq_none.mpr nd2r.1]
      · have := hl k
        rw [List.dlookup_cons_ne _ _ hkk, List.dlookup_cons_ne _ _ hkk] at this
        exact this

theorem sublist_eq_filter {α : Type} [DecidableEq α] (l1 l : List α) (hs : l1.Sublist l)
    (hnd : l.Nodup) : l1 = l.filter (fun x => decide (x ∈ l1)) := by
  induction hs with
  | slnil => rfl
  | cons a s ih =>
    rename_i l1 l
    have hnd2 := List.nodup_cons.mp hnd
    have ha : a ∉ l1 := fun h => hnd2.1 (s.subset h)
    rw [List.filter_cons_of_neg (by simpa using ha)]
    exact ih hnd2.2
  | cons₂ a s ih =>
    rename_i l1 l
    have hnd2 := List.nodup_cons.mp hnd
    rw [List.filter_cons_of_pos (by simp)]
    congr 1
    have hc : l.filter (fun x => decide (x ∈ a :: l1)) = l.filter (fun x => decide (x ∈ l1)) := by
      apply List.filter_congr
      intro x hx
      have hne : x ≠ a := fun h => hnd2.1 (h ▸ hx)
      simp [hne]
    rw [hc]
    exact ih hnd2.2

theorem advanceCDs_order (n : Int) (m : CDMap) (o1 o2 : List CDKey)
    (h1 : o1.Perm m.keys) (h2 : o2.Perm m.keys) : advanceCDs o1 m n = advanceCDs o2 m n := by
  have hl : ∀ k, (advanceCDs o1 m n).lookup k = (advanceCDs o2 m n).lookup k := by
    intro k
    rw [lookup_advanceCDs_perm n k m o1 h1, lookup_advanceCDs_perm n k m o2 h2]
  apply entries_eq_of_keys_lookup _ _ _ hl
  have s1 := keys_advanceCDs_sublist n o1 (h1.nodup_iff.mpr m.keys_nodup) m
    (fun k hk => AList.mem_keys.mp (h1.mem_iff.mp hk))
  have s2 := keys_advanceCDs_sublist n o2 (h2.nodup_iff.mpr m.keys_nodup) m
    (fun k hk => AList.mem_keys.mp (h2.mem_iff.mp hk))
  rw [sublist_eq_filter _ _ s1 m.keys_nodup, sublist_eq_filter _ _ s2 m.keys_nodup]
  apply List.filter_congr
  intro k _
  have : k ∈ (advanceCDs o1 m n).keys ↔ k ∈ (advanceCDs o2 m n).keys := by
    constructor
    · intro h
      have h3 := AList.lookup_isSome.mpr (AList.mem_keys.mp h)
      rw [hl k] at h3
      exact AList.mem_keys.mpr (AList.lookup_isSome.mp h3)
    · intro h
      have h3 := AList.lookup_isSome.mpr (AList.mem_keys.mp h)
      rw [← hl k] at h3
      exact AList.mem_keys.mpr (AList.lookup_isSome.mp h3)
  simp only [this]

theorem fireExpire_preserves {α : Type} (env : Env) (g : Simulation → α)
    (hexp : ∀ f s, g (env.expire f s) = g s) (sim : Simulation) (a : Aura) :
    g (fireExpire env sim a) = g sim := by
  unfold fireExpire
  cases a.OnExpire <;> simp [hexp]

theorem cleanAura_preserves {α : Type} (env : Env) (g : Simulation → α)
    (hexp : ∀ f s, g (env.expire f s) = g s)
    (haur : ∀ (s : Simulation) (l : List Aura), g { s with Auras := l } = g s)
    (sim sim1 : Simulation) (i : Nat) (fired : Option Effect)
    (h : cleanAura env sim i = .ok (sim1, fired)) : g sim1 = g sim := by
  unfold cleanAura at h
  cases hget : sim.Auras.get? i with
  | none => rw [hget] at h; exact absurd h (by simp)
  | some a =>
    rw [hget] at h
    simp only at h
    split at h
    · simp only [Except.ok.injEq, Prod.mk.injEq] at h
      rw [← h.1, haur, fireExpire_preserves env g hexp]
    · exact absurd h (by simp)

theorem cleanAll_preserves {α : Type} (env : Env) (g : Simulation → α)
    (hexp : ∀ f s, g (env.expire f s) = g s)
    (haur : ∀ (s : Simulation) (l : List Aura), g { s with Auras := l } = g s)
    (idxs : List Nat) (sim sim1 : Simulation) (log : List (Nat × Effect))
    (h : cleanAll env idxs sim = .ok (sim1, log)) : g sim1 = g sim := by
  induction idxs generalizing sim sim1 log with
  | nil =>
    simp only [cleanAll, Except.ok.injEq, Prod.mk.injEq] at h
    rw [← h.1]
  | cons i rest ih =>
    simp only [cleanAll] at h
    split at h
    · exact absurd h (by simp)
    · rename_i s1 fired h1
      split at h
      · exact absurd h (by simp)
      · rename_i s2 log2 h2
        simp only [Except.ok.injEq, Prod.mk.injEq] at h
        rw [← h.1, ih s1 s2 log2 h2, cleanAura_preserves env g hexp haur sim s1 i fired h1]

/-! ### The expiry sweep of `Advance` -/

theorem chooseSpell_fixed_ok (env : Env) (sim : Simulation) (so : Int)
    (h0 : 0 ≤ sim.RotationIdx)
    (hso : sim.SpellRotation.get? sim.RotationIdx.toNat = some so)
    (hcd : sim.CDs.get (.id so) < 1)
    (hmana : (env.NewCast sim (env.spellmap so) (sim.Stats .StatSpellDmg)
      (sim.Stats .StatSpellHit) (sim.Stats .StatSpellCrit)).ManaCost ≤ sim.CurrentMana) :
    ChooseSpell env sim = .ok
      ({ sim with
          CastingSpell := some (env.NewCast sim (env.spellmap so) (sim.Stats .StatSpellDmg)
            (sim.Stats .StatSpellHit) (sim.Stats .StatSpellCrit))
          RotationIdx := (sim.RotationIdx + 1) % sim.SpellRotation.length },
        (env.NewCast sim (env.spellmap so) (sim.Stats .StatSpellDmg)
            (sim.Stats .StatSpellHit) (sim.Stats .StatSpellCrit)).TicksUntilCast) := by
  have hlt : sim.RotationIdx.toNat < sim.SpellRotation.length := by
    by_contra hcon
    rw [List.get?_eq_getElem?, List.getElem?_eq_none (not_lt.mp hcon)] at hso
    exact absurd hso (by simp)
  have hlt2 : sim.RotationIdx < sim.SpellRotation.length := by omega
  have hne : sim.RotationIdx ≠ -1 := by omega
  have hnn : ¬ sim.RotationIdx < 0 := by omega
  have hidx : (if sim.RotationIdx + 1 = (sim.SpellRotation.length : Int) then (0 : Int)
      else sim.RotationIdx + 1) = (sim.RotationIdx + 1) % sim.SpellRotation.length := by
    split
    · rename_i he; rw [he]; simp
    · rename_i he
      rw [Int.emod_eq_of_lt (by omega) (by omega)]
  unfold ChooseSpell
  simp only [hne, hnn, if_false, hso, hcd, if_true, ge_iff_le, hmana, hidx]

theorem commitChain_index (env : Env) (k : Nat) (s v : Simulation)
    (h : CommitChain env k s v) (h0 : 0 ≤ s.RotationIdx)
    (hlt : s.RotationIdx < s.SpellRotation.length) :
    v.SpellRotation = s.SpellRotation ∧
      v.RotationIdx = (s.RotationIdx + k) % s.SpellRotation.length := by
  induction h with
  | nil s =>
    refine ⟨rfl, ?_⟩
    simp
    rw [Int.emod_eq_of_lt h0 hlt]
  | snoc hc hrot hidx hfix ih =>
    rename_i k s t u v
    obtain ⟨ihr, ihi⟩ := ih h0 hlt
    obtain ⟨so, hu0, hso, hcd, hmana, tk, hch⟩ := hfix
    rw [chooseSpell_fixed_ok env u so hu0 hso hcd hmana] at hch
    simp only [Except.ok.injEq, Prod.mk.injEq] at hch
    rw [← hch.1]
    simp only
    refine ⟨by rw [hrot, ihr], ?_⟩
    rw [hrot, ihr, hidx, ihi]
    push_cast
    rw [← add_assoc, Int.add_emod, Int.emod_emod_of_dvd _ (dvd_refl _), ← Int.add_emod]

/-- C8: in fixed-order mode with `N >= 1` spells and `0 <= RotationIdx < N`,
a `ChooseSpell` call that finds the current spell off cooldown and
affordable commits a cast of the spell at `RotationIdx` and sets the index to
`(RotationIdx + 1) mod N`, which is again in `[0, N)`; after `N` consecutive
such calls the index is back at its starting value. -/
theorem chooseSpell_fixed_rotation_cycle (env : Env) (sim : Simulation)
    (hN : 1 ≤ sim.SpellRotation.length) (h0 : 0 ≤ sim.RotationIdx)
    (hlt : sim.RotationIdx < sim.SpellRotation.length) :
    (∃ so, sim.SpellRotation.get? sim.RotationIdx.toNat = some so ∧
      (sim.CDs.get (.id so) < 1 →
        (env.NewCast sim (env.spellmap so) (sim.Stats .StatSpellDmg)
          (sim.Stats .StatSpellHit) (sim.Stats .StatSpellCrit)).ManaCost ≤ sim.CurrentMana →
        ChooseSpell env sim = .ok
          ({ sim with
              CastingSpell := some (env.NewCast sim (env.spellmap so) (sim.Stats .StatSpellDmg)
                (sim.Stats .StatSpellHit) (sim.Stats .StatSpellCrit))
              RotationIdx := (sim.RotationIdx + 1) % sim.SpellRotation.length },
            (env.NewCast sim (env.spellmap so) (sim.Stats .StatSpellDmg)
              (sim.Stats .StatSpellHit) (sim.Stats .StatSpellCrit)).TicksUntilCast))) ∧
    (0 ≤ (sim.RotationIdx + 1) % sim.SpellRotation.length ∧
      (sim.RotationIdx + 1) % sim.SpellRotation.length < sim.SpellRotation.length) ∧
    (∀ v, CommitChain env sim.SpellRotation.length sim v →
      v.RotationIdx = sim.RotationIdx) := by
  have hNpos : (0 : Int) < sim.SpellRotation.length := by omega
  refine ⟨?_, ⟨Int.emod_nonneg _ (by omega), Int.emod_lt_of_pos _ hNpos⟩, ?_⟩
  · have hlt2 : sim.RotationIdx.toNat < sim.SpellRotation.length := by omega
    refine ⟨sim.SpellRotation.get ⟨sim.RotationIdx.toNat, hlt2⟩, ?_, ?_⟩
    · rw [List.get?_eq_get hlt2]
    · intro hcd hmana
      exact chooseSpell_fixed_ok env sim _ h0 (by rw [List.get?_eq_get hlt2]) hcd hmana
  · intro v hv
    rw [(commitChain_index env _ sim v hv h0 hlt).2, Int.add_emod_self,
      Int.emod_eq_of_lt h0 hlt]

/-- Witness of C8 on the worked example: two spells, index 1. -/
theorem chooseSpell_fixed_rotation_cycle_witness :
    (1 ≤ demoFixed.SpellRotation.length ∧ 0 ≤ demoFixed.RotationIdx ∧
      demoFixed.RotationIdx < demoFixed.SpellRotation.length) ∧
    (0 ≤ (demoFixed.RotationIdx + 1) % demoFixed.SpellRotation.length ∧
      (demoFixed.RotationIdx + 1) % demoFixed.SpellRotation.length
        < demoFixed.SpellRotation.length) ∧
    (∀ v, CommitChain demoEnv demoFixed.SpellRotation.length demoFixed v →
      v.RotationIdx = demoFixed.RotationIdx) :=
  ⟨⟨by decide, by decide, by decide⟩,
    (chooseSpell_fixed_rotation_cycle demoEnv demoFixed (by decide) (by decide) (by decide)).2⟩

/-! ### `Cast` -/

theorem fireHook_fold_fst {α : Type} (env : Env) (g : Simulation → α)
    (hg : ∀ f s c, g (env.effect f s c).1 = g s) (hook : Aura → Option Effect)
    (l : List Aura) (p : Simulation × Cast) :
    g (l.foldl (fireHook env hook) p).1 = g p.1 := by
  induction l generalizing p with
  | nil => rfl
  | cons a rest ih =>
    rw [List.foldl_cons, ih]
    unfold fireHook
    cases hook a <;> simp [hg]

theorem fireHook_fold_snd {α : Type} (env : Env) (g : Cast → α)
    (hg : ∀ f s c, g (env.effect f s c).2 = g c) (hook : Aura → Option Effect)
    (l : List Aura) (p : Simulation × Cast) :
    g (l.foldl (fireHook env hook) p).2 = g p.2 := by
  induction l generalizing p with
  | nil => rfl
  | cons a rest ih =>
    rw [List.foldl_cons, ih]
    unfold fireHook
    cases hook a <;> simp [hg]

theorem effects_fold_fst {α : Type} (env : Env) (g : Simulation → α)
    (hg : ∀ f s c, g (env.effect f s c).1 = g s)
    (l : List Effect) (p : Simulation × Cast) :
    g (l.foldl (fun p f => env.effect f p.1 p.2) p).1 = g p.1 := by
  induction l generalizing p with
  | nil => rfl
  | cons a rest ih => rw [List.foldl_cons, ih, hg]

theorem effects_fold_snd {α : Type} (env : Env) (g : Cast → α)
    (hg : ∀ f s c, g (env.effect f s c).2 = g c)
    (l : List Effect) (p : Simulation × Cast) :
    g (l.foldl (fun p f => env.effect f p.1 p.2) p).2 = g p.2 := by
  induction l generalizing p with
  | nil => rfl
  | cons a rest ih => rw [List.foldl_cons, ih, hg]

/-- What the hit branch leaves alone in the engine, for a field `g` that no
effect code, no aura list and no metrics or random-stream update changes. -/
theorem castHit_fst {α : Type} (env : Env) (g : Simulation → α)
    (hg : ∀ f s c, g (env.effect f s c).1 = g s)
    (haur : ∀ (s : Simulation) l, g { s with Auras := l } = g s)
    (hrnd : ∀ (s : Simulation) r, g { s with rando := r } = g s)
    (hmet : ∀ (s : Simulation) m, g { s with metrics := m } = g s)
    (sim sim1 : Simulation) (cast cast1 : Cast)
    (h : castHit env sim cast = .ok (sim1, cast1)) : g sim1 = g sim := by
  unfold castHit at h
  split at h
  · exact absurd h (by simp)
  · rename_i k r1 hk
    simp only [Except.ok.injEq, Prod.mk.injEq] at h
    rw [← h.1, hmet, fireHook_fold_fst env g hg, effects_fold_fst env g hg, hrnd]
    split
    · unfold addAura; rw [haur, hrnd]
    · rw [hrnd]

theorem castHit_snd {α : Type} (env : Env) (g : Cast → α)
    (hg : ∀ f s c, g (env.effect f s c).2 = g c)
    (hflags : ∀ (c : Cast) h k d, g { c with DidHit := h, DidCrit := k, DidDmg := d } = g c)
    (sim sim1 : Simulation) (cast cast1 : Cast)
    (h : castHit env sim cast = .ok (sim1, cast1)) : g cast1 = g cast := by
  unfold castHit at h
  split at h
  · exact absurd h (by simp)
  · rename_i k r1 hk
    simp only [Except.ok.injEq, Prod.mk.injEq] at h
    rw [← h.2, fireHook_fold_snd env g hg, effects_fold_snd env g hg]
    exact hflags _ _ _ _


theorem onCastComplete_no_hooks (env : Env) (sim : Simulation) (cast : Cast)
    (h : ∀ a ∈ sim.Auras, a.OnCastComplete = none) :
    onCastComplete env sim cast = (sim, cast) := by
  unfold onCastComplete
  generalize sim.Auras = l at h
  induction l with
  | nil => rfl
  | cons a rest ih =>
    rw [List.foldl_cons]
    have ha : a.OnCastComplete = none := h a (List.mem_cons_self _ _)
    have : fireHook env Aura.OnCastComplete (sim, cast) a = (sim, cast) := by
      simp [fireHook, ha]
    rw [this]
    exact ih (fun b hb => h b (List.mem_cons_of_mem _ hb))

/-- C9: with hooks that do not touch mana or the cooldowns, after `Cast`
returns, whether the hit roll succeeded or failed, `CurrentMana` is its
previous value minus the `ManaCost` of the cast, `CastingSpell` is nil, and the
cooldown table has `Spell.ID` armed to `Cooldown * TicksPerSecond` when
`Cooldown > 0` and is unchanged otherwise; when the hooks do not touch the cast
either, its `ManaCost` and `Spell` are those it had before the call.  When the
hit roll fails `Cast` returns, and what it returns is the cast and the metrics
as the on-cast-complete hooks left them: `DidHit`, `DidCrit`, `DidDmg`,
`TotalDamage` and `Casts` are not written (they are those before the call when
no aura has such a hook).  When the hit roll succeeds `Cast` returns provided
the damage range passed to `Intn` is positive. -/
theorem cast_bookkeeping (env : Env) (sim : Simulation) (cast : Cast)
    (hmana : ∀ f s c, (env.effect f s c).1.CurrentMana = s.CurrentMana)
    (hcds : ∀ f s c, (env.effect f s c).1.CDs = s.CDs) :
    (∀ sim1 cast1, sim.Cast env cast = .ok (sim1, cast1) →
      sim1.CurrentMana = sim.CurrentMana - cast1.ManaCost ∧
      sim1.CastingSpell = none ∧
      (0 < cast1.Spell.Cooldown →
        sim1.CDs = sim.CDs.insert (.id cast1.Spell.ID)
          (cast1.Spell.Cooldown * env.TicksPerSecond) ∧
        sim1.CDs.get (.id cast1.Spell.ID) = cast1.Spell.Cooldown * env.TicksPerSecond) ∧
      (¬ 0 < cast1.Spell.Cooldown → sim1.CDs = sim.CDs) ∧
      ((∀ f s c, (env.effect f s c).2 = c) →
        cast1.ManaCost = cast.ManaCost ∧ cast1.Spell = cast.Spell)) ∧
    (¬ (env.float64 (onCastComplete env sim cast).1.rando).1
        < (onCastComplete env sim cast).2.Hit →
      ∃ sim1, sim.Cast env cast = .ok (sim1, (onCastComplete env sim cast).2) ∧
        sim1.metrics = (onCastComplete env sim cast).1.metrics ∧
        ((∀ f s c, (env.effect f s c).2 = c) → (onCastComplete env sim cast).2 = cast) ∧
        ((∀ a ∈ sim.Auras, a.OnCastComplete = none) →
          (onCastComplete env sim cast).2 = cast ∧ sim1.metrics = sim.metrics)) ∧
    ((env.float64 (onCastComplete env sim cast).1.rando).1
        < (onCastComplete env sim cast).2.Hit →
      0 < goInt ((onCastComplete env sim cast).2.Spell.MaxDmg
          - (onCastComplete env sim cast).2.Spell.MinDmg) →
      ∃ sim1 cast1, sim.Cast env cast = .ok (sim1, cast1)) := by
  have hp2 : (∀ f s c, (env.effect f s c).2 = c) → (onCastComplete env sim cast).2 = cast :=
    fun hcast => fireHook_fold_snd env (fun c => c) hcast _ _ _
  have hpm : (onCastComplete env sim cast).1.CurrentMana = sim.CurrentMana :=
    fireHook_fold_fst env (fun s => s.CurrentMana) hmana _ _ _
  have hpc : (onCastComplete env sim cast).1.CDs = sim.CDs :=
    fireHook_fold_fst env (fun s => s.CDs) hcds _ _ _
  refine ⟨?_, ?_, ?_⟩
  · intro sim1 cast1 h
    unfold Simulation.Cast at h
    simp only at h
    split at h
    · exact absurd h (by simp)
    · rename_i s2 c2 hch
      have hfacts : s2.CurrentMana = sim.CurrentMana ∧ s2.CDs = sim.CDs ∧
          ((∀ f s c, (env.effect f s c).2 = c) →
            c2.ManaCost = cast.ManaCost ∧ c2.Spell = cast.Spell) := by
        split at hch
        · refine ⟨?_, ?_, ?_⟩
          · rw [castHit_fst env (fun s => s.CurrentMana) hmana (fun _ _ => rfl)
              (fun _ _ => rfl) (fun _ _ => rfl) _ _ _ _ hch]
            exact hpm
          · rw [castHit_fst env (fun s => s.CDs) hcds (fun _ _ => rfl) (fun _ _ => rfl)
              (fun _ _ => rfl) _ _ _ _ hch]
            exact hpc
          · intro hcast
            have e1 := castHit_snd env (fun c => c.ManaCost) (fun f s c => by rw [hcast])
              (fun _ _ _ _ => rfl) _ _ _ _ hch
            have e2 := castHit_snd env (fun c => c.Spell) (fun f s c => by rw [hcast])
              (fun _ _ _ _ => rfl) _ _ _ _ hch
            simp only at e1 e2
            rw [hp2 hcast] at e1 e2
            exact ⟨e1, e2⟩
        · simp only [Except.ok.injEq, Prod.mk.injEq] at hch
          obtain ⟨e1, e2⟩ := hch
          subst e1 e2
          exact ⟨hpm, hpc, fun hcast => by rw [hp2 hcast]; exact ⟨rfl, rfl⟩⟩
      obtain ⟨hm2, hc2, hrest⟩ := hfacts
      simp only [Except.ok.injEq, Prod.mk.injEq] at h
      obtain ⟨h1, h2⟩ := h
      subst h2
      by_cases hcd : 0 < c2.Spell.Cooldown
      · simp only [gt_iff_lt, hcd, if_true] at h1
        subst h1
        simp [hm2, hc2, hcd, CDMap.get]
        exact hrest
      · simp only [gt_iff_lt, hcd, if_false] at h1
        subst h1
        simp [hm2, hc2, hcd]
        exact hrest
  · intro hmiss
    unfold Simulation.Cast
    simp only [hmiss, if_false]
    by_cases hcd : 0 < (onCastComplete env sim cast).2.Spell.Cooldown
    · simp only [gt_iff_lt, hcd, if_true]
      refine ⟨_, rfl, rfl, hp2, ?_⟩
      intro hno
      simp only [onCastComplete_no_hooks env sim cast hno, and_self]
    · simp only [gt_iff_lt, hcd, if_false]
      refine ⟨_, rfl, rfl, hp2, ?_⟩
      intro hno
      simp only [onCastComplete_no_hooks env sim cast hno, and_self]
  · intro hhit hrange
    unfold Simulation.Cast
    simp only [hhit, if_true]
    have hI : ¬ goInt ((onCastComplete env sim cast).2.Spell.MaxDmg
        - (onCastComplete env sim cast).2.Spell.MinDmg) ≤ 0 := not_le.mpr hrange
    simp only [castHit, Intn, hI, if_false]
    exact ⟨_, _, rfl⟩

theorem mem_replaceAura (a : Aura) (l l1 : List Aura) (h : replaceAura a l = some l1)
    (b : Aura) (hb : b ∈ l1) : b ∈ l ∨ b = a := by
  induction l generalizing l1 with
  | nil => simp [replaceAura] at h
  | cons c rest ih =>
    unfold replaceAura at h
    split at h
    · simp only [Option.some.injEq] at h
      subst h
      rcases List.mem_cons.mp hb with rfl | hb
      · exact Or.inr rfl
      · exact Or.inl (List.mem_cons_of_mem _ hb)
    · cases hr : replaceAura a rest with
      | none => rw [hr] at h; simp at h
      | some l2 =>
        rw [hr] at h
        simp only [Option.map_some', Option.some.injEq] at h
        subst h
        rcases List.mem_cons.mp hb with rfl | hb
        · exact Or.inl (List.mem_cons_self _ _)
        · rcases ih l2 hr hb with h1 | h1
          · exact Or.inl (List.mem_cons_of_mem _ h1)
          · exact Or.inr h1

theorem mem_addAuraList (a : Aura) (l : List Aura) (b : Aura) (hb : b ∈ addAuraList l a) :
    b ∈ l ∨ b = a := by
  unfold addAuraList at hb
  split at hb
  · rename_i l1 h1
    exact mem_replaceAura a l l1 h1 b hb
  · rcases List.mem_append.mp hb with h | h
    · exact Or.inl h
    · exact Or.inr (by simpa using h)

theorem fireHook_fold_none (env : Env) (hook : Aura → Option Effect) (l : List Aura)
    (h : ∀ a ∈ l, hook a = none) (p : Simulation × Cast) :
    l.foldl (fireHook env hook) p = p := by
  induction l with
  | nil => rfl
  | cons a rest ih =>
    rw [List.foldl_cons]
    have ha : hook a = none := h a (List.mem_cons_self _ _)
    have : fireHook env hook p a = p := by simp [fireHook, ha]
    rw [this]
    exact ih (fun b hb => h b (List.mem_cons_of_mem _ hb))

theorem goInt_le_of_pos (x : ℚ) (h : 0 < goInt x) : ((goInt x : Int) : ℚ) ≤ x := by
  unfold goInt at h ⊢
  split
  · exact Int.floor_le x
  · rename_i hx
    exfalso
    have hx2 : x < 0 := not_le.mp hx
    have : ⌈x⌉ ≤ 0 := Int.ceil_le.mpr (by simpa using hx2.le)
    simp only [hx, if_false] at h
    omega


/-- C10: for a cast whose hit roll succeeds, without cast effects and aura
hooks, with `k` the integer drawn from `[0, int(MaxDmg - MinDmg))`:
`MinDmg <= MinDmg + k <= MaxDmg`, `Cast` returns, the resolved damage is
`DidDmg = B * c * m * r` (`B` the pre-set damage when it is not 0 and
`MinDmg + k + Stats[StatSpellDmg] * Coeff` otherwise, `c` 2 on a crit draw
below `cast.Crit` and 1 otherwise, `m` the Concussion multiplier, `r` 3/4 on a
resist draw below 1/40 and 1 otherwise), `TotalDamage` grows by `DidDmg` and
the cast is the last element of `Casts`. -/
theorem cast_hit_damage (env : Env) (sim : Simulation) (cast : Cast)
    (hnoeff : cast.Effects = [])
    (hnohooks : ∀ a ∈ sim.Auras, a.OnCastComplete = none ∧ a.OnSpellHit = none)
    (hfocus : ∀ t, (env.AuraElementalFocus t).OnSpellHit = none)
    (hhit : (env.float64 sim.rando).1 < cast.Hit)
    (hk : 0 ≤ (env.intn (goInt (cast.Spell.MaxDmg - cast.Spell.MinDmg))
              (env.float64 sim.rando).2).1 ∧
          (env.intn (goInt (cast.Spell.MaxDmg - cast.Spell.MinDmg))
              (env.float64 sim.rando).2).1 < goInt (cast.Spell.MaxDmg - cast.Spell.MinDmg)) :
    let draw := env.intn (goInt (cast.Spell.MaxDmg - cast.Spell.MinDmg)) (env.float64 sim.rando).2
    let k : Int := draw.1
    let critDraw : ℚ := (env.float64 draw.2).1
    let resistDraw : ℚ := (env.float64 (env.float64 draw.2).2).1
    let B : ℚ := if cast.DidDmg ≠ 0 then cast.DidDmg
      else cast.Spell.MinDmg + (k : ℚ) + sim.Stats .StatSpellDmg * cast.Spell.Coeff
    let c : ℚ := if critDraw < cast.Crit then 2 else 1
    let m : ℚ := if (sim.Options.Talents.Concussion > 0 ∧ cast.Spell.ID = env.MagicIDLB12)
        ∨ cast.Spell.ID = env.MagicIDCL6
      then 1 + (1 / 100) * (sim.Options.Talents.Concussion : ℚ) else 1
    let r : ℚ := if resistDraw < 1 / 40 then 3 / 4 else 1
    (cast.Spell.MinDmg ≤ cast.Spell.MinDmg + (k : ℚ) ∧
      cast.Spell.MinDmg + (k : ℚ) ≤ cast.Spell.MaxDmg) ∧
    ∃ sim1 cast1, sim.Cast env cast = .ok (sim1, cast1) ∧
      cast1.DidDmg = B * c * m * r ∧
      sim1.metrics.TotalDamage = sim.metrics.TotalDamage + cast1.DidDmg ∧
      sim1.metrics.Casts = sim.metrics.Casts ++ [cast1] := by
  intro draw k critDraw resistDraw B c m r
  have hn : 0 < goInt (cast.Spell.MaxDmg - cast.Spell.MinDmg) := lt_of_le_of_lt hk.1 hk.2
  refine ⟨⟨?_, ?_⟩, ?_⟩
  · have : (0 : ℚ) ≤ (k : ℚ) := by exact_mod_cast hk.1
    linarith
  · have h1 : (k : ℚ) < ((goInt (cast.Spell.MaxDmg - cast.Spell.MinDmg) : Int) : ℚ) := by
      exact_mod_cast hk.2
    have h2 := goInt_le_of_pos _ hn
    linarith
  · have hcc : onCastComplete env sim cast = (sim, cast) :=
      onCastComplete_no_hooks env sim cast (fun a ha => (hnohooks a ha).1)
    have hI : ¬ goInt (cast.Spell.MaxDmg - cast.Spell.MinDmg) ≤ 0 := not_le.mpr hn
    have hsweep : ∀ (s : Simulation) (p : Simulation × Cast),
        (∀ a ∈ s.Auras, a.OnSpellHit = none) → p.1 = s →
        p.1.Auras.foldl (fireHook env Aura.OnSpellHit) p = p := by
      intro s p hs hp
      exact fireHook_fold_none env _ _ (by rw [hp]; exact hs) p
    unfold Simulation.Cast
    by_cases hcrit : critDraw < cast.Crit
    · have hcrit2 : (env.float64 draw.2).1 < cast.Crit := hcrit
      have haur : ∀ a ∈ addAuraList sim.Auras (env.AuraElementalFocus sim.currentTick),
          a.OnSpellHit = none := by
        intro a ha
        rcases mem_addAuraList _ _ a ha with h | h
        · exact (hnohooks a h).2
        · rw [h]; exact hfocus _
      simp only [hcc, hhit, if_true, castHit, Intn, hI, if_false, hnoeff, List.foldl_nil,
        hcrit2, decide_True, Bool.true_or, addAura, fireHook_fold_none env _ _ haur]
      refine ⟨_, _, rfl, ?_, ?_, ?_⟩
      · simp only [B, c, m, r, hcrit, if_true, concussion, k, draw, resistDraw]
        split <;> split <;> split <;> ring
      · split <;> rfl
      · split <;> rfl
    · have hcrit2 : ¬ (env.float64 draw.2).1 < cast.Crit := hcrit
      have haur : ∀ a ∈ sim.Auras, a.OnSpellHit = none := fun a ha => (hnohooks a ha).2
      simp only [hcc, hhit, if_true, castHit, Intn, hI, if_false, hnoeff, List.foldl_nil,
        hcrit2, decide_False, Bool.false_or, Bool.false_eq_true, addAura, fireHook_fold_none env _ _ haur]
      refine ⟨_, _, rfl, ?_, ?_, ?_⟩
      · simp only [B, c, m, r, hcrit, if_false, concussion, k, draw, resistDraw]
        split <;> split <;> split <;> ring
      · split <;> rfl
      · split <;> rfl

/-- Witness of C9 on the worked example, whose effect code does nothing. -/
theorem cast_bookkeeping_witness :
    ((∀ f s c, (demoEnv.effect f s c).1.CurrentMana = s.CurrentMana) ∧
      (∀ f s c, (demoEnv.effect f s c).1.CDs = s.CDs)) ∧
    ∀ sim1 cast1, demoFixed.Cast demoEnv demoCast = .ok (sim1, cast1) →
      sim1.CurrentMana = demoFixed.CurrentMana - cast1.ManaCost ∧
      sim1.CastingSpell = none ∧
      (0 < cast1.Spell.Cooldown →
        sim1.CDs = demoFixed.CDs.insert (.id cast1.Spell.ID)
          (cast1.Spell.Cooldown * demoEnv.TicksPerSecond) ∧
        sim1.CDs.get (.id cast1.Spell.ID) = cast1.Spell.Cooldown * demoEnv.TicksPerSecond) ∧
      (¬ 0 < cast1.Spell.Cooldown → sim1.CDs = demoFixed.CDs) ∧
      ((∀ f s c, (demoEnv.effect f s c).2 = c) →
        cast1.ManaCost = demoCast.ManaCost ∧ cast1.Spell = demoCast.Spell) :=
  ⟨⟨fun _ _ _ => rfl, fun _ _ _ => rfl⟩,
    (cast_bookkeeping demoEnv demoFixed demoCast (fun _ _ _ => rfl) (fun _ _ _ => rfl)).1⟩

/-- Witness of C10 on the worked example: the cast of LB12 hits for 16. -/
theorem cast_hit_damage_witness :
    (demoCast.Effects = [] ∧
      (∀ a ∈ demoFixed.Auras, a.OnCastComplete = none ∧ a.OnSpellHit = none) ∧
      (∀ t, (demoEnv.AuraElementalFocus t).OnSpellHit = none) ∧
      (demoEnv.float64 demoFixed.rando).1 < demoCast.Hit ∧
      0 ≤ (demoEnv.intn (goInt (demoCast.Spell.MaxDmg - demoCast.Spell.MinDmg))
              (demoEnv.float64 demoFixed.rando).2).1 ∧
      (demoEnv.intn (goInt (demoCast.Spell.MaxDmg - demoCast.Spell.MinDmg))
              (demoEnv.float64 demoFixed.rando).2).1
        < goInt (demoCast.Spell.MaxDmg - demoCast.Spell.MinDmg)) ∧
    ∃ sim1 cast1, demoFixed.Cast demoEnv demoCast = .ok (sim1, cast1) ∧
      cast1.DidDmg = 16 ∧
      sim1.metrics.TotalDamage = demoFixed.metrics.TotalDamage + cast1.DidDmg ∧
      sim1.metrics.Casts = demoFixed.metrics.Casts ++ [cast1] := by
  have h := cast_hit_damage demoEnv demoFixed demoCast rfl
    (fun a ha => absurd ha (List.not_mem_nil a)) (fun _ => rfl) (by decide!)
    ⟨by decide!, by decide!⟩
  refine ⟨⟨rfl, fun a ha => absurd ha (List.not_mem_nil a), fun _ => rfl, by decide!,
    by decide!, by decide!⟩, ?_⟩
  obtain ⟨_, sim1, cast1, h1, h2, h3, h4⟩ := h
  exact ⟨sim1, cast1, h1, h2.trans (by decide!), h3, h4⟩

/-! ### Runs -/

theorem order_Intn (env : Env) (o : CDMap → List CDKey) :
    Intn { env with rangeOrder := o } = Intn env := by
  funext n r; unfold Intn; rfl

theorem order_manaRegen (env : Env) (o : CDMap → List CDKey) :
    manaRegen { env with rangeOrder := o } = manaRegen env := by
  funext s; unfold manaRegen; rfl

theorem order_fireExpire (env : Env) (o : CDMap → List CDKey) :
    fireExpire { env with rangeOrder := o } = fireExpire env := by
  funext s a; unfold fireExpire; rfl

theorem order_cleanAura (env : Env) (o : CDMap → List CDKey) :
    cleanAura { env with rangeOrder := o } = cleanAura env := by
  funext s i; unfold cleanAura; simp only [order_fireExpire]

theorem order_recordOOM (env : Env) (o : CDMap → List CDKey) :
    recordOOM { env with rangeOrder := o } = recordOOM env := by
  funext s; unfold recordOOM; rfl

theorem order_waitQuotient (env : Env) (o : CDMap → List CDKey) :
    waitQuotient { env with rangeOrder := o } = waitQuotient env := by
  funext s c; unfold waitQuotient; simp only [order_manaRegen]

theorem order_manaRegenTicks (env : Env) (o : CDMap → List CDKey) :
    manaRegenTicks { env with rangeOrder := o } = manaRegenTicks env := by
  funext s c; unfold manaRegenTicks; simp only [order_manaRegen, order_waitQuotient]

theorem order_choosePriority (env : Env) (o : CDMap → List CDKey) (s : Simulation)
    (l : List Int) : ∀ lw wm,
    choosePriority { env with rangeOrder := o } s l lw wm = choosePriority env s l lw wm := by
  induction l with
  | nil => intro lw wm; simp only [choosePriority, order_recordOOM]
  | cons a rest ih =>
    intro lw wm
    simp only [choosePriority, order_manaRegenTicks, ih]

theorem order_ChooseSpell (env : Env) (o : CDMap → List CDKey) :
    ChooseSpell { env with rangeOrder := o } = ChooseSpell env := by
  funext s; unfold ChooseSpell
  simp only [order_choosePriority, order_recordOOM, order_manaRegenTicks]

theorem order_fireHook (env : Env) (o : CDMap → List CDKey) :
    fireHook { env with rangeOrder := o } = fireHook env := by
  funext h p a; unfold fireHook; rfl

theorem order_concussion (env : Env) (o : CDMap → List CDKey) :
    concussion { env with rangeOrder := o } = concussion env := by
  funext s c d; unfold concussion; rfl

theorem order_castHit (env : Env) (o : CDMap → List CDKey) :
    castHit { env with rangeOrder := o } = castHit env := by
  funext s c; unfold castHit
  simp only [order_Intn, order_fireHook, order_concussion]

theorem order_onCastComplete (env : Env) (o : CDMap → List CDKey) :
    onCastComplete { env with rangeOrder := o } = onCastComplete env := by
  funext s c; unfold onCastComplete; simp only [order_fireHook]

theorem order_Cast (env : Env) (o : CDMap → List CDKey) (s : Simulation) (c : Cast) :
    s.Cast { env with rangeOrder := o } c = s.Cast env c := by
  unfold Simulation.Cast
  simp only [order_onCastComplete, order_castHit]

theorem order_useItem (env : Env) (o : CDMap → List CDKey) :
    useItem { env with rangeOrder := o } = useItem env := by
  funext s it; unfold useItem; rfl

theorem order_popBloodlust (env : Env) (o : CDMap → List CDKey) :
    popBloodlust { env with rangeOrder := o } = popBloodlust env := by
  funext s; unfold popBloodlust; rfl

theorem order_popEleMastery (env : Env) (o : CDMap → List CDKey) :
    popEleMastery { env with rangeOrder := o } = popEleMastery env := by
  funext s; unfold popEleMastery; rfl

theorem order_popConsumable (env : Env) (o : CDMap → List CDKey) :
    popConsumable { env with rangeOrder := o } = popConsumable env := by
  funext k l lo hi s; unfold popConsumable; rfl

theorem order_Spellcasting (env : Env) (o : CDMap → List CDKey) :
    Spellcasting { env with rangeOrder := o } = Spellcasting env := by
  funext s i; unfold Spellcasting
  simp only [order_Cast, order_popBloodlust, order_popEleMastery, order_popConsumable,
    order_useItem, order_ChooseSpell]

theorem order_cleanAll (env : Env) (o : CDMap → List CDKey) (l : List Nat) :
    ∀ s, cleanAll { env with rangeOrder := o } l s = cleanAll env l s := by
  induction l with
  | nil => intro s; simp only [cleanAll]
  | cons a rest ih => intro s; simp only [cleanAll, order_cleanAura, ih]

theorem order_activatePermanent (env : Env) (o : CDMap → List CDKey) :
    activatePermanent { env with rangeOrder := o } = activatePermanent env := by
  funext s it; unfold activatePermanent; rfl

theorem order_reset (env : Env) (o : CDMap → List CDKey) :
    reset { env with rangeOrder := o } = reset env := by
  funext s; unfold reset; simp only [order_activatePermanent]

theorem order_rotationIDs (env : Env) (o : CDMap → List CDKey) :
    rotationIDs { env with rangeOrder := o } = rotationIDs env := by
  funext l; unfold rotationIDs; rfl

theorem order_NewSim (env : Env) (o : CDMap → List CDKey) :
    NewSim { env with rangeOrder := o } = NewSim env := by
  funext st eq op; unfold NewSim; simp only [order_rotationIDs]

theorem order_advanceTimers (env : Env) (o : CDMap → List CDKey) (hr : RangeOrder env)
    (ho : ∀ m : CDMap, (o m).Perm m.keys) (s : Simulation) (n : Int) :
    advanceTimers { env with rangeOrder := o } s n = advanceTimers env s n := by
  unfold advanceTimers
  simp only [order_manaRegen, advanceCDs_order n s.CDs (o s.CDs) (env.rangeOrder s.CDs)
    (ho s.CDs) (hr s.CDs)]

theorem order_Advance (env : Env) (o : CDMap → List CDKey) (hr : RangeOrder env)
    (ho : ∀ m : CDMap, (o m).Perm m.keys) (s : Simulation) (i n : Int) :
    Advance { env with rangeOrder := o } s i n = Advance env s i n := by
  unfold Advance
  simp only [order_advanceTimers env o hr ho, order_cleanAll]

theorem order_loopBody (env : Env) (o : CDMap → List CDKey) (hr : RangeOrder env)
    (ho : ∀ m : CDMap, (o m).Perm m.keys) (s : Simulation) (i : Int) :
    loopBody { env with rangeOrder := o } s i = loopBody env s i := by
  unfold loopBody
  simp only [order_Spellcasting, order_Advance env o hr ho]

theorem order_runLoop (env : Env) (o : CDMap → List CDKey) (hr : RangeOrder env)
    (ho : ∀ m : CDMap, (o m).Perm m.keys) (ticks : Int) (fuel : Nat) :
    ∀ s i, runLoop { env with rangeOrder := o } ticks fuel s i = runLoop env ticks fuel s i := by
  induction fuel with
  | zero => intro s i; simp only [runLoop]
  | succ k ih => intro s i; simp only [runLoop, order_loopBody env o hr ho, ih]

theorem order_Run (env : Env) (o : CDMap → List CDKey) (hr : RangeOrder env)
    (ho : ∀ m : CDMap, (o m).Perm m.keys) (fuel : Nat) (s : Simulation) (seconds : Int) :
    Run { env with rangeOrder := o } fuel s seconds = Run env fuel s seconds := by
  unfold Run Run2
  simp only [order_runLoop env o hr ho, order_reset]

/-- C3: determinism.  Two engines freshly built by `NewSim` from the same
stats, equipment and options (seed included) and run for the same duration by
two executions of the program return equal `SimMetrics` from their first `Run`
(total damage, out-of-mana fields, ending mana, the cast records by value),
and stop with the same fault when they do not return: the one thing that the
Go runtime chooses anew in every execution, the order in which the loop over
the cooldown map visits its keys, does not reach the result, whatever the two
orders are (each visits every key once); the effect code is the same in both
executions and the random stream is the same for the same seed. -/
theorem run_deterministic (env : Env) (order1 order2 : CDMap → List CDKey)
    (h1 : ∀ m : CDMap, (order1 m).Perm m.keys) (h2 : ∀ m : CDMap, (order2 m).Perm m.keys)
    (fuel : Nat) (stats : Stats) (equip : Equipment) (options : Options) (seconds : Int)
    (simA simB : Simulation)
    (hA : NewSim { env with rangeOrder := order1 } stats equip options = some simA)
    (hB : NewSim { env with rangeOrder := order2 } stats equip options = some simB) :
    (Run { env with rangeOrder := order1 } fuel simA seconds).map Prod.snd
        = (Run { env with rangeOrder := order2 } fuel simB seconds).map Prod.snd ∧
    Run { env with rangeOrder := order1 } fuel simA seconds
        = Run { env with rangeOrder := order2 } fuel simB seconds := by
  have hAB : simA = simB := by
    rw [order_NewSim] at hA hB
    exact Option.some.inj (hA.symm.trans hB)
  subst hAB
  have hrun : Run { env with rangeOrder := order1 } fuel simA seconds
      = Run { env with rangeOrder := order2 } fuel simA seconds :=
    (order_Run { env with rangeOrder := order1 } order2 h1 h2 fuel simA seconds).symm
  exact ⟨by rw [hrun], hrun⟩

/-- Witness of C3: a run of 4 seconds with Bloodlust and the rotation Shock,
LB12, in which the cooldown map holds two keys, once with the keys visited in
the order of the table and once in the reverse order: both return 139 damage,
4 casts and 1814 mana at the end. -/
theorem run_deterministic_witness :
    ((∀ m : CDMap, (m.keys).Perm m.keys) ∧ (∀ m : CDMap, (m.keys.reverse).Perm m.keys) ∧
      NewSim { demoEnv with rangeOrder := fun m => m.keys } (demoStats 3000 50 1 0) []
        demoTwoKeyOptions = some demoTwoKeys ∧
      NewSim { demoEnv with rangeOrder := fun m => m.keys.reverse } (demoStats 3000 50 1 0) []
        demoTwoKeyOptions = some demoTwoKeys) ∧
    (Run { demoEnv with rangeOrder := fun m => m.keys } 100 demoTwoKeys 4).map
        (fun p => (p.2.TotalDamage, p.2.Casts.length, p.2.ManaAtEnd, p.1.CDs.keys.length))
      = .ok (139, 4, 1814, 2) ∧
    (Run { demoEnv with rangeOrder := fun m => m.keys.reverse } 100 demoTwoKeys 4).map
        (fun p => (p.2.TotalDamage, p.2.Casts.length, p.2.ManaAtEnd, p.1.CDs.keys.length))
      = .ok (139, 4, 1814, 2) ∧
    (Run { demoEnv with rangeOrder := fun m => m.keys } 100 demoTwoKeys 4).map Prod.snd
      = (Run { demoEnv with rangeOrder := fun m => m.keys.reverse } 100 demoTwoKeys 4).map
          Prod.snd :=
  ⟨⟨fun _ => List.Perm.refl _, fun _ => List.reverse_perm _, rfl, rfl⟩, by decide!, by decide!,
    (run_deterministic demoEnv (fun m => m.keys) (fun m => m.keys.reverse)
      (fun _ => List.Perm.refl _) (fun _ => List.reverse_perm _) 100 (demoStats 3000 50 1 0) []
      demoTwoKeyOptions 4 demoTwoKeys demoTwoKeys rfl rfl).1⟩

/-- C2, the code evaluated at the failing input (100 mana, 50 MP5, rotation
LB12 costing 60 with a 5-tick cast, ten ticks per second): the first
unaffordable decision step is at tick 5, inside the first second, and records
`OOMAt = 5 / 10 = 0` with `DamageAtOOM = 13`; as `OOMAt` is still 0 the
unaffordable decision step at tick 30 writes both fields again, and the run of
4 seconds returns `OOMAt = 3` and `DamageAtOOM = 26`. -/
theorem oom_record_overwritten :
    (demoRunTicks (demoStats 100 50 1 0) (demoOptions ["LB12"] 7) 6).map
        (fun r => r.map (fun s => (s.currentTick, s.metrics.OOMAt, s.metrics.DamageAtOOM)))
      = some (.ok (5, 0, 13)) ∧
    (demoRun (demoStats 100 50 1 0) (demoOptions ["LB12"] 7) 4).map
        (fun r => r.map (fun m => (m.OOMAt, m.DamageAtOOM)))
      = some (.ok (3, 26)) := by
  decide!

/-- C4, the code evaluated at the failing input (rotation CL6, LB12; runs of
one second): engine A built with seed 6 ends its first run with seed counter 7
and rotation index 1; engine B built with seed 7 has seed counter 7 and
rotation index 0.  The second run of A returns one resolved cast, 13 damage and
940 mana at the end; the first run of B returns no cast, no damage and 1000
mana. -/
theorem second_run_differs :
    (NewSim demoEnv (demoStats 1000 0 1 0) [] (demoOptions ["CL6", "LB12"] 6)).map
        (fun sim => (Run demoEnv 100 sim 1).map (fun p => (p.1.rseed, p.1.RotationIdx)))
      = some (.ok (7, 1)) ∧
    (NewSim demoEnv (demoStats 1000 0 1 0) [] (demoOptions ["CL6", "LB12"] 7)).map
        (fun sim => (sim.rseed, sim.RotationIdx)) = some (7, 0) ∧
    (demoSecondRun (demoStats 1000 0 1 0) (demoOptions ["CL6", "LB12"] 6) 1).map
        (fun r => r.map (fun m => (m.TotalDamage, m.Casts.length, m.ManaAtEnd)))
      = some (.ok (13, 1, 940)) ∧
    (demoRun (demoStats 1000 0 1 0) (demoOptions ["CL6", "LB12"] 7) 1).map
        (fun r => r.map (fun m => (m.TotalDamage, m.Casts.length, m.ManaAtEnd)))
      = some (.ok (0, 0, 1000)) := by
  decide!

/-! ### Mana bounds -/

theorem manaCore_fields {s t : Simulation} (h : manaCore s = manaCore t) :
    s.CurrentMana = t.CurrentMana ∧ s.Stats = t.Stats ∧
      s.Buffs .StatMP5 = t.Buffs .StatMP5 ∧ s.CastingSpell = t.CastingSpell := by
  simpa [manaCore] using h

theorem popBloodlust_core (env : Env) (hI : ManaInert env) (s : Simulation) :
    manaCore (popBloodlust env s) = manaCore s := by
  unfold popBloodlust
  split
  · exact hI.bloodlust_core s
  · rfl

theorem popEleMastery_core (env : Env) (s : Simulation) :
    manaCore (popEleMastery env s) = manaCore s := by
  unfold popEleMastery
  split <;> rfl

theorem useItem_core (env : Env) (hI : ManaInert env) (s : Simulation) (item : Item) :
    manaCore (useItem env s item) = manaCore s := by
  unfold useItem
  cases item.Activate with
  | none => rfl
  | some f =>
    simp only
    split
    · rfl
    · split
      · rfl
      · split
        · rfl
        · split
          · exact hI.activate_core f s
          · exact hI.activate_core f s

theorem useItems_core (env : Env) (hI : ManaInert env) (items : List Item) (s : Simulation) :
    manaCore (items.foldl (useItem env) s) = manaCore s := by
  induction items generalizing s with
  | nil => rfl
  | cons it rest ih => rw [List.foldl_cons, ih, useItem_core env hI]

theorem popConsumable_core (env : Env) (stats : Stats) (hS : ManaSane env stats) (key : String) (limit lo hi : Int)
    (hlo : 0 ≤ lo) (hlh : lo < hi) (s : Simulation) :
    s.CurrentMana ≤ (popConsumable env key limit lo hi s).CurrentMana ∧
    (popConsumable env key limit lo hi s).Stats = s.Stats ∧
    (popConsumable env key limit lo hi s).Buffs = s.Buffs ∧
    (popConsumable env key limit lo hi s).CastingSpell = s.CastingSpell := by
  unfold popConsumable
  split
  · refine ⟨?_, rfl, rfl, rfl⟩
    have h := hS.intn_nonneg (hi - lo) s.rando (by omega)
    have : (0 : ℚ) ≤ ((lo + (env.intn (hi - lo) s.rando).1 : Int) : ℚ) := by
      exact_mod_cast (by omega : 0 ≤ lo + (env.intn (hi - lo) s.rando).1)
    simp only
    linarith
  · exact ⟨le_refl _, rfl, rfl, rfl⟩

theorem recordOOM_fields (env : Env) (s : Simulation) :
    (recordOOM env s).CurrentMana = s.CurrentMana ∧ (recordOOM env s).Stats = s.Stats ∧
    (recordOOM env s).Buffs = s.Buffs ∧ (recordOOM env s).CastingSpell = s.CastingSpell := by
  unfold recordOOM
  split <;> exact ⟨rfl, rfl, rfl, rfl⟩

theorem recordOOM_regen (env : Env) (s : Simulation) (cost : ℚ) :
    manaRegenTicks env (recordOOM env s) cost = manaRegenTicks env s cost := by
  obtain ⟨r1, r2, r3, _⟩ := recordOOM_fields env s
  simp only [manaRegenTicks, waitQuotient, manaRegen, r1, r2, r3]

theorem choosePriority_sound (env : Env) (stats : Stats) (hS : ManaSane env stats)
    (s : Simulation) (hst : s.Stats = stats) (hbuf : s.Buffs .StatMP5 = 0)
    (hm0 : 0 ≤ s.CurrentMana) (hreg : 0 ≤ manaRegen env s) (rest : List Int) :
    ∀ (lw : Int) (wm : Bool) (t : Simulation) (adv : Int), 0 ≤ manaRegen env s * (lw : ℚ) →
      choosePriority env s rest lw wm = .ok (t, adv) → ChoiceSound env s t adv := by
  induction rest with
  | nil =>
    intro lw wm t adv hlw h
    simp only [choosePriority, Except.ok.injEq, Prod.mk.injEq] at h
    obtain ⟨h1, h2⟩ := h
    subst h1 h2
    obtain ⟨r1, r2, r3, r4⟩ := recordOOM_fields env s
    cases wm
    · exact ⟨hlw, rfl, rfl, rfl, fun c hc => Or.inl hc⟩
    · exact ⟨hlw, r1, r2, r3, fun c hc => Or.inl (by rw [← r4]; exact hc)⟩
  | cons so rest ih =>
    intro lw wm t adv hlw h
    simp only [choosePriority] at h
    split at h
    · rename_i hcd
      refine ih _ wm t adv ?_ h
      split
      · have : (0 : ℚ) ≤ (s.CDs.get (.id so) : ℚ) := by
          exact_mod_cast (by omega : 0 ≤ s.CDs.get (.id so))
        exact mul_nonneg hreg this
      · exact hlw
    · split at h
      · rename_i hmana
        simp only [Except.ok.injEq, Prod.mk.injEq] at h
        obtain ⟨h1, h2⟩ := h
        subst h1 h2
        refine ⟨mul_nonneg hreg (by exact_mod_cast hS.time_nonneg _ _ _ _ _), rfl, rfl, rfl, ?_⟩
        intro c hc
        simp only [Option.some.injEq] at hc
        subst hc
        exact Or.inr ⟨hmana, by rw [hst]; exact hS.cost_le_max _ _ _ _ _ hst⟩
      · rename_i hmana
        split at h
        · exact ih _ true t adv (manaRegenTicks_regen env s _ hreg (not_le.mp hmana)
            (hS.wait_fits s _ hst hbuf hm0 (not_le.mp hmana)
              (hS.cost_le_max _ _ _ _ _ hst))) h
        · exact ih lw wm t adv hlw h

theorem chooseSpell_sound (env : Env) (stats : Stats) (hS : ManaSane env stats)
    (s : Simulation) (hst : s.Stats = stats) (hbuf : s.Buffs .StatMP5 = 0)
    (hm0 : 0 ≤ s.CurrentMana) (hreg : 0 ≤ manaRegen env s)
    (t : Simulation) (adv : Int)
    (h : ChooseSpell env s = .ok (t, adv)) : ChoiceSound env s t adv := by
  unfold ChooseSpell at h
  split at h
  · exact choosePriority_sound env stats hS s hst hbuf hm0 hreg _ _ _ t adv
      (mul_nonneg hreg (by norm_num)) h
  · split at h
    · exact absurd h (by simp)
    · split at h
      · exact absurd h (by simp)
      · rename_i so hso
        simp only at h
        split at h
        · split at h
          · rename_i hcd hmana
            simp only [Except.ok.injEq, Prod.mk.injEq] at h
            obtain ⟨h1, h2⟩ := h
            subst h1 h2
            refine ⟨mul_nonneg hreg (by exact_mod_cast hS.time_nonneg _ _ _ _ _),
              rfl, rfl, rfl, ?_⟩
            intro c hc
            simp only [Option.some.injEq] at hc
            subst hc
            exact Or.inr ⟨hmana, by rw [hst]; exact hS.cost_le_max _ _ _ _ _ hst⟩
          · rename_i hcd hmana
            obtain ⟨r1, r2, r3, r4⟩ := recordOOM_fields env s
            have htk := manaRegenTicks_regen env s _ hreg (not_le.mp hmana)
              (hS.wait_fits s _ hst hbuf hm0 (not_le.mp hmana)
                (hS.cost_le_max _ _ _ _ _ hst))
            rw [recordOOM_regen] at h
            simp only [Except.ok.injEq, Prod.mk.injEq] at h
            obtain ⟨h1, h2⟩ := h
            subst h1 h2
            exact ⟨htk, r1, r2, r3, fun c hc => Or.inl (by rw [← r4]; exact hc)⟩
        · rename_i hcd
          simp only [Except.ok.injEq, Prod.mk.injEq] at h
          obtain ⟨h1, h2⟩ := h
          subst h1 h2
          have : (0 : ℚ) ≤ (s.CDs.get (.id so) : ℚ) := by
            exact_mod_cast (by omega : 0 ≤ s.CDs.get (.id so))
          exact ⟨mul_nonneg hreg this, rfl, rfl, rfl, fun c hc => Or.inl hc⟩

theorem cast_core (env : Env) (hI : ManaInert env) (s s1 : Simulation) (c c1 : Cast)
    (h : s.Cast env c = .ok (s1, c1)) :
    s1.CurrentMana = s.CurrentMana - c.ManaCost ∧ s1.Stats = s.Stats ∧
      s1.Buffs .StatMP5 = s.Buffs .StatMP5 ∧ s1.CastingSpell = none := by
  have hg : ∀ f s c, (fun s : Simulation => (s.CurrentMana, s.Stats, s.Buffs .StatMP5))
      (env.effect f s c).1 = (s.CurrentMana, s.Stats, s.Buffs .StatMP5) := by
    intro f s c
    obtain ⟨h1, h2, h3, _⟩ := manaCore_fields (hI.effect_core f s c)
    simp only [h1, h2, h3]
  have hp := fireHook_fold_fst env (fun s : Simulation => (s.CurrentMana, s.Stats, s.Buffs .StatMP5)) hg Aura.OnCastComplete s.Auras (s, c)
  have hpc := fireHook_fold_snd env (fun c => c.ManaCost) hI.effect_cost
    Aura.OnCastComplete s.Auras (s, c)
  simp only [Prod.mk.injEq] at hp
  unfold Simulation.Cast at h
  unfold onCastComplete at h
  simp only at h hpc
  split at h
  · exact absurd h (by simp)
  · rename_i s2 c2 hch
    have hs2 : (s2.CurrentMana, s2.Stats, s2.Buffs .StatMP5)
        = (s.CurrentMana, s.Stats, s.Buffs .StatMP5) ∧ c2.ManaCost = c.ManaCost := by
      split at hch
      · have h1 := castHit_fst env (fun s : Simulation => (s.CurrentMana, s.Stats, s.Buffs .StatMP5)) hg (fun _ _ => rfl) (fun _ _ => rfl) (fun _ _ => rfl)
          _ _ _ _ hch
        have h2 := castHit_snd env (fun c => c.ManaCost) hI.effect_cost (fun _ _ _ _ => rfl)
          _ _ _ _ hch
        simp only [Prod.mk.injEq] at h1 ⊢
        exact ⟨⟨h1.1.trans hp.1, h1.2.1.trans hp.2.1, h1.2.2.trans hp.2.2⟩, h2.trans hpc⟩
      · simp only [Except.ok.injEq, Prod.mk.injEq] at hch
        obtain ⟨e1, e2⟩ := hch
        subst e1 e2
        simp only [Prod.mk.injEq]
        exact ⟨⟨hp.1, hp.2.1, hp.2.2⟩, hpc⟩
    simp only [Prod.mk.injEq] at hs2
    obtain ⟨⟨a1, a2, a3⟩, a4⟩ := hs2
    simp only [Except.ok.injEq, Prod.mk.injEq] at h
    obtain ⟨e1, _⟩ := h
    rw [← e1]
    split <;> simp [a1, a2, a3, a4]

theorem manaRegen_nonneg (env : Env) (stats : Stats) (hS : ManaSane env stats)
    (hmp5 : 0 ≤ stats .StatMP5) (s : Simulation) (h1 : s.Stats = stats)
    (h2 : s.Buffs .StatMP5 = 0) : 0 ≤ manaRegen env s := by
  apply manaRegen_nonneg_of env s hS.tps_pos
  rw [h1, h2]
  linarith

theorem advance_inv (env : Env) (hI : ManaInert env) (stats : Stats)
    (hmax : 0 ≤ stats .StatMana)
    (s s2 : Simulation) (i n : Int) (log : List (Nat × Effect))
    (h1 : s.Stats = stats) (h2 : s.Buffs .StatMP5 = 0) (h3 : 0 ≤ s.CurrentMana)
    (hn : 0 ≤ manaRegen env s * (n : ℚ))
    (h4 : ∀ c, s.CastingSpell = some c →
      c.ManaCost ≤ s.CurrentMana ∧ c.ManaCost ≤ stats .StatMana)
    (h : Advance env s i n = .ok (s2, log)) : ManaInv stats s2 := by
  unfold Advance at h
  have hc := cleanAll_preserves env manaCore hI.expire_core (fun _ _ => rfl) _ _ _ _ h
  obtain ⟨c1, c2, c3, c4⟩ := manaCore_fields hc
  have hadd : 0 ≤ manaRegen env s * (n : ℚ) := hn
  have hm : (advanceTimers env s n).CurrentMana =
      if s.CurrentMana + manaRegen env s * (n : ℚ) > stats .StatMana then stats .StatMana
      else s.CurrentMana + manaRegen env s * (n : ℚ) := by
    simp [advanceTimers, h1]
  have hlow : ∀ x : ℚ, x ≤ s.CurrentMana → x ≤ stats .StatMana →
      x ≤ (advanceTimers env s n).CurrentMana := by
    intro x hx1 hx2
    rw [hm]
    split
    · exact hx2
    · linarith
  refine ⟨by rw [c2]; simpa [advanceTimers] using h1, by rw [c3]; simpa [advanceTimers] using h2,
    by rw [c1]; exact hlow 0 h3 hmax, ?_, ?_⟩
  · rw [c1, hm]
    split
    · exact le_refl _
    · rename_i hgt
      exact not_lt.mp hgt
  · intro c hcs
    rw [c4] at hcs
    simp only [advanceTimers, Option.map_eq_some'] at hcs
    obtain ⟨c0, hc0, hc0e⟩ := hcs
    rw [c1, ← hc0e]
    exact hlow _ (h4 c0 hc0).1 (h4 c0 hc0).2


theorem decide_pipeline (env : Env) (hI : ManaInert env) (stats : Stats) (hS : ManaSane env stats)
    (hmp5 : 0 ≤ stats .StatMP5) (p t : Simulation) (adv : Int)
    (h1 : p.Stats = stats) (h2 : p.Buffs .StatMP5 = 0) (h3 : 0 ≤ p.CurrentMana)
    (h4 : p.CastingSpell = none)
    (h : ChooseSpell env
      ((popConsumable env "potion" 3000 1800 3000
        (popConsumable env "darkrune" 1500 900 1500
          (popEleMastery env (popBloodlust env p)))).Equip.foldl (useItem env)
        (popConsumable env "potion" 3000 1800 3000
          (popConsumable env "darkrune" 1500 900 1500
            (popEleMastery env (popBloodlust env p))))) = .ok (t, adv)) :
    t.Stats = stats ∧ t.Buffs .StatMP5 = 0 ∧ 0 ≤ t.CurrentMana ∧
      0 ≤ manaRegen env t * (adv : ℚ) ∧
      ∀ c, t.CastingSpell = some c →
        c.ManaCost ≤ t.CurrentMana ∧ c.ManaCost ≤ stats .StatMana := by
  obtain ⟨a1, a2, a3, a4⟩ := manaCore_fields
    ((popEleMastery_core env (popBloodlust env p)).trans (popBloodlust_core env hI p))
  obtain ⟨b1, b2, b3, b4⟩ := popConsumable_core env stats hS "darkrune" 1500 900 1500
    (by norm_num) (by norm_num) (popEleMastery env (popBloodlust env p))
  obtain ⟨c1, c2, c3, c4⟩ := popConsumable_core env stats hS "potion" 3000 1800 3000
    (by norm_num) (by norm_num)
    (popConsumable env "darkrune" 1500 900 1500 (popEleMastery env (popBloodlust env p)))
  obtain ⟨d1, d2, d3, d4⟩ := manaCore_fields (useItems_core env hI
    (popConsumable env "potion" 3000 1800 3000
      (popConsumable env "darkrune" 1500 900 1500
        (popEleMastery env (popBloodlust env p)))).Equip
    (popConsumable env "potion" 3000 1800 3000
      (popConsumable env "darkrune" 1500 900 1500
        (popEleMastery env (popBloodlust env p)))))
  have e2 := d2.trans (c2.trans (b2.trans (a2.trans h1)))
  have e3 := d3.trans ((congrFun c3 _).trans ((congrFun b3 _).trans (a3.trans h2)))
  have e4 := d4.trans (c4.trans (b4.trans (a4.trans h4)))
  have e1 : 0 ≤ (List.foldl (useItem env)
      (popConsumable env "potion" 3000 1800 3000
        (popConsumable env "darkrune" 1500 900 1500
          (popEleMastery env (popBloodlust env p))))
      (popConsumable env "potion" 3000 1800 3000
        (popConsumable env "darkrune" 1500 900 1500
          (popEleMastery env (popBloodlust env p)))).Equip).CurrentMana := by
    rw [d1]
    have : 0 ≤ (popEleMastery env (popBloodlust env p)).CurrentMana := by rw [a1]; exact h3
    linarith
  obtain ⟨s1, s2, s3, s4, s5⟩ := chooseSpell_sound env stats hS _ e2 e3 e1
    (manaRegen_nonneg env stats hS hmp5 _ e2 e3) t adv h
  have hrt : manaRegen env t = manaRegen env (List.foldl (useItem env)
      (popConsumable env "potion" 3000 1800 3000
        (popConsumable env "darkrune" 1500 900 1500
          (popEleMastery env (popBloodlust env p))))
      (popConsumable env "potion" 3000 1800 3000
        (popConsumable env "darkrune" 1500 900 1500
          (popEleMastery env (popBloodlust env p)))).Equip) := by
    unfold manaRegen
    rw [s3, s4]
  refine ⟨s3.trans e2, (congrFun s4 _).trans e3, by rw [s2]; exact e1, by rw [hrt]; exact s1, ?_⟩
  intro c hc
  rcases s5 c hc with h5 | h5
  · rw [e4] at h5; exact absurd h5 (by simp)
  · rw [s2]; rw [e2] at h5; exact h5

theorem spellcasting_inv (env : Env) (hI : ManaInert env) (stats : Stats) (hS : ManaSane env stats)
    (hmp5 : 0 ≤ stats .StatMP5) (s t : Simulation) (i adv : Int)
    (hJ : ManaInv stats s) (h : Spellcasting env s i = .ok (t, adv)) :
    t.Stats = stats ∧ t.Buffs .StatMP5 = 0 ∧ 0 ≤ t.CurrentMana ∧
      0 ≤ manaRegen env t * (adv : ℚ) ∧
      ∀ c, t.CastingSpell = some c →
        c.ManaCost ≤ t.CurrentMana ∧ c.ManaCost ≤ stats .StatMana := by
  obtain ⟨j1, j2, j3, j4, j5⟩ := hJ
  unfold Spellcasting at h
  cases hcs : s.CastingSpell with
  | none =>
    simp only [hcs] at h
    exact decide_pipeline env hI stats hS hmp5 s t adv j1 j2 j3 hcs h
  | some c =>
    simp only [hcs] at h
    by_cases hdue : c.TicksUntilCast = 0
    · simp only [hdue, if_true] at h
      cases hcast : s.Cast env c with
      | error e => simp [hcast, Except.map] at h
      | ok r =>
        obtain ⟨s1, c1⟩ := r
        obtain ⟨k1, k2, k3, k4⟩ := cast_core env hI s s1 c c1 hcast
        simp only [hcast, Except.map, k4] at h
        exact decide_pipeline env hI stats hS hmp5 s1 t adv (k2.trans j1) (k3.trans j2)
          (by rw [k1]; linarith [j5 c hcs]) k4 h
    · simp only [hdue, if_false, hcs, Except.ok.injEq, Prod.mk.injEq] at h
      obtain ⟨e1, e2⟩ := h
      subst e1 e2
      refine ⟨j1, j2, j3,
        by simpa using manaRegen_nonneg env stats hS hmp5 s j1 j2, ?_⟩
      intro c0 hc0
      exact ⟨j5 c0 hc0, le_trans (j5 c0 hc0) j4⟩

theorem loopBody_inv (env : Env) (hI : ManaInert env) (stats : Stats) (hS : ManaSane env stats)
    (hmax : 0 ≤ stats .StatMana) (hmp5 : 0 ≤ stats .StatMP5)
    (s s2 : Simulation) (i j : Int) (hJ : ManaInv stats s)
    (h : loopBody env s i = .ok (.next s2 j)) : ManaInv stats s2 := by
  unfold loopBody at h
  split at h
  · exact absurd h (by simp)
  · have hJ2 : ManaInv stats { s with currentTick := i } := hJ
    cases hsp : Spellcasting env { s with currentTick := i } i with
    | error e => simp [hsp] at h
    | ok r =>
      obtain ⟨t, adv⟩ := r
      obtain ⟨t1, t2, t3, t4, t5⟩ := spellcasting_inv env hI stats hS hmp5 _ t i adv hJ2 hsp
      simp only [hsp] at h
      split at h
      · exact absurd h (by simp)
      · cases hadv : Advance env t i adv with
        | error e => simp [hadv] at h
        | ok r2 =>
          obtain ⟨u, log⟩ := r2
          simp only [hadv, Except.ok.injEq, LoopStep.next.injEq] at h
          rw [← h.1]
          exact advance_inv env hI stats hmax t u i adv log t1 t2 t3 t4 t5 hadv

theorem activatePermanent_core (env : Env) (hI : ManaInert env) (s : Simulation) (item : Item) :
    manaCore (activatePermanent env s item) = manaCore s := by
  unfold activatePermanent
  cases item.Activate with
  | none => rfl
  | some f =>
    simp only
    split
    · exact hI.activate_core f s
    · rfl

theorem reset_core (env : Env) (hI : ManaInert env) (sim0 : Simulation) :
    manaCore (reset env sim0) = (sim0.Stats .StatMana, sim0.Stats, 0, none) := by
  have hfold : ∀ (items : List Item) (s : Simulation),
      manaCore (items.foldl (activatePermanent env) s) = manaCore s := by
    intro items
    induction items with
    | nil => intro s; rfl
    | cons it rest ih => intro s; rw [List.foldl_cons, ih, activatePermanent_core env hI]
  unfold reset
  simp only [hfold]
  split <;> split <;> rfl

theorem reset_inv (env : Env) (hI : ManaInert env) (sim0 : Simulation)
    (hmax : 0 ≤ sim0.Stats .StatMana) : ManaInv sim0.Stats (reset env sim0) := by
  have h := reset_core env hI sim0
  simp only [manaCore, Prod.mk.injEq] at h
  obtain ⟨h1, h2, h3, h4⟩ := h
  refine ⟨h2, h3, by rw [h1]; exact hmax, by rw [h1], ?_⟩
  intro c hc
  rw [h4] at hc
  exact absurd hc (by simp)

theorem loopState_inv (env : Env) (hI : ManaInert env) (sim0 : Simulation)
    (hS : ManaSane env sim0.Stats) (seconds : Int)
    (hmax : 0 ≤ sim0.Stats .StatMana) (hmp5 : 0 ≤ sim0.Stats .StatMP5)
    (s : Simulation) (i : Int) (h : LoopState env sim0 seconds s i) :
    ManaInv sim0.Stats s := by
  induction h with
  | start => exact reset_inv env hI sim0 hmax
  | step _ _ hb ih => exact loopBody_inv env hI sim0.Stats hS hmax hmp5 _ _ _ _ ih hb

theorem loopState_negative (env : Env) (hI : ManaInert env) (sim0 : Simulation)
    (seconds : Int) (hmax : sim0.Stats .StatMana < 0)
    (s : Simulation) (i : Int) (h : LoopState env sim0 seconds s i) :
    s.CurrentMana < 0 := by
  induction h with
  | start =>
    have h := reset_core env hI sim0
    simp only [manaCore, Prod.mk.injEq] at h
    rw [h.1]; exact hmax
  | step _ _ hb ih =>
    unfold loopBody at hb
    rw [if_pos ih] at hb
    exact absurd hb (by simp)

/-- C1 (amended): in a run in which the effect code (aura hooks, cast effects,
item and Bloodlust activations) leaves mana, the stats, the MP5 buff, the
in-flight cast and the mana cost of casts untouched, ticks per second are
positive, MP5 is at least 0, every new cast has a cast time of at least 0 and
a mana cost of at most the maximum mana, `Intn` draws are at least 0, and no
out-of-mana wait leaves the range of `int` (the ceiling of the float64
quotient `(ManaCost - CurrentMana) / manaRegen()` is below `2 ^ 63` whenever
the regeneration is not zero): after every `Advance` call of the loop
`0 <= CurrentMana <= Stats[StatMana]`. -/
theorem mana_bounds_after_advance (env : Env) (sim0 : Simulation) (seconds : Int)
    (hI : ManaInert env) (hS : ManaSane env sim0.Stats) (hmp5 : 0 ≤ sim0.Stats .StatMP5)
    (s s2 : Simulation) (i j : Int) (hs : LoopState env sim0 seconds s i)
    (hb : loopBody env s i = .ok (.next s2 j)) :
    0 ≤ s2.CurrentMana ∧ s2.CurrentMana ≤ s2.Stats .StatMana := by
  by_cases hmax : 0 ≤ sim0.Stats .StatMana
  · have hinv := loopBody_inv env hI sim0.Stats hS hmax hmp5 s s2 i j
      (loopState_inv env hI sim0 hS seconds hmax hmp5 s i hs) hb
    exact ⟨hinv.2.2.1, by rw [hinv.1]; exact hinv.2.2.2.1⟩
  · have hneg := loopState_negative env hI sim0 seconds (not_le.mp hmax) s i hs
    unfold loopBody at hb
    rw [if_pos hneg] at hb
    exact absurd hb (by simp)

theorem eq_next_of_isNext (s : Simulation) (r : Except Fault LoopStep) (h : isNext r = true) :
    r = .ok (.next (nextEngine s r) (nextTick r)) := by
  cases r with
  | error e => simp [isNext] at h
  | ok st =>
    cases st with
    | exit t => simp [isNext] at h
    | next t j => rfl

/-- Witness of C1 (amended): the first `Advance` call of the run of the
worked example with 1000 mana and 50 MP5. -/
theorem mana_bounds_after_advance_witness :
    (ManaInert demoEnv ∧
      ManaSane demoEnv (demoNew (demoStats 1000 50 1 0) ["LB12"]).Stats ∧
      0 ≤ (demoNew (demoStats 1000 50 1 0) ["LB12"]).Stats .StatMP5 ∧
      LoopState demoEnv (demoNew (demoStats 1000 50 1 0) ["LB12"]) 4
        (reset demoEnv (demoNew (demoStats 1000 50 1 0) ["LB12"])) 0 ∧
      loopBody demoEnv (reset demoEnv (demoNew (demoStats 1000 50 1 0) ["LB12"])) 0
        = .ok (.next (demoFirst (demoNew (demoStats 1000 50 1 0) ["LB12"]))
            (demoFirstTick (demoNew (demoStats 1000 50 1 0) ["LB12"])))) ∧
    0 ≤ (demoFirst (demoNew (demoStats 1000 50 1 0) ["LB12"])).CurrentMana ∧
    (demoFirst (demoNew (demoStats 1000 50 1 0) ["LB12"])).CurrentMana
      ≤ (demoFirst (demoNew (demoStats 1000 50 1 0) ["LB12"])).Stats .StatMana := by
  have hI : ManaInert demoEnv :=
    ⟨fun _ _ _ => rfl, fun _ _ _ => rfl, fun _ _ => rfl, fun _ _ => rfl, fun _ => rfl⟩
  have hS : ManaSane demoEnv (demoNew (demoStats 1000 50 1 0) ["LB12"]).Stats := by
    refine ⟨by decide, ?_, ?_, ?_, ?_⟩
    · intro s sp a b c _
      show demoCost sp.ID ≤ 1000
      unfold demoCost
      split_ifs <;> norm_num
    · intro s sp a b c
      show 0 ≤ demoCastTicks sp.ID
      unfold demoCastTicks
      split_ifs <;> norm_num
    · intro n r _
      show (0 : Int) ≤ ((r % n.toNat : Nat) : Int)
      exact Int.natCast_nonneg _
    · intro s cost hst hbuf hm0 hc hle _
      have hr : manaRegen demoEnv s = 1 := by
        unfold manaRegen
        rw [hst, hbuf]
        decide!
      have hmax : (demoNew (demoStats 1000 50 1 0) ["LB12"]).Stats .StatMana = 1000 := rfl
      have hq := waitQuotient_le demoEnv s cost (by rw [hr]; norm_num) (le_of_lt hc)
      rw [hr, div_one] at hq
      rw [hmax] at hle
      have hq2 : waitQuotient demoEnv s cost ≤ ((4000 : Int) : ℚ) := by
        push_cast
        linarith
      have := Int.ceil_le.mpr hq2
      omega
  have hmp5 : 0 ≤ (demoNew (demoStats 1000 50 1 0) ["LB12"]).Stats .StatMP5 := by decide!
  have hb := eq_next_of_isNext (reset demoEnv (demoNew (demoStats 1000 50 1 0) ["LB12"]))
    (loopBody demoEnv (reset demoEnv (demoNew (demoStats 1000 50 1 0) ["LB12"])) 0)
    (by decide!)
  exact ⟨⟨hI, hS, hmp5, LoopState.start, hb⟩,
    mana_bounds_after_advance demoEnv _ 4 hI hS hmp5 _ _ _ _ LoopState.start hb⟩

/-- C1 fails as stated.  With 100 mana, MP5 of -5000 and the rotation LB12,
the first `Advance` call of the run leaves `CurrentMana = -400`.  With 100
mana, MP5 of 1500 and the rotation Shock (cost 1000, above the maximum mana;
the consumable at tick 0 makes it affordable), the second `Advance` call of
the run leaves `CurrentMana = -600`.  With 60 mana, MP5 of `50 / 2 ^ 60` (a
regeneration of `2 ^ -60` per tick) and the rotation LB12, the out-of-mana wait
`60 * 2 ^ 60` is beyond the range of `int`, its conversion yields
`-9223372036854775808`, and the second `Advance` call of the run leaves
`CurrentMana = -8`. -/
theorem mana_negative_after_advance :
    (∃ s i s2 j, LoopState demoEnv (demoNew (demoStats 100 (-5000) 1 0) ["LB12"]) 4 s i ∧
      i < 4 * demoEnv.TicksPerSecond ∧
      loopBody demoEnv s i = .ok (.next s2 j) ∧ s2.CurrentMana = -400) ∧
    (∃ s i s2 j, LoopState demoEnv (demoNew (demoStats 100 1500 1 0) ["Shock"]) 4 s i ∧
      i < 4 * demoEnv.TicksPerSecond ∧
      loopBody demoEnv s i = .ok (.next s2 j) ∧ s2.CurrentMana = -600) ∧
    (∃ s i s2 j,
      LoopState demoEnv (demoNew (demoStats 60 (50 / 1152921504606846976) 1 0) ["LB12"]) 4 s i ∧
      i < 4 * demoEnv.TicksPerSecond ∧
      manaRegen demoEnv s = 1 / 1152921504606846976 ∧
      loopBody demoEnv s i = .ok (.next s2 j) ∧ j = 5 + demoEnv.infToInt ∧
      s2.CurrentMana = -8) := by
  refine ⟨?_, ?_, ?_⟩
  rotate_left 2
  · have h1 := eq_next_of_isNext
        (reset demoEnv (demoNew (demoStats 60 (50 / 1152921504606846976) 1 0) ["LB12"]))
        (loopBody demoEnv
          (reset demoEnv (demoNew (demoStats 60 (50 / 1152921504606846976) 1 0) ["LB12"])) 0)
        (by decide!)
    have h2 := eq_next_of_isNext
        (demoFirst (demoNew (demoStats 60 (50 / 1152921504606846976) 1 0) ["LB12"]))
        (loopBody demoEnv
          (demoFirst (demoNew (demoStats 60 (50 / 1152921504606846976) 1 0) ["LB12"]))
          (demoFirstTick (demoNew (demoStats 60 (50 / 1152921504606846976) 1 0) ["LB12"])))
        (by decide!)
    exact ⟨demoFirst (demoNew (demoStats 60 (50 / 1152921504606846976) 1 0) ["LB12"]),
      demoFirstTick (demoNew (demoStats 60 (50 / 1152921504606846976) 1 0) ["LB12"]), _, _,
      LoopState.step LoopState.start (by decide) h1, by decide!, by decide!, h2, by decide!,
      by decide!⟩
  · exact ⟨_, 0, _, _, LoopState.start, by decide,
      eq_next_of_isNext (reset demoEnv (demoNew (demoStats 100 (-5000) 1 0) ["LB12"]))
        (loopBody demoEnv (reset demoEnv (demoNew (demoStats 100 (-5000) 1 0) ["LB12"])) 0)
        (by decide!),
      by decide!⟩
  · have h1 := eq_next_of_isNext (reset demoEnv (demoNew (demoStats 100 1500 1 0) ["Shock"]))
        (loopBody demoEnv (reset demoEnv (demoNew (demoStats 100 1500 1 0) ["Shock"])) 0)
        (by decide!)
    have h2 := eq_next_of_isNext (demoFirst (demoNew (demoStats 100 1500 1 0) ["Shock"]))
        (loopBody demoEnv (demoFirst (demoNew (demoStats 100 1500 1 0) ["Shock"]))
          (demoFirstTick (demoNew (demoStats 100 1500 1 0) ["Shock"])))
        (by decide!)
    exact ⟨demoFirst (demoNew (demoStats 100 1500 1 0) ["Shock"]),
      demoFirstTick (demoNew (demoStats 100 1500 1 0) ["Shock"]), _, _,
      LoopState.step LoopState.start (by decide) h1, by decide!, h2, by decide!⟩

/-! ### Priority rotation -/

theorem castable_false (env : Env) (s : Simulation) (so : Int) (h : castable env s so = false)
    (hcd : ¬ s.CDs.get (.id so) > 0) : ¬ s.CurrentMana ≥ (castOf env s so).ManaCost := by
  intro hm
  have : castable env s so = true := by
    simp only [castable, decide_eq_true_eq]
    exact ⟨by omega, hm⟩
  rw [h] at this
  exact Bool.false_ne_true this

theorem choosePriority_commit (env : Env) (s : Simulation) (pre : List Int) (so : Int)
    (post : List Int) (hpre : ∀ x ∈ pre, castable env s x = false)
    (hso : castable env s so = true) :
    ∀ (lw : Int) (wm : Bool), choosePriority env s (pre ++ so :: post) lw wm =
      .ok ({ s with CastingSpell := some (castOf env s so) }, (castOf env s so).TicksUntilCast) := by
  induction pre with
  | nil =>
    intro lw wm
    simp only [castable, decide_eq_true_eq] at hso
    have h1 : ¬ s.CDs.get (.id so) > 0 := by omega
    have h2 : s.CurrentMana ≥ (castOf env s so).ManaCost := hso.2
    simp only [castOf] at h2
    simp only [List.nil_append, choosePriority, h1, if_false, h2, if_true, castOf]
  | cons x pre ih =>
    intro lw wm
    have hx := hpre x (List.mem_cons_self _ _)
    have ih2 := ih (fun y hy => hpre y (List.mem_cons_of_mem _ hy))
    simp only [List.cons_append, choosePriority]
    split
    · exact ih2 _ _
    · rename_i hcd
      have hm := castable_false env s x hx hcd
      simp only [castOf] at hm
      rw [if_neg hm]
      split
      · exact ih2 _ _
      · exact ih2 _ _

theorem choosePriority_wait (env : Env) (s : Simulation) (rest : List Int) :
    ∀ (lw : Int) (wm : Bool), (∀ x ∈ rest, castable env s x = false) →
      ∃ (w : Int) (wmf : Bool),
        choosePriority env s rest lw wm = .ok (if wmf then recordOOM env s else s, w) ∧
        w ≤ lw ∧ (∀ x ∈ rest, w ≤ spellWait env s x) ∧
        (w = lw ∨ ∃ x ∈ rest, w = spellWait env s x) ∧
        (wm = true → wmf = true) ∧
        ((w < lw ∧ ∀ x ∈ rest, s.CDs.get (.id x) > 0 → w < s.CDs.get (.id x)) → wmf = true) ∧
        ((∀ x ∈ rest, s.CDs.get (.id x) > 0) → wmf = wm) := by
  induction rest with
  | nil =>
    intro lw wm _
    refine ⟨lw, wm, by simp only [choosePriority], le_refl _, ?_, Or.inl rfl, id, ?_, fun _ => rfl⟩
    · intro x hx; cases hx
    · intro h; omega
  | cons so rest ih =>
    intro lw wm hno
    have hso := hno so (List.mem_cons_self _ _)
    have hrest : ∀ x ∈ rest, castable env s x = false :=
      fun y hy => hno y (List.mem_cons_of_mem _ hy)
    by_cases hcd : s.CDs.get (.id so) > 0
    · obtain ⟨w, wmf, he, hle, hall, hex, hwm, hrec, hcds⟩ :=
        ih (if s.CDs.get (.id so) < lw then s.CDs.get (.id so) else lw) wm hrest
      have hpw : spellWait env s so = s.CDs.get (.id so) := by
        simp only [spellWait, hcd, if_true]
      refine ⟨w, wmf, ?_, ?_, ?_, ?_, hwm, ?_, ?_⟩
      · simp only [choosePriority, hcd, if_true]; exact he
      · split at hle <;> omega
      · intro x hx
        rcases List.mem_cons.mp hx with rfl | hx
        · rw [hpw]; split at hle <;> omega
        · exact hall x hx
      · rcases hex with h | ⟨x, hx, h⟩
        · split at h
          · exact Or.inr ⟨so, List.mem_cons_self _ _, by rw [hpw]; exact h⟩
          · exact Or.inl h
        · exact Or.inr ⟨x, List.mem_cons_of_mem _ hx, h⟩
      · rintro ⟨h1, h2⟩
        refine hrec ⟨?_, fun x hx => h2 x (List.mem_cons_of_mem _ hx)⟩
        have := h2 so (List.mem_cons_self _ _) hcd
        split <;> omega
      · intro h
        exact hcds (fun x hx => h x (List.mem_cons_of_mem _ hx))
    · have hm := castable_false env s so hso hcd
      have hpw : spellWait env s so = manaRegenTicks env s (castOf env s so).ManaCost := by
        simp only [spellWait, hcd, if_false]
      simp only [castOf] at hm
      by_cases hlt : manaRegenTicks env s (castOf env s so).ManaCost < lw
      · obtain ⟨w, wmf, he, hle, hall, hex, hwm, hrec, hcds⟩ :=
          ih (manaRegenTicks env s (castOf env s so).ManaCost) true hrest
        have hlt2 := hlt
        simp only [castOf] at hlt2
        refine ⟨w, wmf, ?_, by omega, ?_, ?_, fun _ => hwm rfl, fun _ => hwm rfl, ?_⟩
        · simp only [choosePriority, hcd, if_false, hm, hlt2, if_true]
          simp only [castOf] at he
          exact he
        · intro x hx
          rcases List.mem_cons.mp hx with rfl | hx
          · rw [hpw]; exact hle
          · exact hall x hx
        · rcases hex with h | ⟨x, hx, h⟩
          · exact Or.inr ⟨so, List.mem_cons_self _ _, by rw [hpw]; exact h⟩
          · exact Or.inr ⟨x, List.mem_cons_of_mem _ hx, h⟩
        · intro h
          exact absurd (h so (List.mem_cons_self _ _)) hcd
      · obtain ⟨w, wmf, he, hle, hall, hex, hwm, hrec, hcds⟩ := ih lw wm hrest
        have hlt2 := hlt
        simp only [castOf] at hlt2
        refine ⟨w, wmf, ?_, hle, ?_, ?_, hwm, ?_, ?_⟩
        · simp only [choosePriority, hcd, if_false, hm, hlt2]
          exact he
        · intro x hx
          rcases List.mem_cons.mp hx with rfl | hx
          · rw [hpw]; omega
          · exact hall x hx
        · rcases hex with h | ⟨x, hx, h⟩
          · exact Or.inl h
          · exact Or.inr ⟨x, List.mem_cons_of_mem _ hx, h⟩
        · rintro ⟨h1, h2⟩
          exact hrec ⟨h1, fun x hx => h2 x (List.mem_cons_of_mem _ hx)⟩
        · intro h
          exact absurd (h so (List.mem_cons_self _ _)) hcd

theorem exists_first_castable (env : Env) (s : Simulation) (l : List Int)
    (hex : ∃ x ∈ l, castable env s x = true) :
    ∃ pre so post, l = pre ++ so :: post ∧ (∀ x ∈ pre, castable env s x = false) ∧
      castable env s so = true := by
  induction l with
  | nil => obtain ⟨x, hx, _⟩ := hex; cases hx
  | cons a rest ih =>
    by_cases ha : castable env s a = true
    · exact ⟨[], a, rest, rfl, fun x hx => absurd hx (List.not_mem_nil x), ha⟩
    · obtain ⟨x, hx, hc⟩ := hex
      rcases List.mem_cons.mp hx with rfl | hx
      · exact absurd hc ha
      · obtain ⟨pre, so, post, h1, h2, h3⟩ := ih ⟨x, hx, hc⟩
        refine ⟨a :: pre, so, post, by rw [h1]; rfl, ?_, h3⟩
        intro y hy
        rcases List.mem_cons.mp hy with rfl | hy
        · simpa using ha
        · exact h2 y hy

/-- C11: in priority mode (`RotationIdx = -1`), when at least one rotation
spell is castable (off cooldown and affordable), `ChooseSpell` commits the
first castable spell in list order: it sets `CastingSpell` to the cast of
that spell and returns its `TicksUntilCast`, `RotationIdx` stays `-1` and the
metrics are unchanged. -/
theorem chooseSpell_priority_commits_first (env : Env) (sim : Simulation)
    (hpri : sim.RotationIdx = -1)
    (hex : ∃ x ∈ sim.SpellRotation, castable env sim x = true) :
    ∃ pre so post, sim.SpellRotation = pre ++ so :: post ∧
      (∀ x ∈ pre, castable env sim x = false) ∧ castable env sim so = true ∧
      ∃ t, ChooseSpell env sim = .ok (t, (castOf env sim so).TicksUntilCast) ∧
        t = { sim with CastingSpell := some (castOf env sim so) } ∧
        t.CastingSpell = some (castOf env sim so) ∧ t.RotationIdx = -1 ∧
        t.metrics = sim.metrics := by
  obtain ⟨pre, so, post, h1, h2, h3⟩ := exists_first_castable env sim _ hex
  refine ⟨pre, so, post, h1, h2, h3, _, ?_, rfl, rfl, hpri, rfl⟩
  have h := choosePriority_commit env sim pre so post h2 h3 2147483647 false
  rw [← h1] at h
  unfold ChooseSpell
  rw [if_pos hpri]
  exact h

/-- Witness of C11: priority rotation Shock, LB12, CL6 with 70 mana; Shock is
too dear, LB12 is committed. -/
theorem chooseSpell_priority_commits_first_witness :
    (demoPriority (demoStats 100 0 1 0) [3, 1, 2] 70 ∅ 30 13).RotationIdx = -1 ∧
    castable demoEnv (demoPriority (demoStats 100 0 1 0) [3, 1, 2] 70 ∅ 30 13) 1 = true ∧
    choiceSummary (ChooseSpell demoEnv (demoPriority (demoStats 100 0 1 0) [3, 1, 2] 70 ∅ 30 13))
      = .ok (some 1, -1, 0, 0, 5) ∧
    ∃ pre so post,
      (demoPriority (demoStats 100 0 1 0) [3, 1, 2] 70 ∅ 30 13).SpellRotation
        = pre ++ so :: post ∧
      (∀ x ∈ pre, castable demoEnv (demoPriority (demoStats 100 0 1 0) [3, 1, 2] 70 ∅ 30 13) x
        = false) ∧
      castable demoEnv (demoPriority (demoStats 100 0 1 0) [3, 1, 2] 70 ∅ 30 13) so = true :=
  ⟨by decide, by decide!, by decide!,
    (chooseSpell_priority_commits_first demoEnv
      (demoPriority (demoStats 100 0 1 0) [3, 1, 2] 70 ∅ 30 13) (by decide)
      ⟨1, by decide, by decide!⟩).imp
      (fun _ h => h.imp (fun _ h => h.imp (fun _ h => ⟨h.1, h.2.1, h.2.2.1⟩)))⟩

theorem chooseSpell_priority_wait (env : Env) (s : Simulation) (hpri : s.RotationIdx = -1)
    (hno : ∀ x ∈ s.SpellRotation, castable env s x = false) :
    ∃ (w : Int) (wmf : Bool),
      ChooseSpell env s = .ok (if wmf then recordOOM env s else s, w) ∧
      w ≤ 2147483647 ∧ (∀ x ∈ s.SpellRotation, w ≤ spellWait env s x) ∧
      (w = 2147483647 ∨ ∃ x ∈ s.SpellRotation, w = spellWait env s x) ∧
      ((w < 2147483647 ∧
        ∀ x ∈ s.SpellRotation, s.CDs.get (.id x) > 0 → w < s.CDs.get (.id x)) → wmf = true) ∧
      ((∀ x ∈ s.SpellRotation, s.CDs.get (.id x) > 0) → wmf = false) := by
  obtain ⟨w, wmf, he, hle, hall, hex, _, hrec, hcds⟩ :=
    choosePriority_wait env s s.SpellRotation 2147483647 false hno
  refine ⟨w, wmf, ?_, hle, hall, hex, hrec, hcds⟩
  unfold ChooseSpell
  rw [if_pos hpri]
  exact he

/-- C12 (amended): in priority mode, when no rotation spell is castable,
`ChooseSpell` commits no cast, leaves `RotationIdx` alone and returns the
minimum of `math.MaxInt32` and the waits of all rotation spells, where the
wait of a spell on cooldown is its remaining cooldown and the wait of an
off-cooldown unaffordable spell is the value of
`int(math.Ceil((ManaCost - CurrentMana) / manaRegen()))` as float64 arithmetic
gives it: for a positive regeneration, the ceiling of the float64 quotient
when it is below `2 ^ 63`, and the value the implementation gives to the
conversion of an out-of-range float64 otherwise. -/
theorem chooseSpell_priority_min_wait (env : Env) (sim : Simulation)
    (hpri : sim.RotationIdx = -1)
    (hno : ∀ x ∈ sim.SpellRotation, castable env sim x = false) :
    (∃ t w, ChooseSpell env sim = .ok (t, w) ∧ t.CastingSpell = sim.CastingSpell ∧
      t.RotationIdx = sim.RotationIdx ∧ w ≤ 2147483647 ∧
      (∀ x ∈ sim.SpellRotation, w ≤ spellWait env sim x) ∧
      (w = 2147483647 ∨ ∃ x ∈ sim.SpellRotation, w = spellWait env sim x)) ∧
    (∀ x ∈ sim.SpellRotation, 0 < sim.CDs.get (.id x) →
      spellWait env sim x = sim.CDs.get (.id x)) ∧
    (0 < manaRegen env sim → ∀ x ∈ sim.SpellRotation, sim.CDs.get (.id x) < 1 →
      (⌈roundF64 (roundF64 ((castOf env sim x).ManaCost - sim.CurrentMana)
            / manaRegen env sim)⌉ < 9223372036854775808 →
        spellWait env sim x
          = ⌈roundF64 (roundF64 ((castOf env sim x).ManaCost - sim.CurrentMana)
              / manaRegen env sim)⌉) ∧
      (9223372036854775808 ≤
          ⌈roundF64 (roundF64 ((castOf env sim x).ManaCost - sim.CurrentMana)
            / manaRegen env sim)⌉ →
        spellWait env sim x = env.infToInt)) := by
  refine ⟨?_, ?_, ?_⟩
  · obtain ⟨w, wmf, he, hle, hall, hex, _, _⟩ := chooseSpell_priority_wait env sim hpri hno
    refine ⟨_, w, he, ?_, ?_, hle, hall, hex⟩
    · cases wmf
      · rfl
      · exact (recordOOM_fields env sim).2.2.2
    · cases wmf
      · rfl
      · simp only [if_true]
        unfold recordOOM
        split <;> rfl
  · intro x _ hcd
    simp only [spellWait, gt_iff_lt, hcd, if_true]
  · intro hreg x hx hcd
    have hcd2 : ¬ sim.CDs.get (.id x) > 0 := by omega
    have hm : sim.CurrentMana ≤ (castOf env sim x).ManaCost := by
      have := castable_false env sim x (hno x hx) hcd2
      exact le_of_lt (not_le.mp this)
    have hw : spellWait env sim x = manaRegenTicks env sim (castOf env sim x).ManaCost := by
      simp only [spellWait, hcd2, if_false]
    refine ⟨?_, ?_⟩
    · intro hfit
      rw [hw]
      exact (manaRegenTicks_of_fit env sim _ hreg hm hfit).1
    · intro hbig
      rw [hw]
      unfold manaRegenTicks
      rw [if_neg (ne_of_gt hreg), if_neg]
      intro hcon
      have := hcon.2
      unfold waitQuotient at this
      omega

/-- Witness of C12 (amended): Shock on cooldown for 50 ticks and LB12 20 mana
short with one mana per tick: the wait is 20 ticks. -/
theorem chooseSpell_priority_min_wait_witness :
    ((demoPriority (demoStats 100 50 1 0) [3, 1] 40 ((∅ : CDMap).insert (.id 3) 50) 30
        13).RotationIdx = -1 ∧
      ∀ x ∈ (demoPriority (demoStats 100 50 1 0) [3, 1] 40 ((∅ : CDMap).insert (.id 3) 50) 30
          13).SpellRotation,
        castable demoEnv (demoPriority (demoStats 100 50 1 0) [3, 1] 40
          ((∅ : CDMap).insert (.id 3) 50) 30 13) x = false) ∧
    (ChooseSpell demoEnv (demoPriority (demoStats 100 50 1 0) [3, 1] 40
      ((∅ : CDMap).insert (.id 3) 50) 30 13)).map Prod.snd = .ok 20 ∧
    ∃ t w, ChooseSpell demoEnv (demoPriority (demoStats 100 50 1 0) [3, 1] 40
        ((∅ : CDMap).insert (.id 3) 50) 30 13) = .ok (t, w) ∧
      t.CastingSpell = none :=
  ⟨⟨by decide, by decide!⟩, by decide!,
    (chooseSpell_priority_min_wait demoEnv (demoPriority (demoStats 100 50 1 0) [3, 1] 40
      ((∅ : CDMap).insert (.id 3) 50) 30 13) (by decide) (by decide!)).1.imp
      (fun _ h => h.imp (fun _ h => ⟨h.1, h.2.1⟩))⟩

/-- Counterexample to C12, priority rotation LB12 (cost 60), ten ticks per
second, four cases.  (1) No mana and an MP5 of `50 / 2 ^ 30`: the regeneration
is `2 ^ -30` per tick and the only wait is 64424509440 ticks, but `ChooseSpell`
returns 2147483647, the initial value of `lowestWait`.  (2) An empty priority
rotation: it returns 2147483647 as well.  (3) 2 mana and an MP5 of 29:
`manaRegen()` is the float64 below 0.58, the quotient `58 / manaRegen()` is
above 100 and its ceiling is 101, but the float64 division rounds to 100 and
`ChooseSpell` returns 100; with 4 mana and an MP5 of 7 it returns 401 where
`56 / 0.14` is 400.  (4) No mana and an MP5 of `50 / 2 ^ 60`: the wait
`60 * 2 ^ 60` is beyond the range of `int`, and `ChooseSpell` returns the
value of the conversion, `-9223372036854775808`, and records the out-of-mana
event. -/
theorem chooseSpell_priority_wait_capped :
    ((∀ x ∈ (demoPriority (demoStats 100 (50 / 1073741824) 1 0) [1] 0 ∅ 30 13).SpellRotation,
        castable demoEnv (demoPriority (demoStats 100 (50 / 1073741824) 1 0) [1] 0 ∅ 30 13) x
          = false) ∧
      manaRegen demoEnv (demoPriority (demoStats 100 (50 / 1073741824) 1 0) [1] 0 ∅ 30 13)
        = 1 / 1073741824 ∧
      ⌈((castOf demoEnv (demoPriority (demoStats 100 (50 / 1073741824) 1 0) [1] 0 ∅ 30 13)
          1).ManaCost - 0) / (1 / 1073741824 : ℚ)⌉ = 64424509440 ∧
      spellWait demoEnv (demoPriority (demoStats 100 (50 / 1073741824) 1 0) [1] 0 ∅ 30 13) 1
        = 64424509440 ∧
      (ChooseSpell demoEnv (demoPriority (demoStats 100 (50 / 1073741824) 1 0) [1] 0 ∅ 30
        13)).map Prod.snd = .ok 2147483647) ∧
    (ChooseSpell demoEnv (demoPriority (demoStats 100 50 1 0) [] 0 ∅ 30 13)).map Prod.snd
      = .ok 2147483647 ∧
    (manaRegen demoEnv (demoPriority (demoStats 100 29 1 0) [1] 2 ∅ 30 13)
        = 5224175567749775 / 9007199254740992 ∧
      ⌈((60 : ℚ) - 2) / (5224175567749775 / 9007199254740992)⌉ = 101 ∧
      (ChooseSpell demoEnv (demoPriority (demoStats 100 29 1 0) [1] 2 ∅ 30 13)).map Prod.snd
        = .ok 100 ∧
      ⌈((60 : ℚ) - 4) / ((7 / 5) / 10)⌉ = 400 ∧
      (ChooseSpell demoEnv (demoPriority (demoStats 100 7 1 0) [1] 4 ∅ 30 13)).map Prod.snd
        = .ok 401) ∧
    (manaRegen demoEnv (demoPriority (demoStats 100 (50 / 1152921504606846976) 1 0) [1] 0 ∅
        30 13) = 1 / 1152921504606846976 ∧
      choiceSummary (ChooseSpell demoEnv
        (demoPriority (demoStats 100 (50 / 1152921504606846976) 1 0) [1] 0 ∅ 30 13))
        = .ok (none, -1, 3, 13, -9223372036854775808)) := by
  refine ⟨⟨by decide!, by decide!, by decide!, by decide!, by decide!⟩, by decide!,
    ⟨by decide!, by decide!, by decide!, by decide!, by decide!⟩, by decide!, by decide!⟩

/-- C13 (amended): in priority mode with no castable rotation spell and no
out-of-mana record yet (`OOMAt = 0`), `ChooseSpell` records an out-of-mana
event (`OOMAt = currentTick / TicksPerSecond`, `DamageAtOOM = TotalDamage`)
when the wait it returns is below `math.MaxInt32` and below the remaining
cooldown of every rotation spell that is on cooldown; in particular when the
rotation is non-empty, every spell is off cooldown and the wait is below
`math.MaxInt32`. It records none (the state is unchanged) when every rotation
spell is on cooldown. -/
theorem chooseSpell_priority_oom_record (env : Env) (sim : Simulation)
    (hpri : sim.RotationIdx = -1)
    (hno : ∀ x ∈ sim.SpellRotation, castable env sim x = false)
    (hoom : sim.metrics.OOMAt = 0) :
    ∃ t w, ChooseSpell env sim = .ok (t, w) ∧
      ((w < 2147483647 ∧
          ∀ x ∈ sim.SpellRotation, sim.CDs.get (.id x) > 0 → w < sim.CDs.get (.id x)) →
        t.metrics.OOMAt = Int.tdiv sim.currentTick env.TicksPerSecond ∧
        t.metrics.DamageAtOOM = sim.metrics.TotalDamage) ∧
      ((w < 2147483647 ∧ ∀ x ∈ sim.SpellRotation, sim.CDs.get (.id x) < 1) →
        t.metrics.OOMAt = Int.tdiv sim.currentTick env.TicksPerSecond ∧
        t.metrics.DamageAtOOM = sim.metrics.TotalDamage) ∧
      ((∀ x ∈ sim.SpellRotation, sim.CDs.get (.id x) > 0) → t = sim) := by
  obtain ⟨w, wmf, he, _, _, _, hrec, hcds⟩ := chooseSpell_priority_wait env sim hpri hno
  have hset : wmf = true →
      (if wmf then recordOOM env sim else sim).metrics.OOMAt
          = Int.tdiv sim.currentTick env.TicksPerSecond ∧
        (if wmf then recordOOM env sim else sim).metrics.DamageAtOOM
          = sim.metrics.TotalDamage := by
    intro h
    subst h
    simp only [if_true, recordOOM, hoom]
    exact ⟨trivial, trivial⟩
  refine ⟨_, w, he, fun h => hset (hrec h), ?_, ?_⟩
  · rintro ⟨h1, h2⟩
    refine hset (hrec ⟨h1, fun x hx hcd => ?_⟩)
    have := h2 x hx
    omega
  · intro h
    rw [hcds h]
    rfl

/-- Witness of C13: LB12 and CL6 off cooldown and unaffordable at tick 30: the
event is recorded at second 3 with the damage 13 done so far. -/
theorem chooseSpell_priority_oom_record_witness :
    ((demoPriority (demoStats 100 50 1 0) [1, 2] 10 ∅ 30 13).RotationIdx = -1 ∧
      (∀ x ∈ (demoPriority (demoStats 100 50 1 0) [1, 2] 10 ∅ 30 13).SpellRotation,
        castable demoEnv (demoPriority (demoStats 100 50 1 0) [1, 2] 10 ∅ 30 13) x = false) ∧
      (demoPriority (demoStats 100 50 1 0) [1, 2] 10 ∅ 30 13).metrics.OOMAt = 0) ∧
    choiceSummary (ChooseSpell demoEnv (demoPriority (demoStats 100 50 1 0) [1, 2] 10 ∅ 30 13))
      = .ok (none, -1, 3, 13, 20) ∧
    ∃ t w, ChooseSpell demoEnv (demoPriority (demoStats 100 50 1 0) [1, 2] 10 ∅ 30 13)
      = .ok (t, w) :=
  ⟨⟨by decide, by decide!, by decide⟩, by decide!,
    (chooseSpell_priority_oom_record demoEnv (demoPriority (demoStats 100 50 1 0) [1, 2] 10 ∅ 30
      13) (by decide) (by decide!) (by decide)).imp (fun _ h => h.imp (fun _ h => h.1))⟩

/-- Counterexample to C13: Shock is blocked by a cooldown of 50 ticks and LB12
is 20 mana short with one mana per tick. The wait 20 comes from mana and the
out-of-mana event is recorded (second 3, damage 13), although one spell is
blocked by its cooldown. With a cooldown of 5 ticks instead the record
depends on the order of the rotation. -/
theorem chooseSpell_priority_oom_with_cooldown :
    (demoPriority (demoStats 100 50 1 0) [3, 1] 40 ((∅ : CDMap).insert (.id 3) 50) 30
      13).RotationIdx = -1 ∧
    (∀ x ∈ (demoPriority (demoStats 100 50 1 0) [3, 1] 40 ((∅ : CDMap).insert (.id 3) 50) 30
        13).SpellRotation,
      castable demoEnv (demoPriority (demoStats 100 50 1 0) [3, 1] 40
        ((∅ : CDMap).insert (.id 3) 50) 30 13) x = false) ∧
    (demoPriority (demoStats 100 50 1 0) [3, 1] 40 ((∅ : CDMap).insert (.id 3) 50) 30
      13).CDs.get (.id 3) = 50 ∧
    choiceSummary (ChooseSpell demoEnv (demoPriority (demoStats 100 50 1 0) [3, 1] 40
      ((∅ : CDMap).insert (.id 3) 50) 30 13)) = .ok (none, -1, 3, 13, 20) ∧
    choiceSummary (ChooseSpell demoEnv (demoPriority (demoStats 100 50 1 0) [1, 3] 40
      ((∅ : CDMap).insert (.id 3) 5) 30 13)) = .ok (none, -1, 3, 13, 5) ∧
    choiceSummary (ChooseSpell demoEnv (demoPriority (demoStats 100 50 1 0) [3, 1] 40
      ((∅ : CDMap).insert (.id 3) 5) 30 13)) = .ok (none, -1, 0, 0, 5) := by
  refine ⟨by decide, by decide!, by decide!, by decide!, by decide!, by decide!⟩

/-! ### Waits of the fixed-order rotation -/

/-- C14 (amended): in fixed-order mode, if the current spell is on cooldown
(entry at least 1) `ChooseSpell` returns the remaining cooldown and changes no
state; if it is off cooldown, its mana cost exceeds `CurrentMana` and the
regeneration per tick is positive, `ChooseSpell` commits no cast, leaves
`RotationIdx` unchanged (it only records the out-of-mana event) and returns
`int(math.Ceil((ManaCost - CurrentMana) / manaRegen()))` as float64 arithmetic
gives it: the ceiling of the float64 quotient when that is below `2 ^ 63`,
which is at least 0, and at least 1 when the quotient has not rounded to zero;
and the value the implementation gives to the conversion of an out-of-range
float64 otherwise. -/
theorem chooseSpell_fixed_waits (env : Env) (sim : Simulation) (so : Int)
    (h0 : 0 ≤ sim.RotationIdx)
    (hso : sim.SpellRotation.get? sim.RotationIdx.toNat = some so) :
    (1 ≤ sim.CDs.get (.id so) → ChooseSpell env sim = .ok (sim, sim.CDs.get (.id so))) ∧
    (sim.CDs.get (.id so) < 1 → sim.CurrentMana < (castOf env sim so).ManaCost →
      0 < manaRegen env sim →
      ∃ t w, ChooseSpell env sim = .ok (t, w) ∧ t = recordOOM env sim ∧
        t.CastingSpell = sim.CastingSpell ∧ t.RotationIdx = sim.RotationIdx ∧
        (⌈roundF64 (roundF64 ((castOf env sim so).ManaCost - sim.CurrentMana)
              / manaRegen env sim)⌉ < 9223372036854775808 →
          w = ⌈roundF64 (roundF64 ((castOf env sim so).ManaCost - sim.CurrentMana)
              / manaRegen env sim)⌉ ∧
          0 ≤ w ∧
          (0 < roundF64 (roundF64 ((castOf env sim so).ManaCost - sim.CurrentMana)
              / manaRegen env sim) → 1 ≤ w)) ∧
        (9223372036854775808 ≤
            ⌈roundF64 (roundF64 ((castOf env sim so).ManaCost - sim.CurrentMana)
              / manaRegen env sim)⌉ → w = env.infToInt)) := by
  have hne : sim.RotationIdx ≠ -1 := by omega
  have hnn : ¬ sim.RotationIdx < 0 := by omega
  refine ⟨?_, ?_⟩
  · intro hcd
    have : ¬ sim.CDs.get (.id so) < 1 := by omega
    simp only [ChooseSpell, hne, if_false, hnn, hso, this]
  · intro hcd hmana hreg
    have hm : ¬ sim.CurrentMana ≥ (castOf env sim so).ManaCost := not_le.mpr hmana
    simp only [castOf] at hm
    refine ⟨recordOOM env sim, manaRegenTicks env sim (castOf env sim so).ManaCost, ?_, rfl,
      (recordOOM_fields env sim).2.2.2, ?_, ?_, ?_⟩
    · simp only [ChooseSpell, hne, if_false, hnn, hso, hcd, if_true, hm, recordOOM_regen, castOf]
    · unfold recordOOM
      split <;> rfl
    · intro hfit
      obtain ⟨he, hnonneg⟩ := manaRegenTicks_of_fit env sim _ hreg (le_of_lt hmana) hfit
      refine ⟨he, hnonneg, ?_⟩
      intro hpos
      rw [he]
      have := Int.ceil_pos.mpr hpos
      unfold waitQuotient
      omega
    · intro hbig
      unfold manaRegenTicks
      rw [if_neg (ne_of_gt hreg), if_neg]
      intro hcon
      have := hcon.2
      unfold waitQuotient at this
      omega

/-- Witness of C14 (amended): the fixed rotation LB12 with 40 of the 60 mana
and one mana per tick waits 20 ticks; Shock with a cooldown of 30 ticks waits
30. -/
theorem chooseSpell_fixed_waits_witness :
    (((0 ≤ (demoSim (demoStats 100 50 1 0) [1] 0 40 []).RotationIdx ∧
      (demoSim (demoStats 100 50 1 0) [1] 0 40 []).SpellRotation.get?
        (demoSim (demoStats 100 50 1 0) [1] 0 40 []).RotationIdx.toNat = some 1) ∧
      (demoSim (demoStats 100 50 1 0) [1] 0 40 []).CDs.get (.id 1) < 1 ∧
      (demoSim (demoStats 100 50 1 0) [1] 0 40 []).CurrentMana
        < (castOf demoEnv (demoSim (demoStats 100 50 1 0) [1] 0 40 []) 1).ManaCost ∧
      0 < manaRegen demoEnv (demoSim (demoStats 100 50 1 0) [1] 0 40 [])) ∧
      ⌈roundF64 (roundF64 ((castOf demoEnv (demoSim (demoStats 100 50 1 0) [1] 0 40 [])
            1).ManaCost - (demoSim (demoStats 100 50 1 0) [1] 0 40 []).CurrentMana)
          / manaRegen demoEnv (demoSim (demoStats 100 50 1 0) [1] 0 40 []))⌉
        < 9223372036854775808) ∧
    choiceSummary (ChooseSpell demoEnv (demoSim (demoStats 100 50 1 0) [1] 0 40 []))
      = .ok (none, 0, 0, 0, 20) ∧
    (∃ t w, ChooseSpell demoEnv (demoSim (demoStats 100 50 1 0) [1] 0 40 []) = .ok (t, w) ∧
      t = recordOOM demoEnv (demoSim (demoStats 100 50 1 0) [1] 0 40 []) ∧
      t.CastingSpell = (demoSim (demoStats 100 50 1 0) [1] 0 40 []).CastingSpell ∧
      t.RotationIdx = (demoSim (demoStats 100 50 1 0) [1] 0 40 []).RotationIdx) ∧
    ({ demoSim (demoStats 100 50 1 0) [3] 0 40 [] with
        CDs := (∅ : CDMap).insert (.id 3) 30 } : Simulation).CDs.get (.id 3) = 30 ∧
    ChooseSpell demoEnv { demoSim (demoStats 100 50 1 0) [3] 0 40 [] with
        CDs := (∅ : CDMap).insert (.id 3) 30 }
      = .ok ({ demoSim (demoStats 100 50 1 0) [3] 0 40 [] with
                CDs := (∅ : CDMap).insert (.id 3) 30 },
          ({ demoSim (demoStats 100 50 1 0) [3] 0 40 [] with
              CDs := (∅ : CDMap).insert (.id 3) 30 } : Simulation).CDs.get (.id 3)) :=
  ⟨⟨⟨⟨by decide, by decide⟩, by decide!, by decide!, by decide!⟩, by decide!⟩, by decide!,
    ((chooseSpell_fixed_waits demoEnv (demoSim (demoStats 100 50 1 0) [1] 0 40 []) 1 (by decide)
      (by decide)).2 (by decide!) (by decide!) (by decide!)).imp
      (fun _ h => h.imp (fun _ h => ⟨h.1, h.2.1, h.2.2.1, h.2.2.2.1⟩)),
    by decide!,
    (chooseSpell_fixed_waits demoEnv { demoSim (demoStats 100 50 1 0) [3] 0 40 [] with
        CDs := (∅ : CDMap).insert (.id 3) 30 } 3 (by decide) (by decide)).1 (by decide!)⟩

/-- Counterexample to C14: the fixed rotation LB12 (cost 60), ten ticks per
second, off cooldown.  With 2 mana and an MP5 of 29, `manaRegen()` is the
float64 below 0.58 and `ChooseSpell` returns 100, but
`2 + 100 * manaRegen() < 60`: the least integer `w` with
`CurrentMana + w * manaRegen() >= ManaCost` is 101 (the float64 division
`58 / manaRegen()` rounds to 100).  With 4 mana and an MP5 of 7, an exact
regeneration of 0.14 gives `4 + 400 * 0.14 = 60`, and `ChooseSpell` returns
401. -/
theorem chooseSpell_fixed_wait_not_least :
    ((demoSim (demoStats 100 29 1 0) [1] 0 2 []).CDs.get (.id 1) < 1 ∧
      (demoSim (demoStats 100 29 1 0) [1] 0 2 []).CurrentMana = 2 ∧
      (castOf demoEnv (demoSim (demoStats 100 29 1 0) [1] 0 2 []) 1).ManaCost = 60 ∧
      manaRegen demoEnv (demoSim (demoStats 100 29 1 0) [1] 0 2 [])
        = 5224175567749775 / 9007199254740992 ∧
      choiceSummary (ChooseSpell demoEnv (demoSim (demoStats 100 29 1 0) [1] 0 2 []))
        = .ok (none, 0, 0, 0, 100) ∧
      (2 : ℚ) + 100 * manaRegen demoEnv (demoSim (demoStats 100 29 1 0) [1] 0 2 []) < 60 ∧
      (60 : ℚ) ≤ 2 + 101 * manaRegen demoEnv (demoSim (demoStats 100 29 1 0) [1] 0 2 [])) ∧
    ((demoSim (demoStats 100 7 1 0) [1] 0 4 []).CurrentMana = 4 ∧
      choiceSummary (ChooseSpell demoEnv (demoSim (demoStats 100 7 1 0) [1] 0 4 []))
        = .ok (none, 0, 0, 0, 401) ∧
      (60 : ℚ) ≤ 4 + 400 * ((7 / 5) / 10)) := by
  refine ⟨⟨by decide!, rfl, by decide!, by decide!, by decide!, by decide!, by decide!⟩,
    rfl, by decide!, by decide!⟩

/-! ### Construction -/

/-- C15: `NewSim` returns no engine (nil) if and only if the rotation list of
the options is empty; for a non-empty list it returns an engine whose
`SpellRotation` has one entry per spell name, the leading priority marker
"pri" excluded, and whose `RotationIdx` is `-1` exactly when the first entry
was the marker and `0` otherwise. -/
theorem newSim_nil_iff_empty (env : Env) (stats : Stats) (equip : Equipment)
    (options : Options) :
    (NewSim env stats equip options = none ↔ options.SpellOrder = []) ∧
    (options.SpellOrder ≠ [] →
      ∃ sim, NewSim env stats equip options = some sim ∧
        (options.SpellOrder.head? = some "pri" →
          sim.SpellRotation = rotationIDs env options.SpellOrder.tail ∧
          sim.SpellRotation.length = options.SpellOrder.length - 1) ∧
        (options.SpellOrder.head? ≠ some "pri" →
          sim.SpellRotation = rotationIDs env options.SpellOrder ∧
          sim.SpellRotation.length = options.SpellOrder.length) ∧
        (sim.RotationIdx = -1 ↔ options.SpellOrder.head? = some "pri") ∧
        (sim.RotationIdx = 0 ↔ options.SpellOrder.head? ≠ some "pri")) := by
  refine ⟨?_, ?_⟩
  · unfold NewSim
    constructor
    · intro h
      split at h
      · rename_i hl
        exact List.length_eq_zero.mp hl
      · exact absurd h (by simp)
    · intro h
      rw [if_pos (by rw [h]; rfl)]
  · intro hne
    have hl : ¬ options.SpellOrder.length = 0 := fun h => hne (List.length_eq_zero.mp h)
    unfold NewSim
    rw [if_neg hl]
    refine ⟨_, rfl, ?_, ?_, ?_, ?_⟩
    · intro hp
      simp only [hp, decide_True, if_true, rotationIDs, List.length_map, List.length_tail,
        and_self]
    · intro hp
      simp only [hp, decide_False, Bool.false_eq_true, if_false, rotationIDs, List.length_map,
        and_self]
    · by_cases hp : options.SpellOrder.head? = some "pri"
      · simp only [hp, decide_True, if_true]
      · simp only [hp, decide_False, Bool.false_eq_true, if_false]
        decide
    · by_cases hp : options.SpellOrder.head? = some "pri"
      · simp only [hp, decide_True, if_true, ne_eq, not_true_eq_false, iff_false]
        decide
      · simp only [hp, decide_False, Bool.false_eq_true, if_false, ne_eq, not_false_eq_true]

/-- Witness of C15: the rotation "pri", LB12, CL6 gives a priority engine with
the two spells 1 and 2; the rotation LB12 gives a fixed-order engine. -/
theorem newSim_nil_iff_empty_witness :
    (demoOptions ["pri", "LB12", "CL6"] 7).SpellOrder ≠ [] ∧
    (NewSim demoEnv (demoStats 100 50 1 0) [] (demoOptions ["pri", "LB12", "CL6"] 7)).map
      (fun s => (s.SpellRotation, s.RotationIdx)) = some ([1, 2], -1) ∧
    (NewSim demoEnv (demoStats 100 50 1 0) [] (demoOptions ["LB12"] 7)).map
      (fun s => (s.SpellRotation, s.RotationIdx)) = some ([1], 0) ∧
    (NewSim demoEnv (demoStats 100 50 1 0) [] (demoOptions [] 7)).isNone = true ∧
    ∃ sim, NewSim demoEnv (demoStats 100 50 1 0) [] (demoOptions ["pri", "LB12", "CL6"] 7)
        = some sim ∧
      (sim.RotationIdx = -1 ↔
        (demoOptions ["pri", "LB12", "CL6"] 7).SpellOrder.head? = some "pri") :=
  ⟨by decide, by decide!, by decide!, by decide!,
    ((newSim_nil_iff_empty demoEnv (demoStats 100 50 1 0) []
      (demoOptions ["pri", "LB12", "CL6"] 7)).2 (by decide)).imp
      (fun _ h => ⟨h.1, h.2.2.2.1⟩)⟩

/-! ### The decision step and the tick counter -/

theorem spellcasting_none (env : Env) (s : Simulation) (i : Int) (h : s.CastingSpell = none) :
    Spellcasting env s i = startNext env s := by
  unfold Spellcasting startNext
  simp only [h]

theorem cast_clears (env : Env) (s s1 : Simulation) (c c1 : Cast)
    (h : s.Cast env c = .ok (s1, c1)) : s1.CastingSpell = none := by
  unfold Simulation.Cast at h
  simp only at h
  split at h
  · exact absurd h (by simp)
  · simp only [Except.ok.injEq, Prod.mk.injEq] at h
    rw [← h.1]
    split <;> rfl

theorem spellcasting_due (env : Env) (s : Simulation) (i : Int) (c : Cast)
    (h : s.CastingSpell = some c) (hdue : c.TicksUntilCast = 0) :
    Spellcasting env s i =
      match s.Cast env c with
      | .error e => .error e
      | .ok (s1, _) => startNext env s1 := by
  unfold Spellcasting startNext
  simp only [h, hdue, if_true]
  cases hc : s.Cast env c with
  | error e => rfl
  | ok r =>
    obtain ⟨s1, c1⟩ := r
    simp only [Except.map, cast_clears env s s1 c c1 hc]

/-- C16, the code evaluated at the failing input (100 mana, no MP5, rotation
LB12 costing 60 with a 5-tick cast, ten ticks per second, a run of 4 seconds):
the regeneration is zero, the second iteration of the loop of `Run2` starts at
tick 5 with LB12 unaffordable, the out-of-mana wait is the conversion to `int`
of the infinity `20 / 0`, here `-9223372036854775808`, `Spellcasting` returns
it as the advance and the third iteration starts at tick
`5 - 9223372036854775808`; the counter never reaches `4 * 10` and 60 iterations
do not end the run.  With an MP5 of -50 the wait is `ceil(25 / -1)`,
`Spellcasting` returns -25 at tick 5 and the third iteration starts at tick
-20, whatever the conversion of an infinity.  With 60 mana and a positive MP5
of `50 / 2 ^ 60` the wait `60 * 2 ^ 60` is beyond the range of `int` and
`Spellcasting` returns `-9223372036854775808` at tick 5 as well. -/
theorem run_tick_goes_back :
    (∃ s i s2 j, LoopState demoEnv (demoNew (demoStats 100 0 1 0) ["LB12"]) 4 s i ∧
      i < 4 * demoEnv.TicksPerSecond ∧ i = 5 ∧ manaRegen demoEnv s = 0 ∧
      (Spellcasting demoEnv { s with currentTick := i } i).map Prod.snd
        = .ok (-9223372036854775808) ∧
      loopBody demoEnv s i = .ok (.next s2 j) ∧ j = 5 - 9223372036854775808) ∧
    (Run2 demoEnv 60 (demoNew (demoStats 100 0 1 0) ["LB12"]) 4).map
      (fun s => s.currentTick) = .error .outOfFuel ∧
    (∃ s i s2 j, LoopState demoEnv (demoNew (demoStats 100 (-50) 1 0) ["LB12"]) 4 s i ∧
      i < 4 * demoEnv.TicksPerSecond ∧ i = 5 ∧
      (Spellcasting demoEnv { s with currentTick := i } i).map Prod.snd = .ok (-25) ∧
      loopBody demoEnv s i = .ok (.next s2 j) ∧ j = -20) ∧
    (∃ s i,
      LoopState demoEnv (demoNew (demoStats 60 (50 / 1152921504606846976) 1 0) ["LB12"]) 4 s i ∧
      i < 4 * demoEnv.TicksPerSecond ∧ i = 5 ∧ 0 < manaRegen demoEnv s ∧
      (Spellcasting demoEnv { s with currentTick := i } i).map Prod.snd
        = .ok (-9223372036854775808)) := by
  refine ⟨?_, by decide!, ?_, ?_⟩
  rotate_left 2
  · have h1 := eq_next_of_isNext
        (reset demoEnv (demoNew (demoStats 60 (50 / 1152921504606846976) 1 0) ["LB12"]))
        (loopBody demoEnv
          (reset demoEnv (demoNew (demoStats 60 (50 / 1152921504606846976) 1 0) ["LB12"])) 0)
        (by decide!)
    exact ⟨demoFirst (demoNew (demoStats 60 (50 / 1152921504606846976) 1 0) ["LB12"]),
      demoFirstTick (demoNew (demoStats 60 (50 / 1152921504606846976) 1 0) ["LB12"]),
      LoopState.step LoopState.start (by decide) h1, by decide!, by decide!, by decide!,
      by decide!⟩
  · have h1 := eq_next_of_isNext (reset demoEnv (demoNew (demoStats 100 0 1 0) ["LB12"]))
        (loopBody demoEnv (reset demoEnv (demoNew (demoStats 100 0 1 0) ["LB12"])) 0)
        (by decide!)
    have h2 := eq_next_of_isNext (demoFirst (demoNew (demoStats 100 0 1 0) ["LB12"]))
        (loopBody demoEnv (demoFirst (demoNew (demoStats 100 0 1 0) ["LB12"]))
          (demoFirstTick (demoNew (demoStats 100 0 1 0) ["LB12"])))
        (by decide!)
    exact ⟨demoFirst (demoNew (demoStats 100 0 1 0) ["LB12"]),
      demoFirstTick (demoNew (demoStats 100 0 1 0) ["LB12"]), _, _,
      LoopState.step LoopState.start (by decide) h1, by decide!, by decide!, by decide!,
      by decide!, h2, by decide!⟩
  · have h1 := eq_next_of_isNext (reset demoEnv (demoNew (demoStats 100 (-50) 1 0) ["LB12"]))
        (loopBody demoEnv (reset demoEnv (demoNew (demoStats 100 (-50) 1 0) ["LB12"])) 0)
        (by decide!)
    have h2 := eq_next_of_isNext (demoFirst (demoNew (demoStats 100 (-50) 1 0) ["LB12"]))
        (loopBody demoEnv (demoFirst (demoNew (demoStats 100 (-50) 1 0) ["LB12"]))
          (demoFirstTick (demoNew (demoStats 100 (-50) 1 0) ["LB12"])))
        (by decide!)
    exact ⟨demoFirst (demoNew (demoStats 100 (-50) 1 0) ["LB12"]),
      demoFirstTick (demoNew (demoStats 100 (-50) 1 0) ["LB12"]), _, _,
      LoopState.step LoopState.start (by decide) h1, by decide!, by decide!, by decide!, h2,
      by decide!⟩

/-! ### Casts in flight -/

theorem concussion_of_nonneg (env : Env) (sim : Simulation) (cast : Cast) (dmg : ℚ)
    (h : 0 ≤ sim.Options.Talents.Concussion) :
    concussion env sim cast dmg =
      if sim.Options.Talents.Concussion > 0 ∧
          (cast.Spell.ID = env.MagicIDLB12 ∨ cast.Spell.ID = env.MagicIDCL6) then
        dmg * (1 + (1 / 100) * (sim.Options.Talents.Concussion : ℚ))
      else dmg := by
  unfold concussion
  by_cases hpos : sim.Options.Talents.Concussion > 0
  · by_cases h1 : cast.Spell.ID = env.MagicIDLB12 <;>
      by_cases h2 : cast.Spell.ID = env.MagicIDCL6 <;> simp [hpos, h1, h2]
  · have h0 : sim.Options.Talents.Concussion = 0 := by omega
    by_cases h2 : cast.Spell.ID = env.MagicIDCL6 <;> simp [h0, h2]

/-- C18, the code evaluated at the failing input (Concussion level -5, a cast
of CL6 that hits): the condition of the talent step reads
`(level > 0 && ID == LB12) || ID == CL6`, so the step multiplies the damage of
CL6 by `1 + 0.01 * level` at every level. At level -5 it turns a damage of 100
into 95, and the cast that does 36 damage at level 0 does 171/5; the same
level leaves LB12 at its 16 damage. -/
theorem concussion_scales_cl6_at_any_level :
    (demoTalented (-5)).Options.Talents.Concussion = -5 ∧
    (demoCastOf 2).Spell.ID = demoEnv.MagicIDCL6 ∧
    concussion demoEnv (demoTalented (-5)) (demoCastOf 2) 100 = 95 ∧
    ((demoTalented 0).Cast demoEnv (demoCastOf 2)).map (fun p => (p.2.DidHit, p.2.DidDmg))
      = .ok (true, 36) ∧
    ((demoTalented (-5)).Cast demoEnv (demoCastOf 2)).map (fun p => (p.2.DidHit, p.2.DidDmg))
      = .ok (true, 171 / 5) ∧
    ((demoTalented (-5)).Cast demoEnv (demoCastOf 1)).map (fun p => (p.2.DidHit, p.2.DidDmg))
      = .ok (true, 16) := by
  refine ⟨rfl, by decide!, by decide!, by decide!, by decide!, by decide!⟩

/-! ### Consumables -/

theorem popBloodlust_cast (env : Env) (hC : CastInert env) (s : Simulation) :
    (popBloodlust env s).CastingSpell = s.CastingSpell := by
  unfold popBloodlust
  split
  · exact hC.bloodlust_cast s
  · rfl

theorem popEleMastery_cast (env : Env) (s : Simulation) :
    (popEleMastery env s).CastingSpell = s.CastingSpell := by
  unfold popEleMastery
  split <;> rfl

theorem popConsumable_cast (env : Env) (key : String) (limit lo hi : Int) (s : Simulation) :
    (popConsumable env key limit lo hi s).CastingSpell = s.CastingSpell := by
  unfold popConsumable
  split <;> rfl

theorem useItem_cast (env : Env) (hC : CastInert env) (s : Simulation) (item : Item) :
    (useItem env s item).CastingSpell = s.CastingSpell := by
  unfold useItem
  cases item.Activate with
  | none => rfl
  | some f =>
    simp only
    split
    · rfl
    · split
      · rfl
      · split
        · rfl
        · split
          · exact hC.activate_cast f s
          · exact hC.activate_cast f s

theorem useItems_cast (env : Env) (hC : CastInert env) (items : List Item) (s : Simulation) :
    (items.foldl (useItem env) s).CastingSpell = s.CastingSpell := by
  induction items generalizing s with
  | nil => rfl
  | cons it rest ih => rw [List.foldl_cons, ih, useItem_cast env hC]

theorem choosePriority_cast (env : Env) (s : Simulation) (rest : List Int) :
    ∀ (lw : Int) (wm : Bool) (t : Simulation) (adv : Int),
      choosePriority env s rest lw wm = .ok (t, adv) →
      t.CastingSpell = s.CastingSpell ∨ ∃ c, t.CastingSpell = some c ∧ c.TicksUntilCast = adv := by
  induction rest with
  | nil =>
    intro lw wm t adv h
    simp only [choosePriority, Except.ok.injEq, Prod.mk.injEq] at h
    obtain ⟨h1, _⟩ := h
    subst h1
    left
    cases wm
    · rfl
    · exact (recordOOM_fields env s).2.2.2
  | cons so rest ih =>
    intro lw wm t adv h
    simp only [choosePriority] at h
    split at h
    · exact ih _ wm t adv h
    · split at h
      · simp only [Except.ok.injEq, Prod.mk.injEq] at h
        obtain ⟨h1, h2⟩ := h
        subst h1 h2
        exact Or.inr ⟨_, rfl, rfl⟩
      · split at h
        · exact ih _ true t adv h
        · exact ih lw wm t adv h

theorem chooseSpell_cast (env : Env) (s t : Simulation) (adv : Int)
    (h : ChooseSpell env s = .ok (t, adv)) :
    t.CastingSpell = s.CastingSpell ∨ ∃ c, t.CastingSpell = some c ∧ c.TicksUntilCast = adv := by
  unfold ChooseSpell at h
  split at h
  · exact choosePriority_cast env s _ _ _ t adv h
  · split at h
    · exact absurd h (by simp)
    · split at h
      · exact absurd h (by simp)
      · simp only at h
        split at h
        · split at h
          · simp only [Except.ok.injEq, Prod.mk.injEq] at h
            obtain ⟨h1, h2⟩ := h
            subst h1 h2
            exact Or.inr ⟨_, rfl, rfl⟩
          · simp only [Except.ok.injEq, Prod.mk.injEq] at h
            obtain ⟨h1, _⟩ := h
            subst h1
            exact Or.inl (recordOOM_fields env s).2.2.2
        · simp only [Except.ok.injEq, Prod.mk.injEq] at h
          obtain ⟨h1, _⟩ := h
          subst h1
          exact Or.inl rfl

theorem startNext_cast (env : Env) (hC : CastInert env) (s t : Simulation) (adv : Int)
    (hs : s.CastingSpell = none) (h : startNext env s = .ok (t, adv)) :
    t.CastingSpell = none ∨ ∃ c, t.CastingSpell = some c ∧ c.TicksUntilCast = adv := by
  unfold startNext at h
  have hc : ((popConsumable env "potion" 3000 1800 3000
      (popConsumable env "darkrune" 1500 900 1500
        (popEleMastery env (popBloodlust env s)))).Equip.foldl (useItem env)
      (popConsumable env "potion" 3000 1800 3000
        (popConsumable env "darkrune" 1500 900 1500
          (popEleMastery env (popBloodlust env s))))).CastingSpell = none := by
    rw [useItems_cast env hC, popConsumable_cast, popConsumable_cast, popEleMastery_cast,
      popBloodlust_cast env hC, hs]
  rcases chooseSpell_cast env _ t adv h with h1 | h1
  · exact Or.inl (h1.trans hc)
  · exact Or.inr h1

theorem spellcasting_resolves (env : Env) (s : Simulation) (i : Int) (hd : CastDue s) :
    Spellcasting env s i =
      match s.CastingSpell with
      | none => startNext env s
      | some c =>
        match s.Cast env c with
        | .error e => .error e
        | .ok (s1, _) => startNext env s1 := by
  rcases hd with h | ⟨c, h, hdue⟩
  · rw [spellcasting_none env s i h, h]
  · rw [spellcasting_due env s i c h hdue]
    simp only [h]

theorem spellcasting_cast (env : Env) (hC : CastInert env) (s t : Simulation) (i adv : Int)
    (hd : CastDue s) (h : Spellcasting env s i = .ok (t, adv)) :
    t.CastingSpell = none ∨ ∃ c, t.CastingSpell = some c ∧ c.TicksUntilCast = adv := by
  rw [spellcasting_resolves env s i hd] at h
  cases hcs : s.CastingSpell with
  | none =>
    rw [hcs] at h
    exact startNext_cast env hC s t adv hcs h
  | some c =>
    rw [hcs] at h
    simp only at h
    cases hc : s.Cast env c with
    | error e => rw [hc] at h; exact absurd h (by simp)
    | ok r =>
      obtain ⟨s1, c1⟩ := r
      rw [hc] at h
      exact startNext_cast env hC s1 t adv (cast_clears env s s1 c c1 hc) h

theorem advance_due (env : Env) (hC : CastInert env) (t s2 : Simulation) (i adv : Int)
    (log : List (Nat × Effect))
    (ht : t.CastingSpell = none ∨ ∃ c, t.CastingSpell = some c ∧ c.TicksUntilCast = adv)
    (h : Advance env t i adv = .ok (s2, log)) : CastDue s2 := by
  unfold Advance at h
  have hg := cleanAll_preserves env (fun s : Simulation => s.CastingSpell) hC.expire_cast
    (fun _ _ => rfl) _ (advanceTimers env t adv) _ _ h
  simp only at hg
  rcases ht with h1 | ⟨c, h1, h2⟩
  · left
    rw [hg]
    simp only [advanceTimers, h1, Option.map_none']
  · right
    refine ⟨{ c with TicksUntilCast := c.TicksUntilCast - adv }, ?_, ?_⟩
    · rw [hg]
      simp only [advanceTimers, h1, Option.map_some']
    · simp only
      omega

theorem activatePermanent_cast (env : Env) (hC : CastInert env) (s : Simulation)
    (item : Item) : (activatePermanent env s item).CastingSpell = s.CastingSpell := by
  unfold activatePermanent
  cases item.Activate with
  | none => rfl
  | some f =>
    simp only
    split
    · exact hC.activate_cast f s
    · rfl

theorem reset_cast (env : Env) (hC : CastInert env) (sim0 : Simulation) :
    (reset env sim0).CastingSpell = none := by
  have hfold : ∀ (items : List Item) (s : Simulation),
      (items.foldl (activatePermanent env) s).CastingSpell = s.CastingSpell := by
    intro items
    induction items with
    | nil => intro s; rfl
    | cons it rest ih => intro s; rw [List.foldl_cons, ih, activatePermanent_cast env hC]
  unfold reset
  simp only [hfold]
  split <;> split <;> rfl

theorem loopBody_due (env : Env) (hC : CastInert env) (s s2 : Simulation) (i j : Int)
    (hd : CastDue s) (h : loopBody env s i = .ok (.next s2 j)) : CastDue s2 := by
  unfold loopBody at h
  split at h
  · exact absurd h (by simp)
  · cases hsp : Spellcasting env { s with currentTick := i } i with
    | error e => simp [hsp] at h
    | ok r =>
      obtain ⟨t, adv⟩ := r
      have hd2 : CastDue { s with currentTick := i } := hd
      have ht := spellcasting_cast env hC _ t i adv hd2 hsp
      simp only [hsp] at h
      split at h
      · exact absurd h (by simp)
      · cases hadv : Advance env t i adv with
        | error e => simp [hadv] at h
        | ok r2 =>
          obtain ⟨u, log⟩ := r2
          simp only [hadv, Except.ok.injEq, LoopStep.next.injEq] at h
          rw [← h.1]
          exact advance_due env hC t u i adv log ht hadv

theorem loopState_due (env : Env) (hC : CastInert env) (sim0 : Simulation) (seconds : Int)
    (s : Simulation) (i : Int) (h : LoopState env sim0 seconds s i) : CastDue s := by
  induction h with
  | start => exact Or.inl (reset_cast env hC sim0)
  | step _ _ hb ih => exact loopBody_due env hC _ _ _ _ ih hb

/-- C20: when the effect code run outside `Cast` (on-expire hooks, item and
Bloodlust activations) does not alter the in-flight cast, at the start of
every iteration of the loop of `Run2` the in-flight cast is absent or has
`TicksUntilCast` exactly 0; so the decision step of that iteration passes a
cast in flight to `Cast` before it does anything else, and never takes the
final `return 1` branch of `Spellcasting`. -/
theorem run_cast_due_at_decision (env : Env) (sim0 : Simulation) (seconds : Int)
    (hC : CastInert env) (s : Simulation) (i : Int) (hs : LoopState env sim0 seconds s i) :
    (s.CastingSpell = none ∨ ∃ c, s.CastingSpell = some c ∧ c.TicksUntilCast = 0) ∧
    Spellcasting env { s with currentTick := i } i =
      (match s.CastingSpell with
      | none => startNext env { s with currentTick := i }
      | some c =>
        match Simulation.Cast env { s with currentTick := i } c with
        | .error e => .error e
        | .ok (s1, _) => startNext env s1) ∧
    (∀ t adv, Spellcasting env { s with currentTick := i } i = .ok (t, adv) →
      t.CastingSpell = none ∨ ∃ c, t.CastingSpell = some c ∧ c.TicksUntilCast = adv) := by
  have hd := loopState_due env hC sim0 seconds s i hs
  have hd2 : CastDue { s with currentTick := i } := hd
  refine ⟨hd, spellcasting_resolves env _ i hd2, ?_⟩
  intro t adv h
  exact spellcasting_cast env hC _ t i adv hd2 h

/-- Witness of C20: the second iteration of the run of the worked example
starts with the cast of LB12 in flight at 0 remaining ticks. -/
theorem run_cast_due_at_decision_witness :
    (CastInert demoEnv ∧
      LoopState demoEnv (demoNew (demoStats 1000 50 1 0) ["LB12"]) 4
        (demoFirst (demoNew (demoStats 1000 50 1 0) ["LB12"]))
        (demoFirstTick (demoNew (demoStats 1000 50 1 0) ["LB12"]))) ∧
    (demoFirst (demoNew (demoStats 1000 50 1 0) ["LB12"])).CastingSpell.map
      (fun c => (c.Spell.ID, c.TicksUntilCast)) = some (1, 0) ∧
    ((demoFirst (demoNew (demoStats 1000 50 1 0) ["LB12"])).CastingSpell = none ∨
      ∃ c, (demoFirst (demoNew (demoStats 1000 50 1 0) ["LB12"])).CastingSpell = some c ∧
        c.TicksUntilCast = 0) := by
  have hC : CastInert demoEnv := ⟨fun _ _ => rfl, fun _ _ => rfl, fun _ => rfl⟩
  have h1 := eq_next_of_isNext (reset demoEnv (demoNew (demoStats 1000 50 1 0) ["LB12"]))
      (loopBody demoEnv (reset demoEnv (demoNew (demoStats 1000 50 1 0) ["LB12"])) 0)
      (by decide!)
  have hL : LoopState demoEnv (demoNew (demoStats 1000 50 1 0) ["LB12"]) 4
      (demoFirst (demoNew (demoStats 1000 50 1 0) ["LB12"]))
      (demoFirstTick (demoNew (demoStats 1000 50 1 0) ["LB12"])) :=
    LoopState.step LoopState.start (by decide) h1
  exact ⟨⟨hC, hL⟩, by decide!,
    (run_cast_due_at_decision demoEnv (demoNew (demoStats 1000 50 1 0) ["LB12"]) 4 hC _ _ hL).1⟩

end tbc
